import Mathlib

/-!
# tinywav: a shallow embedding of `tinywav.c` and `main.c`

The C code is embedded as pure functions over an explicit stream state.

Conventions of the embedding
* A byte is a `Fin 256`; a file is a `List Byte`.
* The host is little-endian with 32-bit `int` and 64-bit `size_t` (x86-64,
  AArch64): `uint16_t`/`uint32_t` fields are laid out least significant byte
  first, and `htonl` swaps the four bytes of its argument.
* `TinyWavHeader` is laid out in one of two ways, chosen by the preprocessor
  (`Build`). Under `_WIN32` (a 64-bit target, by the convention above) the
  declaration stands between `#pragma pack(2)` and `#pragma pack()`: the
  fourteen fields follow one another without padding, 46 bytes in all, with
  `Subchunk2ID` at offset 38 and `Subchunk2Size` at offset 42. Otherwise `__attribute__((aligned(2)))` stands
  before the `typedef` and `__attribute__((packed))` after the semicolon that
  ends it, where it belongs to the declaration of `tinywav_open_read`; the
  members keep their natural alignment on these hosts (a `uint32_t` starts at
  a multiple of four): two padding bytes follow `extSize`, `Subchunk2ID` is at
  offset 40, `Subchunk2Size` at offset 44, and the struct has 48 bytes. The
  functions are the same in both builds; in particular `tinywav_close_write`
  seeks to the offsets 4 and 42 and adds 38 in both.
* A stream is a list of bytes with a position; a device may refuse bytes past
  a capacity, which is how short writes arise.
* `malloc` succeeds; output on `stdout`/`stderr` is not part of the state.
-/

namespace Tinywav

/-! ## Machine integers -/

abbrev Byte := Fin 256

/-- The low eight bits of a number, as a byte. -/
def byte (x : Nat) : Byte := ⟨x % 256, Nat.mod_lt x (by decide)⟩

/-- Conversion of a C `int` expression to `uint16_t`. -/
def toU16 (x : Int) : Nat := (x % 65536).toNat

/-- Conversion of a C `int` expression to `uint32_t`. -/
def toU32 (x : Int) : Nat := (x % 4294967296).toNat

/-- Conversion of a C `int` to `size_t` (64 bits). -/
def toSizeT (x : Int) : Nat := (x % 18446744073709551616).toNat

/-- Conversion of an unsigned value to a C `int` (32 bits, two's complement). -/
def toInt (n : Nat) : Int :=
  if n % 4294967296 < 2147483648 then ((n % 4294967296 : Nat) : Int)
  else ((n % 4294967296 : Nat) : Int) - 4294967296

/-- Memory image of a `uint16_t` on the little-endian host. -/
def le16 (x : Nat) : List Byte := [byte x, byte (x / 256)]

/-- Memory image of a `uint32_t` on the little-endian host. -/
def le32 (x : Nat) : List Byte :=
  [byte x, byte (x / 256), byte (x / 65536), byte (x / 16777216)]

/-- The `uint16_t` stored at offset `o` of a byte buffer. -/
def rd16 (bs : List Byte) (o : Nat) : Nat :=
  (bs.getD o 0).val + 256 * (bs.getD (o + 1) 0).val

/-- The `uint32_t` stored at offset `o` of a byte buffer. -/
def rd32 (bs : List Byte) (o : Nat) : Nat :=
  (bs.getD o 0).val + 256 * (bs.getD (o + 1) 0).val
    + 65536 * (bs.getD (o + 2) 0).val + 16777216 * (bs.getD (o + 3) 0).val

/-- The function `htonl` on the little-endian host: the four bytes of `x` in
reverse order. -/
def htonl (x : Nat) : Nat := rd32 (le32 x).reverse 0

/-! ## The stream collaborator (`FILE *`) -/

/-- A stdio stream: the bytes of the file, the file position, the number of
bytes the device accepts (a write that would pass `limit` is cut short), and
whether `fclose` has been called on it. -/
structure FILE where
  content : List Byte
  pos : Nat
  limit : Nat
  closed : Bool
deriving DecidableEq

/-- The call `fopen(path, "rb")`: `path` holds the bytes of the file when it
can be opened. -/
def fopen_rb (path : Option (List Byte)) : Option FILE :=
  match path with
  | none => none
  | some bs => some { content := bs, pos := 0, limit := bs.length, closed := false }

/-- The call `fopen(path, "wb")`: `path` holds the capacity of the device when
the file can be created; the stream starts empty. -/
def fopen_wb (path : Option Nat) : Option FILE :=
  match path with
  | none => none
  | some cap => some { content := [], pos := 0, limit := cap, closed := false }

/-- The call `fseek(f, off, SEEK_SET)`. -/
def fseek_set (f : FILE) (off : Nat) : FILE := { f with pos := off }

/-- The call `fseek(f, off, SEEK_CUR)`. -/
def fseek_cur (f : FILE) (off : Nat) : FILE := { f with pos := f.pos + off }

/-- The call `fread(ptr, size, nmemb, f)`: the stream after the call, the bytes
stored through `ptr`, and the number of complete items returned. -/
def fread (f : FILE) (size nmemb : Nat) : FILE × List Byte × Nat :=
  let bs := (f.content.drop f.pos).take (size * nmemb)
  ({ f with pos := f.pos + bs.length }, bs, bs.length / size)

/-- The call `fwrite(ptr, size, nmemb, f)` where `buf` is the memory at `ptr`:
the stream after the call and the number of complete items written. A gap left
by a seek past the end is filled with zero bytes. -/
def fwrite (f : FILE) (buf : List Byte) (size nmemb : Nat) : FILE × Nat :=
  let w := (buf.take (size * nmemb)).take (f.limit - f.pos)
  let pre := f.content.take f.pos ++ List.replicate (f.pos - f.content.length) 0
  ({ f with content := pre ++ w ++ f.content.drop (f.pos + w.length),
            pos := f.pos + w.length }, w.length / size)

/-- The call `fclose(f)`. -/
def fclose (f : FILE) : FILE := { f with closed := true }

/-! ## `TinyWavHeader` -/

/-- The struct `TinyWavHeader` of `tinywav.c`; every field holds the value of
its unsigned integer. -/
structure TinyWavHeader where
  ChunkID : Nat
  ChunkSize : Nat
  Format : Nat
  Subchunk1ID : Nat
  Subchunk1Size : Nat
  AudioFormat : Nat
  NumChannels : Nat
  SampleRate : Nat
  ByteRate : Nat
  BlockAlign : Nat
  BitsPerSample : Nat
  extSize : Nat
  Subchunk2ID : Nat
  Subchunk2Size : Nat
deriving DecidableEq

/-- The two configurations of `tinywav.c`: `win32` is the branch `#if _WIN32`
(`#pragma pack(2)`), `other` is the branch `#else`, in which the struct is not
packed. In the second, `junk` is the value of the two padding bytes of a
header object that comes from `malloc`: no statement of `tinywav.c` stores to
them, so they hold whatever the allocation left there. -/
inductive Build where
  | win32
  | other (junk : Nat)
deriving DecidableEq

/-- The value of `sizeof(TinyWavHeader)`: the fields take
5 × 4 + 2 × 2 + 2 × 4 + 3 × 2 + 2 × 4 = 46 bytes; without packing, two
padding bytes align `Subchunk2ID` to a multiple of four. -/
def sizeofTinyWavHeader : Build → Nat
  | Build.win32 => 46
  | Build.other _ => 48

/-- The value of `offsetof(TinyWavHeader, Subchunk2ID)`; `Subchunk2Size`
follows four bytes later. The fields before `Subchunk2ID` have the same
offsets in both builds. -/
def offsetofSubchunk2ID : Build → Nat
  | Build.win32 => 38
  | Build.other _ => 40

/-- The bytes between `extSize` and `Subchunk2ID` in a header object that
`tinywav_open_write` allocated. -/
def padding : Build → List Byte
  | Build.win32 => []
  | Build.other junk => le16 junk

/-- The bytes of a `TinyWavHeader` object in memory, hence what
`fwrite(h, sizeof(TinyWavHeader), 1, f)` sends to the stream. -/
def headerBytes (B : Build) (h : TinyWavHeader) : List Byte :=
  le32 h.ChunkID ++ le32 h.ChunkSize ++ le32 h.Format ++ le32 h.Subchunk1ID
    ++ le32 h.Subchunk1Size ++ le16 h.AudioFormat ++ le16 h.NumChannels
    ++ le32 h.SampleRate ++ le32 h.ByteRate ++ le16 h.BlockAlign
    ++ le16 h.BitsPerSample ++ le16 h.extSize ++ padding B ++ le32 h.Subchunk2ID
    ++ le32 h.Subchunk2Size

/-- The `TinyWavHeader` object whose memory holds the bytes `bs`, hence what
`fread(tw->h, sizeof(TinyWavHeader), 1, f)` leaves in `*tw->h`. -/
def headerOfBytes (B : Build) (bs : List Byte) : TinyWavHeader :=
  { ChunkID := rd32 bs 0, ChunkSize := rd32 bs 4, Format := rd32 bs 8,
    Subchunk1ID := rd32 bs 12, Subchunk1Size := rd32 bs 16,
    AudioFormat := rd16 bs 20, NumChannels := rd16 bs 22,
    SampleRate := rd32 bs 24, ByteRate := rd32 bs 28, BlockAlign := rd16 bs 32,
    BitsPerSample := rd16 bs 34, extSize := rd16 bs 36,
    Subchunk2ID := rd32 bs (offsetofSubchunk2ID B),
    Subchunk2Size := rd32 bs (offsetofSubchunk2ID B + 4) }

/-! ## `TinyWav` and the functions of `tinywav.c` -/

/-- The struct `TinyWav` of `tinywav.h`. The pointer `f` is `none` when it is
`NULL`; a stream that was closed without resetting the pointer stays `some`
with `closed = true`. The pointer `h` is `none` when it addresses no live
header object. -/
structure TinyWav where
  f : Option FILE
  h : Option TinyWavHeader
  numChannels : Int
  samplerate : Int
  bytesPerSample : Int
  totalDataBytes : Nat
  rpos : Nat
deriving DecidableEq

/-- Outcome of the chunk-skipping loop of `tinywav_open_read`. -/
inductive Scan where
  | found (f : FILE) (h : TinyWavHeader)
  | eof (f : FILE)
  | fuel
deriving DecidableEq

/-- The loop `while (tw->h->Subchunk2ID != htonl(0x64617461)) { ... }` of
`tinywav_open_read`, run for at most the given number of iterations. -/
def skipLoop : Nat → FILE → TinyWavHeader → Scan
  | 0, _, _ => Scan.fuel
  | n + 1, f, h =>
    if h.Subchunk2ID ≠ htonl 0x64617461 then
      let f1 := fseek_cur f 4
      let r := fread f1 4 2
      if r.2.2 ≠ 2 then Scan.eof r.1
      else skipLoop n r.1 { h with Subchunk2ID := rd32 r.2.1 0, Subchunk2Size := rd32 r.2.1 4 }
    else Scan.found f h

/-- The function `tinywav_open_read`, as built in configuration `B`. The
result is `none` only if the chunk-skipping loop needed more iterations than
the stream has bytes. -/
def tinywav_open_read (B : Build) (tw : TinyWav) (path : Option (List Byte)) :
    Option (TinyWav × Int) :=
  match fopen_rb path with
  | none => some ({ tw with f := none }, -1)
  | some f0 =>
    let r := fread f0 (sizeofTinyWavHeader B) 1
    if r.2.2 ≠ 1 then some ({ tw with f := some (fclose r.1), h := none }, -1)
    else
      let h := headerOfBytes B r.2.1
      if h.ChunkID ≠ htonl 0x52494646 ∨ h.Format ≠ htonl 0x57415645
          ∨ h.Subchunk1ID ≠ htonl 0x666d7420 then
        some ({ tw with f := some (fclose r.1), h := none }, -1)
      else
        match skipLoop (f0.content.length + 1) r.1 h with
        | Scan.fuel => none
        | Scan.eof f2 => some ({ tw with f := some (fclose f2), h := none }, -1)
        | Scan.found f2 h2 =>
          if h2.Subchunk2ID ≠ htonl 0x64617461 then
            some ({ tw with f := some (fclose f2), h := none }, -1)
          else
            some ({ f := some f2, h := some h2,
                    totalDataBytes := h2.Subchunk2Size,
                    numChannels := (h2.NumChannels : Int),
                    bytesPerSample := ((h2.BitsPerSample / 8 : Nat) : Int),
                    samplerate := toInt h2.SampleRate,
                    rpos := 0 }, 0)

/-- The function `tinywav_read_f`: the session after the call, the value
returned, and the bytes stored through `data`. The expressions `len & ~1` and
`len & ~3` clear the low one or two bits of the two's complement `len`
(`land_not_one`, `land_not_three`). A call on a `NULL` stream (undefined in C)
transfers nothing. -/
def tinywav_read_f (tw : TinyWav) (len : Int) : TinyWav × Int × List Byte :=
  if tw.bytesPerSample = 2 ∨ tw.bytesPerSample = 4 then
    let len1 := if tw.bytesPerSample = 2 then len - len % 2 else len - len % 4
    match tw.f with
    | none => (tw, 0, [])
    | some f =>
      let r := fread f 1 (toSizeT len1)
      let bytes_read := r.2.2
      let rpos := (tw.rpos + bytes_read) % 18446744073709551616
      let tw1 := { tw with f := some r.1, rpos := rpos }
      if rpos > tw.totalDataBytes then
        let valid_bytes :=
          toSizeT ((bytes_read : Int) - toSizeT ((rpos : Int) - (tw.totalDataBytes : Int)))
        (tw1, toInt valid_bytes, r.2.1)
      else (tw1, toInt bytes_read, r.2.1)
  else (tw, -1, [])

/-- The function `tinywav_close_read`. -/
def tinywav_close_read (tw : TinyWav) : TinyWav :=
  { tw with f := none, h := none }

/-- The header object that `tinywav_open_write` prepares ("prepare WAV
header"). The product `samplerate * numChannels * bytesPerSample` is taken in
the integers and then converted, which is what 32-bit wrap-around computes. -/
def initHeader (numChannels samplerate bytesPerSample : Int) : TinyWavHeader :=
  { ChunkID := htonl 0x52494646
    ChunkSize := 0
    Format := htonl 0x57415645
    Subchunk1ID := htonl 0x666d7420
    Subchunk1Size := 18
    AudioFormat := if bytesPerSample = 2 then 1 else 3
    NumChannels := toU16 numChannels
    SampleRate := toU32 samplerate
    ByteRate := toU32 (samplerate * numChannels * bytesPerSample)
    BlockAlign := toU16 (numChannels * bytesPerSample)
    BitsPerSample := toU16 (bytesPerSample * 8)
    extSize := 0
    Subchunk2ID := htonl 0x64617461
    Subchunk2Size := 0 }

/-- The function `tinywav_open_write`, as built in configuration `B`; `path`
is what `fopen(path, "wb")` finds (see `fopen_wb`). -/
def tinywav_open_write (B : Build) (tw : TinyWav) (path : Option Nat)
    (numChannels samplerate bytesPerSample : Int) : TinyWav × Int :=
  if numChannels < 1 ∧ numChannels > 7 then (tw, -1)
  else if samplerate ≠ 16000 ∧ samplerate ≠ 32000 ∧ samplerate ≠ 48000 then (tw, -1)
  else if (bytesPerSample ≠ 2 ∧ bytesPerSample ≠ 4) ∧ bytesPerSample ≠ 3 then (tw, -1)
  else
    match fopen_wb path with
    | none => ({ tw with f := none }, -1)
    | some f0 =>
      let h := initHeader numChannels samplerate bytesPerSample
      let w := fwrite f0 (headerBytes B h) (sizeofTinyWavHeader B) 1
      ({ f := some w.1, h := some h, numChannels := numChannels,
         bytesPerSample := bytesPerSample, samplerate := samplerate,
         totalDataBytes := 0, rpos := tw.rpos }, 0)

/-- The function `tinywav_write_f`, where `data` is the memory at the pointer
`data`: the session after the call and the value returned. A call on a `NULL`
stream (undefined in C) transfers nothing. -/
def tinywav_write_f (tw : TinyWav) (data : List Byte) (len : Int) : TinyWav × Nat :=
  match tw.f with
  | none => (tw, 0)
  | some f =>
    let w := fwrite f data 1 (toSizeT len)
    ({ tw with f := some w.1,
               totalDataBytes := (tw.totalDataBytes + toSizeT len) % 18446744073709551616 },
     w.2)

/-- The function `tinywav_close_write`: the session after the call and the
bytes the closed file holds. The offsets 4 and 42 and the summand 38 are the
constants of the source, whatever the layout of the header. A call on a `NULL`
stream (undefined in C) leaves an empty file. -/
def tinywav_close_write (tw : TinyWav) : TinyWav × List Byte :=
  match tw.f with
  | none => (tw, [])
  | some f =>
    let data_len := tw.totalDataBytes % 4294967296
    let f1 := fseek_set f 4
    let chunkSize_len := (38 + data_len) % 4294967296
    let w1 := fwrite f1 (le32 chunkSize_len) 4 1
    let f2 := fseek_set w1.1 42
    let w2 := fwrite f2 (le32 data_len) 4 1
    ({ tw with f := none, h := none }, (fclose w2.1).content)

/-- The function `tinywav_isOpen`. -/
def tinywav_isOpen (tw : TinyWav) : Bool := tw.f.isSome

/-! ## Callers -/

/-- A caller that issues one `tinywav_write_f(tw, c, len)` per buffer `c` of
the list, with `len` the size of the buffer. -/
def write_chunks (tw : TinyWav) : List (List Byte) → TinyWav
  | [] => tw
  | c :: rest => write_chunks (tinywav_write_f tw c (c.length : Int)).1 rest

/-- A writer session: `tinywav_open_write`, one `tinywav_write_f` per buffer,
`tinywav_close_write`; the result is the closed file. -/
def writeSession (B : Build) (tw : TinyWav) (path : Option Nat)
    (numChannels samplerate bytesPerSample : Int) (chunks : List (List Byte)) : List Byte :=
  (tinywav_close_write
    (write_chunks (tinywav_open_write B tw path numChannels samplerate bytesPerSample).1 chunks)).2

/-- A caller that issues `tinywav_read_f(tw, data, len)` once per entry of
`lens`; the result lists, call by call, the value returned and the bytes
stored through `data`. -/
def read_calls (tw : TinyWav) : List Int → List (Int × List Byte)
  | [] => []
  | len :: rest =>
    let r := tinywav_read_f tw len
    (r.2.1, r.2.2) :: read_calls r.1 rest

/-- The array `buffer` of `main` once its inner loop has run (`buffer[j] = j`
for `j < BLOCK_SIZE = 512`), as the 1024 bytes it occupies. -/
def rampBuffer : List Byte := (List.range 512).flatMap (fun j => le16 j)

/-- The outer loop of `main`: `n` calls
`tinywav_write_f(&tw, buffer, BLOCK_SIZE * sizeof(int16_t))`. -/
def mainLoop : Nat → TinyWav → TinyWav
  | 0, tw => tw
  | n + 1, tw => mainLoop n (tinywav_write_f tw rampBuffer (512 * 2)).1

/-- The function `main` of `main.c`: its return value and, when it got that
far, the file it leaves at `argv[1]`. The local `tw` starts out with an
indeterminate value, the argument `tw`. -/
def main (B : Build) (tw : TinyWav) (argc : Nat) (path : Option Nat) :
    Int × Option (List Byte) :=
  if argc < 2 then (-1, none)
  else
    let tw1 := (tinywav_open_write B tw path 1 48000 2).1
    let tw2 := mainLoop 3 tw1
    (0, some (tinywav_close_write tw2).2)

/-- The header of a finished file when the struct is packed: the header
`tinywav_open_write` prepared, with the two length fields as
`tinywav_close_write` sets them for `total` data bytes. -/
def closedHeader (numChannels samplerate bytesPerSample : Int) (total : Nat) : TinyWavHeader :=
  { initHeader numChannels samplerate bytesPerSample with
      ChunkSize := (38 + total % 4294967296) % 4294967296
      Subchunk2Size := total % 4294967296 }

/-- The four bytes of the chunk id "RIFF". -/
def tagRIFF : List Byte := [0x52, 0x49, 0x46, 0x46]

/-- The four bytes of the form type "WAVE". -/
def tagWAVE : List Byte := [0x57, 0x41, 0x56, 0x45]

/-- The four bytes of the chunk id "fmt ". -/
def tagFmt : List Byte := [0x66, 0x6d, 0x74, 0x20]

/-- The four bytes of the chunk id "data". -/
def tagData : List Byte := [0x64, 0x61, 0x74, 0x61]

/-- The four bytes of the chunk id "LIST". -/
def tagLIST : List Byte := [0x4c, 0x49, 0x53, 0x54]

/-- A WAV file with an 18-byte "fmt " chunk (as the packed build of this
library writes it), with one more chunk (`id`, the size of `payload`,
`payload`) inserted between the "fmt " chunk, which ends at offset 38, and the
"data" chunk; the RIFF size at offset 4 grows by the size of the inserted
chunk. -/
def insertChunk (file id payload : List Byte) : List Byte :=
  file.take 4 ++ le32 (rd32 file 4 + 8 + payload.length) ++ (file.drop 8).take 30
    ++ id ++ le32 payload.length ++ payload ++ file.drop 38

/-- A mono 16-bit file, with the header in the layout of build `B`, whose
"data" chunk declares and holds one sample (two bytes) and is followed by an
empty "LIST" chunk. In the packed layout this is a well-formed WAV file of 56
bytes with RIFF size 48. -/
def trailingChunkFile (B : Build) : List Byte :=
  headerBytes B { initHeader 1 16000 2 with
                    ChunkSize := sizeofTinyWavHeader B + 2, Subchunk2Size := 2 }
    ++ [1, 2] ++ tagLIST ++ le32 0

/-- A file with the four tags in place, in the layout of build `B`, whose
header declares 8 channels, 44100 Hz and 8 bits per sample, followed by 4 data
bytes (50 bytes in the packed layout). -/
def unsupportedFormatFile (B : Build) : List Byte :=
  headerBytes B { initHeader 8 48000 2 with
                    ChunkSize := sizeofTinyWavHeader B - 4, NumChannels := 8,
                    SampleRate := 44100, ByteRate := 352800,
                    BlockAlign := 8, BitsPerSample := 8, Subchunk2Size := 4 }
    ++ [1, 2, 3, 4]

/-- A stream that ends after 12 bytes: "RIFF", a size, "WAVE". -/
def truncatedFile : List Byte := tagRIFF ++ le32 4 ++ tagWAVE

/-- A stream of `sizeof(TinyWavHeader)` bytes with "RIFF", "WAVE" and "fmt "
in place and "LIST" where build `B` looks for the "data" tag, with nothing
after it. -/
def noDataFile (B : Build) : List Byte :=
  headerBytes B { initHeader 1 16000 2 with
                    ChunkSize := sizeofTinyWavHeader B - 8, Subchunk2ID := htonl 0x4c495354 }

/-- The session of a writer after `tinywav_open_write` and one
`tinywav_write_f` per buffer, before it is closed. -/
def writerSession (B : Build) (tw : TinyWav) (path : Option Nat)
    (numChannels samplerate bytesPerSample : Int) (chunks : List (List Byte)) : TinyWav :=
  write_chunks (tinywav_open_write B tw path numChannels samplerate bytesPerSample).1 chunks

/-- A session object that has not been used yet. -/
def tw0 : TinyWav :=
  { f := none, h := none, numChannels := 0, samplerate := 0, bytesPerSample := 0,
    totalDataBytes := 0, rpos := 0 }

/-- The 50-byte WAV file that the packed build of this library writes for two
mono 16-bit frames. -/
def twoFrameFile : List Byte :=
  writeSession Build.win32 tw0 (some 100) 1 16000 2 [[1, 2], [3, 4]]

/-- The file `twoFrameFile` with a "LIST" chunk of four payload bytes inserted
before the "data" chunk (62 bytes): the "data" id stands at offset 50. -/
def fourByteChunkFile : List Byte := insertChunk twoFrameFile tagLIST [9, 9, 9, 9]

/-- The file `twoFrameFile` with a "LIST" chunk of six payload bytes inserted
before the "data" chunk (64 bytes): the "data" id stands at offset 52. -/
def sixByteChunkFile : List Byte := insertChunk twoFrameFile tagLIST [9, 9, 9, 9, 9, 9]

/-- A well-formed mono 16-bit WAV file of 60 bytes, written by the packed build
of this library, whose 14 data bytes are three samples followed by the bytes
of "data" and of the number 2. -/
def dataInSamplesFile : List Byte :=
  writeSession Build.win32 tw0 (some 100) 1 16000 2
    [[1, 2], [3, 4], [5, 6], [0x64, 0x61], [0x74, 0x61], [2, 0], [0, 0]]

/-! ## Byte-level lemmas -/

theorem byte_val (x : Nat) : (byte x).val = x % 256 := rfl

theorem headerBytes_length (B : Build) (h : TinyWavHeader) :
    (headerBytes B h).length = sizeofTinyWavHeader B := by
  cases B <;> simp [headerBytes, padding, le32, le16, sizeofTinyWavHeader]

/-- The struct has 46 or 48 bytes, and `Subchunk2ID` and `Subchunk2Size` are
its last eight. -/
theorem sizeof_bounds (B : Build) :
    46 ≤ sizeofTinyWavHeader B ∧ sizeofTinyWavHeader B ≤ 48
      ∧ offsetofSubchunk2ID B + 8 = sizeofTinyWavHeader B := by
  cases B <;> simp [sizeofTinyWavHeader, offsetofSubchunk2ID]

theorem htonl_RIFF : htonl 0x52494646 = 0x46464952 := by decide

theorem htonl_WAVE : htonl 0x57415645 = 0x45564157 := by decide

theorem htonl_fmt : htonl 0x666d7420 = 0x20746d66 := by decide

theorem htonl_data : htonl 0x64617461 = 0x61746164 := by decide

theorem ldiff_one (n : Nat) : Nat.ldiff n 1 = n - n % 2 := by
  apply Nat.eq_of_testBit_eq
  intro i
  rw [Nat.testBit_ldiff]
  cases i with
  | zero => simp [Nat.testBit_zero]; omega
  | succ i =>
    simp only [Nat.testBit_succ]
    have : (n - n % 2) / 2 = n / 2 := by omega
    simp [this]

theorem lor_one (n : Nat) : n ||| 1 = n + 1 - n % 2 := by
  apply Nat.eq_of_testBit_eq
  intro i
  rw [Nat.testBit_lor]
  cases i with
  | zero => simp [Nat.testBit_zero]; omega
  | succ i =>
    simp only [Nat.testBit_succ]
    have : (n + 1 - n % 2) / 2 = n / 2 := by omega
    simp [this]

theorem ldiff_three (n : Nat) : Nat.ldiff n 3 = n - n % 4 := by
  apply Nat.eq_of_testBit_eq
  intro i
  rw [Nat.testBit_ldiff]
  rcases i with _ | _ | i
  · simp [Nat.testBit_zero]; omega
  · simp only [Nat.testBit_succ, Nat.testBit_zero]
    have : (n - n % 4) / 2 % 2 = 0 := by omega
    simp [this]
  · simp only [Nat.testBit_succ]
    have : (n - n % 4) / 2 / 2 = n / 2 / 2 := by omega
    simp [this]

theorem lor_three (n : Nat) : n ||| 3 = n + 3 - n % 4 := by
  apply Nat.eq_of_testBit_eq
  intro i
  rw [Nat.testBit_lor]
  rcases i with _ | _ | i
  · simp [Nat.testBit_zero]; omega
  · simp only [Nat.testBit_succ, Nat.testBit_zero]
    have : (n + 3 - n % 4) / 2 % 2 = 1 := by omega
    simp [this]
  · simp only [Nat.testBit_succ]
    have : (n + 3 - n % 4) / 2 / 2 = n / 2 / 2 := by omega
    simp [this]

/-- The expression `len & (~0x00000001)` of `tinywav_read_f`, a bitwise "and" of
two's complement integers (`~1` is -2), is the arithmetic form the embedding
uses. -/
theorem land_not_one (len : Int) : Int.land len (-2) = len - len % 2 := by
  cases len with
  | ofNat n =>
    show ((Nat.ldiff n 1 : Nat) : Int) = _
    rw [ldiff_one]
    simp only [Int.ofNat_eq_coe]
    omega
  | negSucc n =>
    show Int.negSucc (n ||| 1) = _
    rw [lor_one]
    simp only [Int.negSucc_eq]
    omega

/-- The expression `len & (~0x3)` of `tinywav_read_f` (`~3` is -4) is the
arithmetic form the embedding uses. -/
theorem land_not_three (len : Int) : Int.land len (-4) = len - len % 4 := by
  cases len with
  | ofNat n =>
    show ((Nat.ldiff n 3 : Nat) : Int) = _
    rw [ldiff_three]
    simp only [Int.ofNat_eq_coe]
    omega
  | negSucc n =>
    show Int.negSucc (n ||| 3) = _
    rw [lor_three]
    simp only [Int.negSucc_eq]
    omega


/-- Reading back the memory image of a header gives each field reduced to its
width. -/
theorem headerOfBytes_headerBytes (B : Build) (h : TinyWavHeader) (rest : List Byte) :
    headerOfBytes B (headerBytes B h ++ rest) =
      { ChunkID := h.ChunkID % 4294967296, ChunkSize := h.ChunkSize % 4294967296,
        Format := h.Format % 4294967296, Subchunk1ID := h.Subchunk1ID % 4294967296,
        Subchunk1Size := h.Subchunk1Size % 4294967296,
        AudioFormat := h.AudioFormat % 65536, NumChannels := h.NumChannels % 65536,
        SampleRate := h.SampleRate % 4294967296, ByteRate := h.ByteRate % 4294967296,
        BlockAlign := h.BlockAlign % 65536, BitsPerSample := h.BitsPerSample % 65536,
        extSize := h.extSize % 65536, Subchunk2ID := h.Subchunk2ID % 4294967296,
        Subchunk2Size := h.Subchunk2Size % 4294967296 } := by
  cases B <;>
  · simp only [headerOfBytes, headerBytes, padding, offsetofSubchunk2ID, le32, le16, rd32, rd16,
      List.cons_append, List.nil_append, List.append_nil, List.append_assoc, List.getD_cons_zero,
      List.getD_cons_succ, byte_val, TinyWavHeader.mk.injEq]
    refine ⟨?_, ?_, ?_, ?_, ?_, ?_, ?_, ?_, ?_, ?_, ?_, ?_, ?_, ?_⟩ <;> omega

/-- The fields of a header image, read at their offsets in a file. -/
theorem fields_of_file (B : Build) (h : TinyWavHeader) (rest : List Byte) :
    rd32 (headerBytes B h ++ rest) 4 = h.ChunkSize % 4294967296
      ∧ rd16 (headerBytes B h ++ rest) 20 = h.AudioFormat % 65536
      ∧ rd16 (headerBytes B h ++ rest) 22 = h.NumChannels % 65536
      ∧ rd32 (headerBytes B h ++ rest) 24 = h.SampleRate % 4294967296
      ∧ rd32 (headerBytes B h ++ rest) 28 = h.ByteRate % 4294967296
      ∧ rd16 (headerBytes B h ++ rest) 32 = h.BlockAlign % 65536
      ∧ rd16 (headerBytes B h ++ rest) 34 = h.BitsPerSample % 65536
      ∧ rd32 (headerBytes B h ++ rest) (offsetofSubchunk2ID B + 4)
          = h.Subchunk2Size % 4294967296 := by
  have e := headerOfBytes_headerBytes B h rest
  simp only [headerOfBytes, TinyWavHeader.mk.injEq] at e
  obtain ⟨-, e1, -, -, -, e5, e6, e7, e8, e9, e10, -, -, e13⟩ := e
  exact ⟨e1, e5, e6, e7, e8, e9, e10, e13⟩

/-! ## Stream lemmas -/

/-- A write that fits in the device and starts inside the file replaces the
bytes under it and reports every item written. -/
theorem fwrite_fits (f : FILE) (buf : List Byte) (size nmemb : Nat)
    (h1 : buf.length = size * nmemb) (h2 : f.pos + buf.length ≤ f.limit)
    (h3 : f.pos ≤ f.content.length) :
    fwrite f buf size nmemb =
      ({ f with content := f.content.take f.pos ++ buf ++ f.content.drop (f.pos + buf.length),
                pos := f.pos + buf.length }, buf.length / size) := by
  have e1 : buf.take (size * nmemb) = buf := List.take_of_length_le (by omega)
  have e2 : buf.take (f.limit - f.pos) = buf := List.take_of_length_le (by omega)
  have e3 : f.pos - f.content.length = 0 := by omega
  simp [fwrite, e1, e2, e3]

/-- With the packed layout, overwriting the bytes 4..7 and 42..45 of a file
that starts with a header image gives the image of the header with
`ChunkSize` and `Subchunk2Size` set. -/
theorem patch_header (h : TinyWavHeader) (data : List Byte) (cs dl : Nat) :
    ((headerBytes Build.win32 h ++ data).take 4 ++ le32 cs
          ++ (headerBytes Build.win32 h ++ data).drop 8).take 42
        ++ le32 dl
        ++ ((headerBytes Build.win32 h ++ data).take 4 ++ le32 cs
          ++ (headerBytes Build.win32 h ++ data).drop 8).drop 46
      = headerBytes Build.win32 { h with ChunkSize := cs, Subchunk2Size := dl } ++ data := by
  simp [headerBytes, padding, le32, le16]

/-- Without packing, the same two overwrites set `ChunkSize`, but the second
one lands on the last two bytes of `Subchunk2ID` and the first two of
`Subchunk2Size`. -/
theorem patch_header_other (junk : Nat) (h : TinyWavHeader) (data : List Byte) (cs dl : Nat) :
    ((headerBytes (Build.other junk) h ++ data).take 4 ++ le32 cs
          ++ (headerBytes (Build.other junk) h ++ data).drop 8).take 42
        ++ le32 dl
        ++ ((headerBytes (Build.other junk) h ++ data).take 4 ++ le32 cs
          ++ (headerBytes (Build.other junk) h ++ data).drop 8).drop 46
      = (headerBytes (Build.other junk) { h with ChunkSize := cs }).take 42 ++ le32 dl
          ++ (le32 h.Subchunk2Size).drop 2 ++ data := by
  simp [headerBytes, padding, le32, le16]

theorem le32_length (x : Nat) : (le32 x).length = 4 := by simp [le32]

/-- The bytes of a list in which the segment at offset `o` was overwritten
with the `n` bytes of `w`. -/
theorem getD_patch (c w : List Byte) (o n i : Nat) (hw : w.length = n)
    (ho : o + n ≤ c.length) :
    (c.take o ++ w ++ c.drop (o + n)).getD i 0 =
      if o ≤ i ∧ i < o + n then w.getD (i - o) 0 else c.getD i 0 := by
  subst hw
  have hto : (c.take o).length = o := by rw [List.length_take]; omega
  simp only [List.getD_eq_getElem?_getD]
  by_cases h1 : i < o
  · have hc : ¬ (o ≤ i ∧ i < o + w.length) := by omega
    rw [if_neg hc, List.append_assoc, List.getElem?_append_left (by omega),
      List.getElem?_take, if_pos h1]
  · by_cases h2 : i < o + w.length
    · rw [if_pos ⟨by omega, h2⟩, List.append_assoc, List.getElem?_append_right (by omega), hto,
        List.getElem?_append_left (by omega)]
    · have hc : ¬ (o ≤ i ∧ i < o + w.length) := by omega
      rw [if_neg hc, List.getElem?_append_right (by simp only [List.length_append]; omega),
        List.length_append, hto, List.getElem?_drop]
      congr 2
      omega

theorem patch_length (c w : List Byte) (o n : Nat) (hw : w.length = n)
    (ho : o + n ≤ c.length) :
    (c.take o ++ w ++ c.drop (o + n)).length = c.length := by
  simp only [List.length_append, List.length_take, List.length_drop]
  omega

/-- The number stored at offset `o` after four bytes there were overwritten
with the image of `x`. -/
theorem rd32_patch_at (c : List Byte) (o x : Nat) (ho : o + 4 ≤ c.length) :
    rd32 (c.take o ++ le32 x ++ c.drop (o + 4)) o = x % 4294967296 := by
  have hl := le32_length x
  have e0 := getD_patch c (le32 x) o 4 o hl ho
  have e1 := getD_patch c (le32 x) o 4 (o + 1) hl ho
  have e2 := getD_patch c (le32 x) o 4 (o + 2) hl ho
  have e3 := getD_patch c (le32 x) o 4 (o + 3) hl ho
  rw [if_pos (by omega)] at e0 e1 e2 e3
  simp only [Nat.sub_self, Nat.add_sub_cancel_left] at e0 e1 e2 e3
  simp only [rd32, e0, e1, e2, e3]
  simp only [le32, List.getD_cons_zero, List.getD_cons_succ, byte_val]
  omega

/-- A 32-bit number that lies clear of an overwritten segment is unchanged. -/
theorem rd32_patch_off (c w : List Byte) (o n p : Nat) (hw : w.length = n)
    (ho : o + n ≤ c.length) (hp : p + 4 ≤ o ∨ o + n ≤ p) :
    rd32 (c.take o ++ w ++ c.drop (o + n)) p = rd32 c p := by
  have e0 := getD_patch c w o n p hw ho
  have e1 := getD_patch c w o n (p + 1) hw ho
  have e2 := getD_patch c w o n (p + 2) hw ho
  have e3 := getD_patch c w o n (p + 3) hw ho
  rw [if_neg (by omega)] at e0 e1 e2 e3
  simp only [rd32, e0, e1, e2, e3]

/-! ## The writer -/

theorem toSizeT_natCast (n : Nat) (h : n < 18446744073709551616) : toSizeT (n : Int) = n := by
  unfold toSizeT; omega


/-- Writing an object of `n` bytes to a fresh stream that has room for it. -/
theorem fwrite_fresh (cap n : Nat) (buf : List Byte) (hlen : buf.length = n) (hn : 0 < n)
    (hcap : n ≤ cap) :
    fwrite { content := [], pos := 0, limit := cap, closed := false } buf n 1 =
      ({ content := buf, pos := n, limit := cap, closed := false }, 1) := by
  have hw := fwrite_fits { content := [], pos := 0, limit := cap, closed := false }
    buf n 1 (by omega) (by simp only [hlen]; omega) (Nat.zero_le _)
  rw [hw]
  simp [hlen, Nat.div_self hn]

/-- The session that `tinywav_open_write` sets up when it accepts its
arguments and the device takes the header. -/
theorem open_write_accepts (B : Build) (tw : TinyWav) (cap : Nat) (nc sr bps : Int)
    (hsr : sr = 16000 ∨ sr = 32000 ∨ sr = 48000) (hbps : bps = 2 ∨ bps = 3 ∨ bps = 4)
    (hcap : sizeofTinyWavHeader B ≤ cap) :
    tinywav_open_write B tw (some cap) nc sr bps =
      ({ f := some { content := headerBytes B (initHeader nc sr bps),
                     pos := sizeofTinyWavHeader B, limit := cap, closed := false },
         h := some (initHeader nc sr bps), numChannels := nc, bytesPerSample := bps,
         samplerate := sr, totalDataBytes := 0, rpos := tw.rpos }, 0) := by
  have g1 : ¬ (nc < 1 ∧ nc > 7) := by omega
  have g2 : ¬ (sr ≠ 16000 ∧ sr ≠ 32000 ∧ sr ≠ 48000) := by omega
  have g3 : ¬ ((bps ≠ 2 ∧ bps ≠ 4) ∧ bps ≠ 3) := by omega
  have hS := sizeof_bounds B
  simp only [tinywav_open_write, if_neg g1, if_neg g2, if_neg g3, fopen_wb,
    fwrite_fresh cap _ _ (headerBytes_length B _) (by omega) hcap]

theorem write_f_appends (tw : TinyWav) (f : FILE) (c : List Byte)
    (hf : tw.f = some f) (hpos : f.pos = f.content.length)
    (hroom : f.content.length + c.length ≤ f.limit)
    (htot : tw.totalDataBytes + c.length < 18446744073709551616) :
    tinywav_write_f tw c (c.length : Int) =
      ({ tw with f := some { f with content := f.content ++ c, pos := f.content.length + c.length },
                 totalDataBytes := tw.totalDataBytes + c.length }, c.length) := by
  have hs : toSizeT (c.length : Int) = c.length := toSizeT_natCast _ (by omega)
  have hw := fwrite_fits f c 1 c.length (by omega) (by omega) (by omega)
  simp only [tinywav_write_f, hf, hs, hw]
  have e : (tw.totalDataBytes + c.length) % 18446744073709551616 = tw.totalDataBytes + c.length :=
    Nat.mod_eq_of_lt htot
  simp [e, hpos]

theorem write_chunks_appends (chunks : List (List Byte)) :
    ∀ (tw : TinyWav) (f : FILE), tw.f = some f → f.pos = f.content.length →
      f.content.length + chunks.flatten.length ≤ f.limit →
      tw.totalDataBytes + chunks.flatten.length < 18446744073709551616 →
      write_chunks tw chunks =
        { tw with f := some { f with content := f.content ++ chunks.flatten,
                                     pos := f.content.length + chunks.flatten.length },
                  totalDataBytes := tw.totalDataBytes + chunks.flatten.length } := by
  induction chunks with
  | nil =>
    intro tw f hf hpos _ _
    cases tw; cases f
    simp_all [write_chunks]
  | cons c rest ih =>
    intro tw f hf hpos hroom htot
    simp only [List.flatten_cons, List.length_append] at hroom htot
    rw [write_chunks, write_f_appends tw f c hf hpos (by omega) (by omega)]
    rw [ih _ { f with content := f.content ++ c, pos := f.content.length + c.length } rfl
      (by simp only [List.length_append]) (by simp only [List.length_append]; omega)
      (by simp only []; omega)]
    simp [Nat.add_assoc]



/-- The function `tinywav_close_write` on a stream that holds at least 46 bytes:
the file after the overwrite of the bytes 4..7 and of the bytes 42..45. -/
theorem close_write_content (tw : TinyWav) (f : FILE) (hf : tw.f = some f)
    (hlen : 46 ≤ f.content.length) (hl : 46 ≤ f.limit) :
    tinywav_close_write tw =
      ({ tw with f := none, h := none },
        (f.content.take 4 ++ le32 ((38 + tw.totalDataBytes % 4294967296) % 4294967296)
            ++ f.content.drop (4 + 4)).take 42
          ++ le32 (tw.totalDataBytes % 4294967296)
          ++ (f.content.take 4 ++ le32 ((38 + tw.totalDataBytes % 4294967296) % 4294967296)
            ++ f.content.drop (4 + 4)).drop (42 + 4)) := by
  obtain ⟨c, p, l, cl⟩ := f
  simp only at hlen hl
  have w1 := fwrite_fits { content := c, pos := 4, limit := l, closed := cl }
    (le32 ((38 + tw.totalDataBytes % 4294967296) % 4294967296)) 4 1 (le32_length _)
    (by simp only [le32_length]; omega) (by simp only []; omega)
  simp only [le32_length] at w1
  have hlen1 := patch_length c (le32 ((38 + tw.totalDataBytes % 4294967296) % 4294967296)) 4 4
    (le32_length _) (by omega)
  have w2 := fwrite_fits
    { content := List.take 4 c ++ le32 ((38 + tw.totalDataBytes % 4294967296) % 4294967296)
        ++ List.drop (4 + 4) c,
      pos := 42, limit := l, closed := cl }
    (le32 (tw.totalDataBytes % 4294967296)) 4 1 (le32_length _)
    (by simp only [le32_length]; omega) (by simp only [hlen1]; omega)
  simp only [le32_length] at w2
  simp only [tinywav_close_write, hf, fseek_set, w1, w2, fclose]

/-- What `tinywav_close_write` leaves, in either build, of a stream that holds
at least 46 bytes: a file of the same length with `38 + data_len` in the bytes
4..7, `data_len` in the bytes 42..45 and every other byte as it was. -/
theorem close_write_file (tw : TinyWav) (f : FILE) (hf : tw.f = some f)
    (hlen : 46 ≤ f.content.length) (hl : 46 ≤ f.limit) :
    ∃ file : List Byte, tinywav_close_write tw = ({ tw with f := none, h := none }, file)
      ∧ file.length = f.content.length
      ∧ rd32 file 4 = (38 + tw.totalDataBytes % 4294967296) % 4294967296
      ∧ rd32 file 42 = tw.totalDataBytes % 4294967296
      ∧ ∀ i, ¬ (4 ≤ i ∧ i < 8) → ¬ (42 ≤ i ∧ i < 46) → file.getD i 0 = f.content.getD i 0 := by
  have hl1 := patch_length f.content
    (le32 ((38 + tw.totalDataBytes % 4294967296) % 4294967296)) 4 4 (le32_length _) (by omega)
  refine ⟨_, close_write_content tw f hf hlen hl, ?_, ?_, ?_, ?_⟩
  · rw [patch_length _ _ 42 4 (le32_length _) (by omega), hl1]
  · rw [rd32_patch_off _ _ 42 4 4 (le32_length _) (by omega) (Or.inl (by omega)),
      rd32_patch_at _ 4 _ (by omega), Nat.mod_mod]
  · rw [rd32_patch_at _ 42 _ (by omega), Nat.mod_mod]
  · intro i h1 h2
    rw [getD_patch _ _ 42 4 i (le32_length _) (by omega), if_neg (by omega),
      getD_patch _ _ 4 4 i (le32_length _) (by omega), if_neg (by omega)]

/-- The function `tinywav_close_write`, with the packed layout, on a stream
that starts with a header image: the two length fields of the image are
replaced, nothing else. -/
theorem close_write_patches (tw : TinyWav) (f : FILE) (h : TinyWavHeader) (data : List Byte)
    (hf : tw.f = some f) (hc : f.content = headerBytes Build.win32 h ++ data)
    (hl : 46 ≤ f.limit) :
    tinywav_close_write tw =
      ({ tw with f := none, h := none },
        headerBytes Build.win32
            { h with ChunkSize := (38 + tw.totalDataBytes % 4294967296) % 4294967296,
                     Subchunk2Size := tw.totalDataBytes % 4294967296 } ++ data) := by
  have hlen : 46 ≤ f.content.length := by
    rw [hc, List.length_append, headerBytes_length]
    simp only [sizeofTinyWavHeader]
    omega
  rw [close_write_content tw f hf hlen hl, hc, patch_header]

/-- Without packing, `tinywav_close_write` on a stream that starts with a
header image sets `ChunkSize`, overwrites the last two bytes of the
`Subchunk2ID` field with the low half of the data length, and leaves the high
half of the data length in the low half of `Subchunk2Size`. -/
theorem close_write_clobbers (junk : Nat) (tw : TinyWav) (f : FILE) (h : TinyWavHeader)
    (data : List Byte) (hf : tw.f = some f)
    (hc : f.content = headerBytes (Build.other junk) h ++ data) (hl : 46 ≤ f.limit) :
    tinywav_close_write tw =
      ({ tw with f := none, h := none },
        (headerBytes (Build.other junk)
            { h with ChunkSize := (38 + tw.totalDataBytes % 4294967296) % 4294967296 }).take 42
          ++ le32 (tw.totalDataBytes % 4294967296) ++ (le32 h.Subchunk2Size).drop 2 ++ data) := by
  have hlen : 46 ≤ f.content.length := by
    rw [hc, List.length_append, headerBytes_length]
    simp only [sizeofTinyWavHeader]
    omega
  rw [close_write_content tw f hf hlen hl, hc, patch_header_other]

/-- The file a writer session of the packed build leaves when its arguments
are accepted and the device takes every byte: the header image with the two
length fields set, followed by the buffers in the order they were written. -/
theorem writeSession_file (tw : TinyWav) (cap : Nat) (nc sr bps : Int)
    (chunks : List (List Byte))
    (hsr : sr = 16000 ∨ sr = 32000 ∨ sr = 48000) (hbps : bps = 2 ∨ bps = 3 ∨ bps = 4)
    (htot : chunks.flatten.length < 18446744073709551616)
    (hcap : 46 + chunks.flatten.length ≤ cap) :
    writeSession Build.win32 tw (some cap) nc sr bps chunks =
      headerBytes Build.win32 (closedHeader nc sr bps chunks.flatten.length)
        ++ chunks.flatten := by
  unfold writeSession
  rw [open_write_accepts Build.win32 tw cap nc sr bps hsr hbps
    (by simp only [sizeofTinyWavHeader]; omega)]
  rw [write_chunks_appends chunks _ _ rfl (by simp only [headerBytes_length])
    (by simp only [headerBytes_length, sizeofTinyWavHeader]; omega) (by simp only []; omega)]
  rw [close_write_patches _ _ (initHeader nc sr bps) chunks.flatten rfl rfl (by simp only []; omega)]
  simp only [Nat.zero_add, closedHeader]

/-- The session of a writer, in either build, before the close: the stream
holds the header image and the buffers, and the counter their total size. -/
theorem writerSession_state (B : Build) (tw : TinyWav) (cap : Nat) (nc sr bps : Int)
    (chunks : List (List Byte))
    (hsr : sr = 16000 ∨ sr = 32000 ∨ sr = 48000) (hbps : bps = 2 ∨ bps = 3 ∨ bps = 4)
    (htot : chunks.flatten.length < 18446744073709551616)
    (hcap : sizeofTinyWavHeader B + chunks.flatten.length ≤ cap) :
    write_chunks (tinywav_open_write B tw (some cap) nc sr bps).1 chunks =
      { f := some { content := headerBytes B (initHeader nc sr bps) ++ chunks.flatten,
                    pos := sizeofTinyWavHeader B + chunks.flatten.length,
                    limit := cap, closed := false },
        h := some (initHeader nc sr bps), numChannels := nc, bytesPerSample := bps,
        samplerate := sr, totalDataBytes := chunks.flatten.length, rpos := tw.rpos } := by
  rw [open_write_accepts B tw cap nc sr bps hsr hbps (by omega)]
  rw [write_chunks_appends chunks _ _ rfl (by simp only [headerBytes_length])
    (by simp only [headerBytes_length]; omega) (by simp only []; omega)]
  simp only [headerBytes_length, Nat.zero_add]

/-- The counter of the writer after the writes of a session. -/
theorem writeSession_counter (B : Build) (tw : TinyWav) (cap : Nat) (nc sr bps : Int)
    (chunks : List (List Byte))
    (hsr : sr = 16000 ∨ sr = 32000 ∨ sr = 48000) (hbps : bps = 2 ∨ bps = 3 ∨ bps = 4)
    (htot : chunks.flatten.length < 18446744073709551616)
    (hcap : sizeofTinyWavHeader B + chunks.flatten.length ≤ cap) :
    (write_chunks (tinywav_open_write B tw (some cap) nc sr bps).1 chunks).totalDataBytes
      = chunks.flatten.length := by
  rw [writerSession_state B tw cap nc sr bps chunks hsr hbps htot hcap]

/-- The finished file of a writer session whose writes were taken in full, in
either build: its length, the two numbers `tinywav_close_write` stores at the
offsets 4 and 42, and every other byte as the writes left it. -/
theorem writeSession_fields (B : Build) (tw : TinyWav) (cap : Nat) (nc sr bps : Int)
    (chunks : List (List Byte))
    (hsr : sr = 16000 ∨ sr = 32000 ∨ sr = 48000) (hbps : bps = 2 ∨ bps = 3 ∨ bps = 4)
    (htot : chunks.flatten.length < 18446744073709551616)
    (hcap : sizeofTinyWavHeader B + chunks.flatten.length ≤ cap) :
    (writeSession B tw (some cap) nc sr bps chunks).length
        = sizeofTinyWavHeader B + chunks.flatten.length
      ∧ rd32 (writeSession B tw (some cap) nc sr bps chunks) 4
          = (38 + chunks.flatten.length % 4294967296) % 4294967296
      ∧ rd32 (writeSession B tw (some cap) nc sr bps chunks) 42
          = chunks.flatten.length % 4294967296
      ∧ ∀ i, ¬ (4 ≤ i ∧ i < 8) → ¬ (42 ≤ i ∧ i < 46) →
          (writeSession B tw (some cap) nc sr bps chunks).getD i 0
            = (headerBytes B (initHeader nc sr bps) ++ chunks.flatten).getD i 0 := by
  have hS := sizeof_bounds B
  have hst := writerSession_state B tw cap nc sr bps chunks hsr hbps htot hcap
  have hlen : (headerBytes B (initHeader nc sr bps) ++ chunks.flatten).length
      = sizeofTinyWavHeader B + chunks.flatten.length := by
    rw [List.length_append, headerBytes_length]
  obtain ⟨file, e, e1, e2, e3, e4⟩ := close_write_file
    (write_chunks (tinywav_open_write B tw (some cap) nc sr bps).1 chunks)
    { content := headerBytes B (initHeader nc sr bps) ++ chunks.flatten,
      pos := sizeofTinyWavHeader B + chunks.flatten.length, limit := cap, closed := false }
    (by rw [hst]) (by simp only [hlen]; omega) (by simp only []; omega)
  have hw : writeSession B tw (some cap) nc sr bps chunks = file := by
    unfold writeSession
    rw [e]
  rw [hst] at e2 e3
  rw [hw]
  exact ⟨e1.trans hlen, e2, e3, e4⟩

/-! ## The reader -/

/-- Reading one object of `n` bytes from the start of a stream that holds at
least that many. -/
theorem fread_header (hb data : List Byte) (n : Nat) (hlen : hb.length = n) (hn : 0 < n)
    (l : Nat) (cl : Bool) :
    fread { content := hb ++ data, pos := 0, limit := l, closed := cl } n 1 =
      ({ content := hb ++ data, pos := n, limit := l, closed := cl }, hb, 1) := by
  have e : List.take n (hb ++ data) = hb := by
    rw [← hlen]; exact List.take_left' rfl
  simp [fread, e, hlen, Nat.div_self hn]

/-- The chunk-skipping loop does not run when the header window already holds
the "data" tag. -/
theorem skipLoop_data (n : Nat) (f : FILE) (h : TinyWavHeader)
    (hd : h.Subchunk2ID = htonl 0x64617461) : skipLoop (n + 1) f h = Scan.found f h := by
  simp [skipLoop, hd]

/-- The function `tinywav_open_read` once the first `fread` has delivered a
full header window that carries the four tags. -/
theorem open_read_of_window (B : Build) (tw : TinyWav) (c hb : List Byte) (f1 : FILE)
    (hr : fread { content := c, pos := 0, limit := c.length, closed := false }
      (sizeofTinyWavHeader B) 1 = (f1, hb, 1))
    (h1 : (headerOfBytes B hb).ChunkID = htonl 0x52494646)
    (h2 : (headerOfBytes B hb).Format = htonl 0x57415645)
    (h3 : (headerOfBytes B hb).Subchunk1ID = htonl 0x666d7420)
    (h4 : (headerOfBytes B hb).Subchunk2ID = htonl 0x64617461) :
    tinywav_open_read B tw (some c) =
      some ({ f := some f1, h := some (headerOfBytes B hb),
              totalDataBytes := (headerOfBytes B hb).Subchunk2Size,
              numChannels := ((headerOfBytes B hb).NumChannels : Int),
              bytesPerSample := (((headerOfBytes B hb).BitsPerSample / 8 : Nat) : Int),
              samplerate := toInt (headerOfBytes B hb).SampleRate,
              rpos := 0 }, 0) := by
  generalize hH : headerOfBytes B hb = H at h1 h2 h3 h4
  unfold tinywav_open_read
  simp only [fopen_rb, hr, hH, h1, h2, h3, skipLoop_data _ _ _ h4]
  simp [h4]

/-- The function `tinywav_open_read` on a file that starts with the image of a
header carrying the four tags. -/
theorem open_read_canonical (B : Build) (tw : TinyWav) (h : TinyWavHeader) (data : List Byte)
    (h1 : h.ChunkID = htonl 0x52494646) (h2 : h.Format = htonl 0x57415645)
    (h3 : h.Subchunk1ID = htonl 0x666d7420) (h4 : h.Subchunk2ID = htonl 0x64617461) :
    tinywav_open_read B tw (some (headerBytes B h ++ data)) =
      some ({ f := some { content := headerBytes B h ++ data, pos := sizeofTinyWavHeader B,
                          limit := (headerBytes B h ++ data).length, closed := false },
              h := some (headerOfBytes B (headerBytes B h)),
              totalDataBytes := h.Subchunk2Size % 4294967296,
              numChannels := ((h.NumChannels % 65536 : Nat) : Int),
              bytesPerSample := ((h.BitsPerSample % 65536 / 8 : Nat) : Int),
              samplerate := toInt (h.SampleRate % 4294967296),
              rpos := 0 }, 0) := by
  have hS := sizeof_bounds B
  have e := headerOfBytes_headerBytes B h []
  rw [List.append_nil] at e
  have t1 : h.ChunkID % 4294967296 = htonl 0x52494646 := by rw [h1, htonl_RIFF]
  have t2 : h.Format % 4294967296 = htonl 0x57415645 := by rw [h2, htonl_WAVE]
  have t3 : h.Subchunk1ID % 4294967296 = htonl 0x666d7420 := by rw [h3, htonl_fmt]
  have t4 : h.Subchunk2ID % 4294967296 = htonl 0x64617461 := by rw [h4, htonl_data]
  have key := open_read_of_window B tw (headerBytes B h ++ data) (headerBytes B h) _
    (fread_header (headerBytes B h) data _ (headerBytes_length B h) (by omega) _ false)
    (by rw [e]; exact t1) (by rw [e]; exact t2) (by rw [e]; exact t3) (by rw [e]; exact t4)
  rw [key, e]

/-- Reading, byte by byte, a slice that the stream holds at its position. -/
theorem fread_slice (pre c post : List Byte) (l : Nat) (cl : Bool) :
    fread { content := pre ++ c ++ post, pos := pre.length, limit := l, closed := cl } 1 c.length =
      ({ content := pre ++ c ++ post, pos := pre.length + c.length, limit := l, closed := cl },
        c, c.length) := by
  have e : List.take (1 * c.length) (List.drop pre.length (pre ++ c ++ post)) = c := by
    rw [List.append_assoc, List.drop_left, Nat.one_mul, List.take_left]
  simp only [fread, e, Nat.div_one]

theorem toInt_small (n : Nat) (h : n < 2147483648) : toInt n = (n : Int) := by
  unfold toInt
  have e : n % 4294967296 = n := Nat.mod_eq_of_lt (by omega)
  rw [e, if_pos h]

/-- A call of `tinywav_read_f` that asks for a whole number of samples lying
inside the declared data returns them and their count. -/
theorem read_f_inside (tw : TinyWav) (pre c post : List Byte) (l : Nat) (cl : Bool)
    (hf : tw.f = some { content := pre ++ c ++ post, pos := pre.length, limit := l, closed := cl })
    (hb : tw.bytesPerSample = 2 ∨ tw.bytesPerSample = 4)
    (hdiv : (c.length : Int) % tw.bytesPerSample = 0)
    (hlen : c.length < 2147483648)
    (hr : tw.rpos + c.length ≤ tw.totalDataBytes)
    (ht : tw.totalDataBytes < 18446744073709551616) :
    tinywav_read_f tw (c.length : Int) =
      ({ tw with f := some { content := pre ++ c ++ post, pos := pre.length + c.length,
                             limit := l, closed := cl },
                 rpos := tw.rpos + c.length }, (c.length : Int), c) := by
  have hl1 : (if tw.bytesPerSample = 2 then (c.length : Int) - (c.length : Int) % 2
      else (c.length : Int) - (c.length : Int) % 4) = (c.length : Int) := by
    rcases hb with hb | hb <;> rw [hb] at hdiv <;> simp only [hb] <;> norm_num <;> omega
  have hs : toSizeT (c.length : Int) = c.length := toSizeT_natCast _ (by omega)
  have hm : (tw.rpos + c.length) % 18446744073709551616 = tw.rpos + c.length :=
    Nat.mod_eq_of_lt (by omega)
  have hng : ¬ (tw.rpos + c.length > tw.totalDataBytes) := by omega
  simp only [tinywav_read_f, if_pos hb, hl1, hf, hs, fread_slice, hm, if_neg hng,
    toInt_small _ hlen]

theorem read_calls_frames (L : Nat) (frames : List (List Byte)) :
    ∀ (tw : TinyWav) (pre post : List Byte) (l : Nat) (cl : Bool),
      tw.f = some { content := pre ++ frames.flatten ++ post, pos := pre.length, limit := l,
                    closed := cl } →
      (tw.bytesPerSample = 2 ∨ tw.bytesPerSample = 4) →
      (L : Int) % tw.bytesPerSample = 0 → L < 2147483648 →
      (∀ fr ∈ frames, fr.length = L) →
      tw.rpos + frames.flatten.length ≤ tw.totalDataBytes →
      tw.totalDataBytes < 18446744073709551616 →
      read_calls tw (frames.map (fun _ => (L : Int))) = frames.map (fun fr => ((L : Int), fr)) := by
  induction frames with
  | nil => intros; rfl
  | cons fr rest ih =>
    intro tw pre post l cl hf hb hdiv hL hfr hr ht
    have hfrL : fr.length = L := hfr fr (List.mem_cons_self _ _)
    simp only [List.flatten_cons, List.length_append] at hr
    have hf1 : tw.f = some { content := pre ++ fr ++ (rest.flatten ++ post), pos := pre.length,
                             limit := l, closed := cl } := by
      rw [hf]; simp only [List.flatten_cons, List.append_assoc]
    have step := read_f_inside tw pre fr (rest.flatten ++ post) l cl hf1 hb
      (by rw [hfrL]; exact hdiv) (by omega) (by omega) ht
    rw [hfrL] at step
    simp only [List.map_cons, read_calls, step]
    refine congrArg _ (ih _ (pre ++ fr) post l cl ?_ hb hdiv hL
      (fun x hx => hfr x (List.mem_cons_of_mem _ hx)) ?_ ht)
    · simp only [List.append_assoc, List.length_append, hfrL]
    · simp only []; omega

theorem flatten_length_uniform (L : Nat) (frames : List (List Byte))
    (h : ∀ fr ∈ frames, fr.length = L) : frames.flatten.length = frames.length * L := by
  induction frames with
  | nil => simp
  | cons fr rest ih =>
    have h1 := h fr (List.mem_cons_self _ _)
    have h2 := ih (fun x hx => h x (List.mem_cons_of_mem _ hx))
    simp only [List.flatten_cons, List.length_append, List.length_cons, h1, h2, Nat.succ_mul]
    omega

/-- What `tinywav_open_read` makes of a file that starts with the image of
the header of a finished file. -/
theorem open_read_closed (B : Build) (twr : TinyWav) (nc sr bps : Int) (total : Nat)
    (data : List Byte) :
    tinywav_open_read B twr (some (headerBytes B (closedHeader nc sr bps total) ++ data)) =
      some ({ f := some { content := headerBytes B (closedHeader nc sr bps total) ++ data,
                          pos := sizeofTinyWavHeader B,
                          limit := (headerBytes B (closedHeader nc sr bps total) ++ data).length,
                          closed := false },
              h := some (headerOfBytes B (headerBytes B (closedHeader nc sr bps total))),
              totalDataBytes := total % 4294967296,
              numChannels := ((toU16 nc % 65536 : Nat) : Int),
              bytesPerSample := ((toU16 (bps * 8) % 65536 / 8 : Nat) : Int),
              samplerate := toInt (toU32 sr % 4294967296),
              rpos := 0 }, 0) := by
  rw [open_read_canonical B twr _ data rfl rfl rfl rfl]
  simp only [closedHeader, initHeader, Nat.mod_mod]

/-! ## Numbers and tags in a stream -/

theorem getD_drop_take (c : List Byte) (o n i : Nat) (h : i < n) :
    ((c.drop o).take n).getD i 0 = c.getD (o + i) 0 := by
  simp only [List.getD_eq_getElem?_getD, List.getElem?_take, h, if_true, List.getElem?_drop]

theorem getD_take (c : List Byte) (n i : Nat) (h : i < n) :
    (c.take n).getD i 0 = c.getD i 0 := by
  simp only [List.getD_eq_getElem?_getD, List.getElem?_take, h, if_true]

theorem rd32_take (c : List Byte) (n o : Nat) (h : o + 4 ≤ n) :
    rd32 (c.take n) o = rd32 c o := by
  simp only [rd32, getD_take c n o (by omega), getD_take c n (o + 1) (by omega),
    getD_take c n (o + 2) (by omega), getD_take c n (o + 3) (by omega)]

theorem rd16_take (c : List Byte) (n o : Nat) (h : o + 2 ≤ n) :
    rd16 (c.take n) o = rd16 c o := by
  simp only [rd16, getD_take c n o (by omega), getD_take c n (o + 1) (by omega)]

/-- The 32-bit number at offset `o` of a stream, from the four bytes there. -/
theorem rd32_drop_take (c : List Byte) (o : Nat) :
    rd32 c o = rd32 ((c.drop o).take 4) 0 := by
  simp only [rd32, getD_drop_take c o 4 0 (by omega), getD_drop_take c o 4 (0 + 1) (by omega),
    getD_drop_take c o 4 (0 + 2) (by omega), getD_drop_take c o 4 (0 + 3) (by omega),
    Nat.add_zero, Nat.zero_add, Nat.add_assoc]

theorem rd32_lt (c : List Byte) (o : Nat) : rd32 c o < 4294967296 := by
  unfold rd32
  have := (c.getD o 0).isLt
  have := (c.getD (o + 1) 0).isLt
  have := (c.getD (o + 2) 0).isLt
  have := (c.getD (o + 3) 0).isLt
  omega

/-- The tag "data" at offset `o`, as the number the code compares with
`htonl(0x64617461)`. -/
theorem rd32_of_tagData (c : List Byte) (o : Nat) (h : (c.drop o).take 4 = tagData) :
    rd32 c o = htonl 0x64617461 := by
  rw [rd32_drop_take, h]
  decide

theorem rd16_take_drop (c : List Byte) (k n o : Nat) (h : o + 2 ≤ n) :
    rd16 ((c.drop k).take n) o = rd16 c (k + o) := by
  simp only [rd16, getD_drop_take c k n o (by omega), getD_drop_take c k n (o + 1) (by omega),
    Nat.add_assoc]

theorem rd32_take_drop (c : List Byte) (k n o : Nat) (h : o + 4 ≤ n) :
    rd32 ((c.drop k).take n) o = rd32 c (k + o) := by
  simp only [rd32, getD_drop_take c k n o (by omega), getD_drop_take c k n (o + 1) (by omega),
    getD_drop_take c k n (o + 2) (by omega), getD_drop_take c k n (o + 3) (by omega),
    Nat.add_assoc]

theorem tag_ne_of_bytes_ne (b0 b1 b2 b3 t0 t1 t2 t3 : Byte)
    (h : [b0, b1, b2, b3] ≠ [t0, t1, t2, t3]) :
    b0.val + 256 * b1.val + 65536 * b2.val + 16777216 * b3.val
      ≠ t0.val + 256 * t1.val + 65536 * t2.val + 16777216 * t3.val := by
  intro e
  apply h
  have := b0.isLt; have := b1.isLt; have := b2.isLt; have := b3.isLt
  have := t0.isLt; have := t1.isLt; have := t2.isLt; have := t3.isLt
  have e0 : b0 = t0 := Fin.ext (by omega)
  have e1 : b1 = t1 := Fin.ext (by omega)
  have e2 : b2 = t2 := Fin.ext (by omega)
  have e3 : b3 = t3 := Fin.ext (by omega)
  rw [e0, e1, e2, e3]

/-- The number at offset `o` from the four bytes found there. -/
theorem rd32_of_tag (c : List Byte) (o : Nat) (t : List Byte) (v : Nat)
    (h : (c.drop o).take 4 = t) (hv : rd32 t 0 = v) : rd32 c o = v := by
  rw [rd32_drop_take, h, hv]

/-- Four bytes of the stream that read as the number of a tag are that tag. -/
theorem tag_of_rd32 (c : List Byte) (o : Nat) (t0 t1 t2 t3 : Byte) (hlen : o + 4 ≤ c.length)
    (h : rd32 c o = t0.val + 256 * t1.val + 65536 * t2.val + 16777216 * t3.val) :
    (c.drop o).take 4 = [t0, t1, t2, t3] := by
  have hl : ((c.drop o).take 4).length = 4 := by
    rw [List.length_take, List.length_drop]; omega
  rw [rd32_drop_take] at h
  generalize (c.drop o).take 4 = t at h hl
  rcases t with _ | ⟨b0, _ | ⟨b1, _ | ⟨b2, _ | ⟨b3, _ | ⟨b4, t⟩⟩⟩⟩⟩ <;>
    simp only [List.length_cons, List.length_nil] at hl <;> try omega
  by_contra hne
  exact tag_ne_of_bytes_ne b0 b1 b2 b3 t0 t1 t2 t3 hne h

/-- Four bytes of the stream that read as `htonl(0x64617461)` are "data". -/
theorem tagData_of_rd32 (c : List Byte) (o : Nat) (hlen : o + 4 ≤ c.length)
    (h : rd32 c o = htonl 0x64617461) : (c.drop o).take 4 = tagData :=
  tag_of_rd32 c o 0x64 0x61 0x74 0x61 hlen (h.trans htonl_data)

/-! ## Round trip -/

theorem toInt_toU32_rate (sr : Int) (hsr : sr = 16000 ∨ sr = 32000 ∨ sr = 48000) :
    toInt (toU32 sr % 4294967296) = sr := by
  rcases hsr with h | h | h <;> subst h <;> decide
/-- C1, amended: in the build whose header is packed (`Build.win32`), for one
to seven channels, a rate of 16000, 32000 or 48000 and two or four bytes per
sample, a writer session that writes `N` whole frames (one call per frame,
fewer than 2^32 data bytes in all, on a device that takes every byte) leaves a
file that `tinywav_open_read` accepts, with
`totalDataBytes = N * numChannels * bytesPerSample` and the parameters of the
writer, and reading it back frame by frame returns, call by call, the full
count and exactly the bytes of the frame that was written. -/
theorem round_trip_frames (tw twr : TinyWav) (cap : Nat) (nc sr bps : Int)
    (frames : List (List Byte))
    (hnc : 1 ≤ nc ∧ nc ≤ 7) (hsr : sr = 16000 ∨ sr = 32000 ∨ sr = 48000)
    (hbps : bps = 2 ∨ bps = 4)
    (hfr : ∀ fr ∈ frames, (fr.length : Int) = nc * bps)
    (htot : frames.flatten.length < 4294967296)
    (hcap : 46 + frames.flatten.length ≤ cap) :
    ∃ r : TinyWav,
      tinywav_open_read Build.win32 twr
          (some (writeSession Build.win32 tw (some cap) nc sr bps frames)) = some (r, 0)
      ∧ (r.totalDataBytes : Int) = frames.length * nc * bps
      ∧ r.numChannels = nc ∧ r.samplerate = sr ∧ r.bytesPerSample = bps
      ∧ read_calls r (frames.map (fun _ => nc * bps)) = frames.map (fun fr => (nc * bps, fr)) := by
  obtain ⟨L, hL⟩ : ∃ L : Nat, (L : Int) = nc * bps := by
    refine ⟨(nc * bps).toNat, ?_⟩
    rcases hbps with h | h <;> subst h <;> omega
  have hLs : L < 2147483648 := by rcases hbps with h | h <;> subst h <;> omega
  have hfrL : ∀ fr ∈ frames, fr.length = L := by
    intro fr hmem
    have := hfr fr hmem
    omega
  have hlen := flatten_length_uniform L frames hfrL
  have hbps3 : bps = 2 ∨ bps = 3 ∨ bps = 4 := by omega
  have hb : ((toU16 (bps * 8) % 65536 / 8 : Nat) : Int) = bps := by
    rcases hbps with h | h <;> subst h <;> decide
  have hn : ((toU16 nc % 65536 : Nat) : Int) = nc := by unfold toU16; omega
  rw [writeSession_file tw cap nc sr bps frames hsr hbps3 (by omega) hcap, open_read_closed]
  refine ⟨_, rfl, ?_, hn, toInt_toU32_rate sr hsr, hb, ?_⟩
  · show ((frames.flatten.length % 4294967296 : Nat) : Int) = _
    rw [Nat.mod_eq_of_lt htot, hlen]
    push_cast
    rw [hL]
    ring
  · rw [← hL]
    refine read_calls_frames L frames _
      (headerBytes Build.win32 (closedHeader nc sr bps frames.flatten.length)) []
      (headerBytes Build.win32 (closedHeader nc sr bps frames.flatten.length)
        ++ frames.flatten).length
      false ?_ ?_ ?_ hLs hfrL
      ?_ ?_
    · simp only [List.append_nil, headerBytes_length]
    · simp only [hb]; omega
    · simp only [hb, hL]
      rcases hbps with h | h <;> subst h <;> omega
    · simp only [Nat.mod_eq_of_lt htot]; omega
    · simp only []; omega

/-- C1, witness: the amended round trip on a stereo 16-bit session of two frames. -/
theorem round_trip_frames_witness :
    ∃ r : TinyWav,
      tinywav_open_read Build.win32 tw0
          (some (writeSession Build.win32 tw0 (some 100) 2 16000 2
            [[1, 2, 3, 4], [5, 6, 7, 8]])) = some (r, 0)
      ∧ (r.totalDataBytes : Int) = ([[1, 2, 3, 4], [5, 6, 7, 8]] : List (List Byte)).length * 2 * 2
      ∧ r.numChannels = 2 ∧ r.samplerate = 16000 ∧ r.bytesPerSample = 2
      ∧ read_calls r (([[1, 2, 3, 4], [5, 6, 7, 8]] : List (List Byte)).map (fun _ => 2 * 2))
          = ([[1, 2, 3, 4], [5, 6, 7, 8]] : List (List Byte)).map (fun fr => (2 * 2, fr)) :=
  round_trip_frames tw0 tw0 100 2 16000 2 [[1, 2, 3, 4], [5, 6, 7, 8]] (by decide) (by decide)
    (by decide) (by decide) (by decide) (by decide)

set_option maxRecDepth 16000 in
/-- C1, counterexample: one frame of one 3-byte sample, written by a session
that `tinywav_open_write` accepts, is not read back. In the packed build
`tinywav_open_read` succeeds with `bytesPerSample = 3`, and `tinywav_read_f`
returns -1 and stores nothing; in the other build `tinywav_open_read` itself
returns -1 on the file, as it does there on the file of a 16-bit session. -/
theorem round_trip_three_byte_samples :
    (tinywav_open_write Build.win32 tw0 (some 100) 1 16000 3).2 = 0
      ∧ (tinywav_open_read Build.win32 tw0
            (some (writeSession Build.win32 tw0 (some 100) 1 16000 3 [[1, 2, 3]]))).map
          (fun r => (r.2, r.1.bytesPerSample, read_calls r.1 [3]))
        = some (0, 3, [(-1, [])])
      ∧ (tinywav_open_write (Build.other 0) tw0 (some 100) 1 16000 3).2 = 0
      ∧ (tinywav_open_read (Build.other 0) tw0
            (some (writeSession (Build.other 0) tw0 (some 100) 1 16000 3 [[1, 2, 3]]))).map
          (fun r => r.2)
        = some (-1)
      ∧ (tinywav_open_read (Build.other 0) tw0
            (some (writeSession (Build.other 0) tw0 (some 100) 1 16000 2 [[1, 2]]))).map
          (fun r => r.2)
        = some (-1) :=
  ⟨by decide, by decide, by decide, by decide, by decide⟩

/-! ## The finished file -/

/-- The counter and the two length fields of a finished file, in either build:
when `tinywav_open_write` has accepted its arguments and every write was taken
in full, `totalDataBytes` counts the bytes written, and if
`38 + totalDataBytes < 2^32` the closed file holds `38 + totalDataBytes` in the
bytes 4..7 and `totalDataBytes` in the bytes 42..45. -/
theorem close_write_backpatch (B : Build) (tw : TinyWav) (cap : Nat) (nc sr bps : Int)
    (chunks : List (List Byte))
    (hsr : sr = 16000 ∨ sr = 32000 ∨ sr = 48000) (hbps : bps = 2 ∨ bps = 3 ∨ bps = 4)
    (htot : 38 + chunks.flatten.length < 4294967296)
    (hcap : sizeofTinyWavHeader B + chunks.flatten.length ≤ cap) :
    (write_chunks (tinywav_open_write B tw (some cap) nc sr bps).1 chunks).totalDataBytes
        = chunks.flatten.length
      ∧ rd32 (writeSession B tw (some cap) nc sr bps chunks) 4 = 38 + chunks.flatten.length
      ∧ rd32 (writeSession B tw (some cap) nc sr bps chunks) 42 = chunks.flatten.length := by
  have hm : chunks.flatten.length % 4294967296 = chunks.flatten.length :=
    Nat.mod_eq_of_lt (by omega)
  obtain ⟨-, e4, e42, -⟩ := writeSession_fields B tw cap nc sr bps chunks hsr hbps (by omega) hcap
  refine ⟨writeSession_counter B tw cap nc sr bps chunks hsr hbps (by omega) hcap, ?_, ?_⟩
  · rw [e4, hm]
    omega
  · rw [e42, hm]

/-- In the packed build `tinywav_open_read` accepts the finished file of every
such session and reports the number of bytes written. -/
theorem reopen_packed (tw twr : TinyWav) (cap : Nat) (nc sr bps : Int)
    (chunks : List (List Byte))
    (hsr : sr = 16000 ∨ sr = 32000 ∨ sr = 48000) (hbps : bps = 2 ∨ bps = 3 ∨ bps = 4)
    (htot : chunks.flatten.length < 4294967296)
    (hcap : 46 + chunks.flatten.length ≤ cap) :
    ∃ r : TinyWav,
      tinywav_open_read Build.win32 twr
          (some (writeSession Build.win32 tw (some cap) nc sr bps chunks)) = some (r, 0)
      ∧ r.totalDataBytes = chunks.flatten.length := by
  rw [writeSession_file tw cap nc sr bps chunks hsr hbps (by omega) hcap, open_read_closed]
  exact ⟨_, rfl, Nat.mod_eq_of_lt htot⟩

set_option maxRecDepth 16000 in
/-- C2, the code at the failing input: a mono 16-bit session at 16000 Hz with
two writes of two bytes, in the build whose header is not packed. The counter
is 4 and the closed file of 52 bytes holds 42 = 38 + 4 in the bytes 4..7 and 4
in the bytes 42..45; but the "data" tag stands in the bytes 40..43, so the
bytes 40..43 now read 'd', 'a', 4, 0, and `tinywav_open_read` returns -1 on the
file. In the packed build the same session leaves a file of 50 bytes on which
`tinywav_open_read` returns 0 with `totalDataBytes = 4`. -/
theorem reopen_fails_without_packing :
    (write_chunks (tinywav_open_write (Build.other 0) tw0 (some 100) 1 16000 2).1
        [[1, 2], [3, 4]]).totalDataBytes = 4
      ∧ (writeSession (Build.other 0) tw0 (some 100) 1 16000 2 [[1, 2], [3, 4]]).length = 52
      ∧ rd32 (writeSession (Build.other 0) tw0 (some 100) 1 16000 2 [[1, 2], [3, 4]]) 4 = 42
      ∧ rd32 (writeSession (Build.other 0) tw0 (some 100) 1 16000 2 [[1, 2], [3, 4]]) 42 = 4
      ∧ ((writeSession (Build.other 0) tw0 (some 100) 1 16000 2 [[1, 2], [3, 4]]).drop 40).take 4
          = [0x64, 0x61, 4, 0]
      ∧ (tinywav_open_read (Build.other 0) tw0
            (some (writeSession (Build.other 0) tw0 (some 100) 1 16000 2 [[1, 2], [3, 4]]))).map
          (fun r => r.2) = some (-1)
      ∧ (writeSession Build.win32 tw0 (some 100) 1 16000 2 [[1, 2], [3, 4]]).length = 50
      ∧ (tinywav_open_read Build.win32 tw0
            (some (writeSession Build.win32 tw0 (some 100) 1 16000 2 [[1, 2], [3, 4]]))).map
          (fun r => (r.2, r.1.totalDataBytes)) = some (0, 4) :=
  ⟨by decide, by decide, by decide, by decide, by decide, by decide, by decide, by decide⟩

/-- The `ChunkSize` field of a finished file against the length of the file,
in either build: for a writer session that `tinywav_open_write` accepted, with
every write taken in full and fewer than 2^32 - 38 data bytes, the number in
the bytes 4..7 plus `sizeof(TinyWavHeader)` is the length of the file plus 38.
So the field is the length of the file minus 8 when the header has 46 bytes,
and the length of the file minus 10 when it has 48. -/
theorem chunkSize_and_file_length (B : Build) (tw : TinyWav) (cap : Nat) (nc sr bps : Int)
    (chunks : List (List Byte))
    (hsr : sr = 16000 ∨ sr = 32000 ∨ sr = 48000) (hbps : bps = 2 ∨ bps = 3 ∨ bps = 4)
    (htot : 38 + chunks.flatten.length < 4294967296)
    (hcap : sizeofTinyWavHeader B + chunks.flatten.length ≤ cap) :
    rd32 (writeSession B tw (some cap) nc sr bps chunks) 4 + sizeofTinyWavHeader B
      = (writeSession B tw (some cap) nc sr bps chunks).length + 38 := by
  have hm : chunks.flatten.length % 4294967296 = chunks.flatten.length :=
    Nat.mod_eq_of_lt (by omega)
  obtain ⟨el, e4, -, -⟩ := writeSession_fields B tw cap nc sr bps chunks hsr hbps (by omega) hcap
  rw [el, e4, hm]
  omega

set_option maxRecDepth 16000 in
/-- C10, the code at the failing input: a four-channel 32-bit session at 48000
Hz with one write of one frame (16 bytes), in the build whose header is not
packed. The finished file has 64 bytes and its `ChunkSize` field holds 54,
which is the length of the file minus 10. In the packed build the file has 62
bytes and the field holds 54, the length of the file minus 8. -/
theorem chunkSize_is_short_without_packing :
    (writeSession (Build.other 0) tw0 (some 100) 4 48000 4
        [[0, 1, 2, 3, 4, 5, 6, 7, 8, 9, 10, 11, 12, 13, 14, 15]]).length = 64
      ∧ rd32 (writeSession (Build.other 0) tw0 (some 100) 4 48000 4
          [[0, 1, 2, 3, 4, 5, 6, 7, 8, 9, 10, 11, 12, 13, 14, 15]]) 4 = 54
      ∧ rd32 (writeSession (Build.other 0) tw0 (some 100) 4 48000 4
          [[0, 1, 2, 3, 4, 5, 6, 7, 8, 9, 10, 11, 12, 13, 14, 15]]) 4 + 8
        ≠ (writeSession (Build.other 0) tw0 (some 100) 4 48000 4
            [[0, 1, 2, 3, 4, 5, 6, 7, 8, 9, 10, 11, 12, 13, 14, 15]]).length
      ∧ (writeSession Build.win32 tw0 (some 100) 4 48000 4
          [[0, 1, 2, 3, 4, 5, 6, 7, 8, 9, 10, 11, 12, 13, 14, 15]]).length = 62
      ∧ rd32 (writeSession Build.win32 tw0 (some 100) 4 48000 4
          [[0, 1, 2, 3, 4, 5, 6, 7, 8, 9, 10, 11, 12, 13, 14, 15]]) 4 + 8
        = (writeSession Build.win32 tw0 (some 100) 4 48000 4
            [[0, 1, 2, 3, 4, 5, 6, 7, 8, 9, 10, 11, 12, 13, 14, 15]]).length :=
  ⟨by decide, by decide, by decide, by decide, by decide⟩

/-! ## `tinywav_open_write` -/

/-- C3: in either build, for one to seven channels, a rate of 16000, 32000 or
48000 and two, three or four bytes per sample, `tinywav_open_write` on a path
that can be created returns 0 and leaves an open stream holding a header of
`sizeof(TinyWavHeader)` bytes (46 in the packed build) in which ByteRate
(offset 28) is `samplerate * numChannels * bytesPerSample`, BlockAlign
(offset 32) is `numChannels * bytesPerSample`, BitsPerSample (offset 34) is
`bytesPerSample * 8` and AudioFormat (offset 20) is 1 for two bytes per sample
and 3 otherwise; the stored values are the exact products. -/
theorem open_write_header_fields (B : Build) (tw : TinyWav) (cap : Nat) (nc sr bps : Int)
    (hnc : 1 ≤ nc ∧ nc ≤ 7) (hsr : sr = 16000 ∨ sr = 32000 ∨ sr = 48000)
    (hbps : bps = 2 ∨ bps = 3 ∨ bps = 4) (hcap : sizeofTinyWavHeader B ≤ cap) :
    (tinywav_open_write B tw (some cap) nc sr bps).2 = 0
      ∧ ∃ f : FILE, (tinywav_open_write B tw (some cap) nc sr bps).1.f = some f
          ∧ f.closed = false ∧ f.content.length = sizeofTinyWavHeader B
          ∧ (rd32 f.content 28 : Int) = sr * nc * bps
          ∧ (rd16 f.content 32 : Int) = nc * bps
          ∧ (rd16 f.content 34 : Int) = bps * 8
          ∧ rd16 f.content 20 = (if bps = 2 then 1 else 3) := by
  rw [open_write_accepts B tw cap nc sr bps hsr hbps hcap]
  have hfields := fields_of_file B (initHeader nc sr bps) []
  rw [List.append_nil] at hfields
  obtain ⟨-, e20, -, -, e28, e32, e34, -⟩ := hfields
  refine ⟨rfl, _, rfl, rfl, headerBytes_length B _, ?_, ?_, ?_, ?_⟩
  · rw [e28]
    show ((toU32 (sr * nc * bps) % 4294967296 : Nat) : Int) = _
    unfold toU32
    rcases hsr with h | h | h <;> rcases hbps with h' | h' | h' <;> subst h <;> subst h' <;> omega
  · rw [e32]
    show ((toU16 (nc * bps) % 65536 : Nat) : Int) = _
    unfold toU16
    rcases hbps with h' | h' | h' <;> subst h' <;> omega
  · rw [e34]
    show ((toU16 (bps * 8) % 65536 : Nat) : Int) = _
    unfold toU16
    omega
  · rw [e20]
    show (if bps = 2 then 1 else 3) % 65536 = _
    split <;> rfl

/-- C3, witness: seven channels at 48000 Hz with four bytes per sample, on a
device that takes exactly the header, in the packed build (46 bytes) and in the
other build (48 bytes). -/
theorem open_write_header_fields_witness :
    ((tinywav_open_write Build.win32 tw0 (some 46) 7 48000 4).2 = 0
      ∧ ∃ f : FILE, (tinywav_open_write Build.win32 tw0 (some 46) 7 48000 4).1.f = some f
          ∧ f.closed = false ∧ f.content.length = 46
          ∧ (rd32 f.content 28 : Int) = 48000 * 7 * 4
          ∧ (rd16 f.content 32 : Int) = 7 * 4
          ∧ (rd16 f.content 34 : Int) = 4 * 8
          ∧ rd16 f.content 20 = (if (4 : Int) = 2 then 1 else 3))
    ∧ ((tinywav_open_write (Build.other 0) tw0 (some 48) 7 48000 4).2 = 0
      ∧ ∃ f : FILE, (tinywav_open_write (Build.other 0) tw0 (some 48) 7 48000 4).1.f = some f
          ∧ f.closed = false ∧ f.content.length = 48
          ∧ (rd32 f.content 28 : Int) = 48000 * 7 * 4
          ∧ (rd16 f.content 32 : Int) = 7 * 4
          ∧ (rd16 f.content 34 : Int) = 4 * 8
          ∧ rd16 f.content 20 = (if (4 : Int) = 2 then 1 else 3)) :=
  ⟨open_write_header_fields Build.win32 tw0 46 7 48000 4 (by decide) (by decide) (by decide)
      (by decide),
   open_write_header_fields (Build.other 0) tw0 48 7 48000 4 (by decide) (by decide) (by decide)
      (by decide)⟩

/-- C4, the code at the failing inputs, in either build: with eight channels,
and with zero channels, at 48000 Hz and two bytes per sample
`tinywav_open_write` returns 0 and leaves the session open, whereas an
unsupported rate or sample width is refused with -1 before any stream is
opened. -/
theorem open_write_channel_count_unchecked (B : Build) :
    (tinywav_open_write B tw0 (some 100) 8 48000 2).2 = 0
      ∧ tinywav_isOpen (tinywav_open_write B tw0 (some 100) 8 48000 2).1 = true
      ∧ (tinywav_open_write B tw0 (some 100) 0 48000 2).2 = 0
      ∧ tinywav_isOpen (tinywav_open_write B tw0 (some 100) 0 48000 2).1 = true
      ∧ tinywav_open_write B tw0 (some 100) 2 44100 2 = (tw0, -1)
      ∧ tinywav_open_write B tw0 (some 100) 2 48000 1 = (tw0, -1) := by
  refine ⟨rfl, rfl, rfl, rfl, rfl, rfl⟩

/-! ## `main` -/

theorem flatMap_le16_length (l : List Nat) :
    (l.flatMap (fun j => le16 j)).length = 2 * l.length := by
  induction l with
  | nil => rfl
  | cons a t ih =>
    rw [List.flatMap_cons, List.length_append, ih, List.length_cons]
    simp only [le16, List.length_cons, List.length_nil]
    omega

theorem rampBuffer_length : rampBuffer.length = 1024 := by
  rw [rampBuffer, flatMap_le16_length, List.length_range]

/-- The function `main` runs a writer session of three writes of the ramp. -/
theorem main_is_session (B : Build) (tw : TinyWav) (argc : Nat) (path : Option Nat)
    (hargc : 2 ≤ argc) :
    main B tw argc path
      = (0, some (writeSession B tw path 1 48000 2 [rampBuffer, rampBuffer, rampBuffer])) := by
  have e : ((rampBuffer.length : Nat) : Int) = 512 * 2 := by rw [rampBuffer_length]; rfl
  have hargc' : ¬ argc < 2 := by omega
  simp only [main, if_neg hargc', mainLoop, writeSession, write_chunks, e]

/-- The file that `main` leaves, in either build, when the path can be created
and the device takes every byte: `sizeof(TinyWavHeader) + 3072` bytes, with
3110 in the bytes 4..7 and 3072 in the bytes 42..45. -/
theorem main_file (B : Build) (tw : TinyWav) (argc cap : Nat) (hargc : 2 ≤ argc)
    (hcap : sizeofTinyWavHeader B + 3072 ≤ cap) :
    ∃ file : List Byte, main B tw argc (some cap) = (0, some file)
      ∧ file.length = sizeofTinyWavHeader B + 3072 ∧ rd32 file 4 = 3110
      ∧ rd32 file 42 = 3072 := by
  have hl : [rampBuffer, rampBuffer, rampBuffer].flatten.length = 3072 := by
    simp [rampBuffer_length]
  obtain ⟨el, e4, e42, -⟩ := writeSession_fields B tw cap 1 48000 2
    [rampBuffer, rampBuffer, rampBuffer] (by decide) (by decide) (by rw [hl]; decide)
    (by rw [hl]; omega)
  rw [hl] at el e4 e42
  exact ⟨_, main_is_session B tw argc (some cap) hargc, el, e4, e42⟩

/-- C9, amended: the header that `tinywav_open_write` emits has
`sizeof(TinyWavHeader)` bytes, which is 46 in the packed build and 48 in the
other (never 44), so a finished file whose writes were taken in full is
`sizeof(TinyWavHeader)` + (total bytes written) bytes long; in the scenario of
`main` (1 channel, 48000 Hz, 2 bytes per sample, 3 writes of 512 `int16_t`
samples) the file is `sizeof(TinyWavHeader)` + 3072 bytes long (3118, or 3120),
the bytes 4..7 decode to 3110 and the bytes 42..45 decode to 3072. -/
theorem header_is_sizeof_bytes (B : Build) (tw : TinyWav) (cap capm argc : Nat)
    (nc sr bps : Int) (chunks : List (List Byte))
    (hsr : sr = 16000 ∨ sr = 32000 ∨ sr = 48000) (hbps : bps = 2 ∨ bps = 3 ∨ bps = 4)
    (htot : chunks.flatten.length < 18446744073709551616)
    (hcap : sizeofTinyWavHeader B + chunks.flatten.length ≤ cap) (hargc : 2 ≤ argc)
    (hcapm : sizeofTinyWavHeader B + 3072 ≤ capm) :
    (∃ f : FILE, (tinywav_open_write B tw (some cap) nc sr bps).1.f = some f
        ∧ f.content.length = sizeofTinyWavHeader B)
      ∧ (writeSession B tw (some cap) nc sr bps chunks).length
          = sizeofTinyWavHeader B + chunks.flatten.length
      ∧ (∃ file : List Byte, main B tw argc (some capm) = (0, some file)
          ∧ file.length = sizeofTinyWavHeader B + 3072 ∧ rd32 file 4 = 3110
          ∧ rd32 file 42 = 3072)
      ∧ sizeofTinyWavHeader Build.win32 = 46
      ∧ ∀ junk : Nat, sizeofTinyWavHeader (Build.other junk) = 48 := by
  refine ⟨?_, ?_, main_file B tw argc capm hargc hcapm, rfl, fun _ => rfl⟩
  · rw [open_write_accepts B tw cap nc sr bps hsr hbps (by omega)]
    exact ⟨_, rfl, headerBytes_length B _⟩
  · exact (writeSession_fields B tw cap nc sr bps chunks hsr hbps htot hcap).1

/-- C9, witness: the amended statement for a mono 16-bit session with one
write of four bytes and for `main` called with one argument on a device of
4096 bytes, in the packed build (files of 50 and 3118 bytes) and in the other
(files of 52 and 3120 bytes). -/
theorem header_is_sizeof_bytes_witness :
    ((∃ f : FILE, (tinywav_open_write Build.win32 tw0 (some 50) 1 16000 2).1.f = some f
        ∧ f.content.length = 46)
      ∧ (writeSession Build.win32 tw0 (some 50) 1 16000 2 [[1, 2, 3, 4]]).length
          = 46 + ([[1, 2, 3, 4]] : List (List Byte)).flatten.length
      ∧ (∃ file : List Byte, main Build.win32 tw0 2 (some 4096) = (0, some file)
          ∧ file.length = 46 + 3072 ∧ rd32 file 4 = 3110 ∧ rd32 file 42 = 3072)
      ∧ sizeofTinyWavHeader Build.win32 = 46
      ∧ ∀ junk : Nat, sizeofTinyWavHeader (Build.other junk) = 48)
    ∧ ((∃ f : FILE, (tinywav_open_write (Build.other 0) tw0 (some 52) 1 16000 2).1.f = some f
        ∧ f.content.length = 48)
      ∧ (writeSession (Build.other 0) tw0 (some 52) 1 16000 2 [[1, 2, 3, 4]]).length
          = 48 + ([[1, 2, 3, 4]] : List (List Byte)).flatten.length
      ∧ (∃ file : List Byte, main (Build.other 0) tw0 2 (some 4096) = (0, some file)
          ∧ file.length = 48 + 3072 ∧ rd32 file 4 = 3110 ∧ rd32 file 42 = 3072)
      ∧ sizeofTinyWavHeader Build.win32 = 46
      ∧ ∀ junk : Nat, sizeofTinyWavHeader (Build.other junk) = 48) :=
  ⟨header_is_sizeof_bytes Build.win32 tw0 50 4096 2 1 16000 2 [[1, 2, 3, 4]] (by decide)
    (by decide) (by decide) (by decide) (by decide) (by decide),
   header_is_sizeof_bytes (Build.other 0) tw0 52 4096 2 1 16000 2 [[1, 2, 3, 4]] (by decide)
    (by decide) (by decide) (by decide) (by decide) (by decide)⟩

/-- C9, counterexample: in the scenario of `main` the header that
`tinywav_open_write` emits is 46 bytes long and the finished file 3118 bytes
long in the packed build, 48 and 3120 in the other; in neither build are they
44 and 3116. -/
theorem main_file_is_not_3116_bytes :
    (tinywav_open_write Build.win32 tw0 (some 4096) 1 48000 2).1.f.map
        (fun f => f.content.length) = some 46
      ∧ (main Build.win32 tw0 2 (some 4096)).2.map List.length = some 3118
      ∧ (main Build.win32 tw0 2 (some 4096)).2.map List.length ≠ some 3116
      ∧ (tinywav_open_write (Build.other 0) tw0 (some 4096) 1 48000 2).1.f.map
          (fun f => f.content.length) = some 48
      ∧ (main (Build.other 0) tw0 2 (some 4096)).2.map List.length = some 3120
      ∧ (main (Build.other 0) tw0 2 (some 4096)).2.map List.length ≠ some 3116 := by
  obtain ⟨fw, hw, lw, -, -⟩ := main_file Build.win32 tw0 2 4096 (by decide) (by decide)
  obtain ⟨fo, ho, lo, -, -⟩ := main_file (Build.other 0) tw0 2 4096 (by decide) (by decide)
  simp only [sizeofTinyWavHeader] at lw lo
  refine ⟨by decide, ?_, ?_, by decide, ?_, ?_⟩
  · rw [hw]; exact congrArg some lw
  · rw [hw]
    simp only [Option.map_some', lw]
    decide
  · rw [ho]; exact congrArg some lo
  · rw [ho]
    simp only [Option.map_some', lo]
    decide

/-! ## Reads past the declared data -/

set_option maxRecDepth 16000 in
/-- C6, the code at the failing input, in each build: on a file whose "data"
chunk of two bytes is followed by another chunk (a well-formed WAV file in the
packed layout), the first `tinywav_read_f` of four bytes is clamped to 2, and
the reads issued after the declared data has been consumed return -2, -6 and
-8 while storing 4, 2 and 0 bytes. -/
theorem read_f_after_end_is_negative :
    ((tinywav_open_read Build.win32 tw0 (some (trailingChunkFile Build.win32))).map
        (fun r => (r.2, r.1.totalDataBytes)) = some (0, 2)
      ∧ (tinywav_open_read Build.win32 tw0 (some (trailingChunkFile Build.win32))).map
          (fun r => read_calls r.1 [4, 4, 4, 4])
        = some [(2, [1, 2, 0x4c, 0x49]), (-2, [0x53, 0x54, 0, 0]), (-6, [0, 0]), (-8, [])])
    ∧ ((tinywav_open_read (Build.other 0) tw0 (some (trailingChunkFile (Build.other 0)))).map
        (fun r => (r.2, r.1.totalDataBytes)) = some (0, 2)
      ∧ (tinywav_open_read (Build.other 0) tw0 (some (trailingChunkFile (Build.other 0)))).map
          (fun r => read_calls r.1 [4, 4, 4, 4])
        = some [(2, [1, 2, 0x4c, 0x49]), (-2, [0x53, 0x54, 0, 0]), (-6, [0, 0]), (-8, [])]) :=
  ⟨⟨by decide, by decide⟩, ⟨by decide, by decide⟩⟩

/-! ## Chunks between "fmt " and "data" -/

set_option maxRecDepth 16000 in
/-- C7, the code at the failing input. In the packed build a file of this
library with two frames of mono 16-bit data opens; with a "LIST" chunk of
eight payload bytes (or of none) inserted before the "data" chunk
`tinywav_open_read` returns -1; with a chunk of four payload bytes it returns
0, reports the four data bytes and leaves the stream at the first sample byte.
In the other build `tinywav_open_read` returns -1 on each of these four files. -/
theorem open_read_fails_on_inserted_chunk :
    ((tinywav_open_read Build.win32 tw0
        (some (writeSession Build.win32 tw0 (some 100) 1 16000 2 [[1, 2], [3, 4]]))).map
        (fun r => (r.2, r.1.totalDataBytes)) = some (0, 4)
      ∧ (tinywav_open_read Build.win32 tw0
          (some (insertChunk (writeSession Build.win32 tw0 (some 100) 1 16000 2 [[1, 2], [3, 4]])
            tagLIST [9, 9, 9, 9, 9, 9, 9, 9]))).map (fun r => r.2) = some (-1)
      ∧ (tinywav_open_read Build.win32 tw0
          (some (insertChunk (writeSession Build.win32 tw0 (some 100) 1 16000 2 [[1, 2], [3, 4]])
            tagLIST []))).map (fun r => r.2) = some (-1)
      ∧ (tinywav_open_read Build.win32 tw0
          (some (insertChunk (writeSession Build.win32 tw0 (some 100) 1 16000 2 [[1, 2], [3, 4]])
            tagLIST [9, 9, 9, 9]))).map
          (fun r => (r.2, r.1.totalDataBytes)) = some (0, 4)
      ∧ (tinywav_open_read Build.win32 tw0
          (some (insertChunk (writeSession Build.win32 tw0 (some 100) 1 16000 2 [[1, 2], [3, 4]])
            tagLIST [9, 9, 9, 9]))).map
          (fun r => read_calls r.1 [4]) = some [(4, [1, 2, 3, 4])])
    ∧ ((tinywav_open_read (Build.other 0) tw0
          (some (writeSession Build.win32 tw0 (some 100) 1 16000 2 [[1, 2], [3, 4]]))).map
          (fun r => r.2) = some (-1)
      ∧ (tinywav_open_read (Build.other 0) tw0
          (some (insertChunk (writeSession Build.win32 tw0 (some 100) 1 16000 2 [[1, 2], [3, 4]])
            tagLIST [9, 9, 9, 9, 9, 9, 9, 9]))).map (fun r => r.2) = some (-1)
      ∧ (tinywav_open_read (Build.other 0) tw0
          (some (insertChunk (writeSession Build.win32 tw0 (some 100) 1 16000 2 [[1, 2], [3, 4]])
            tagLIST []))).map (fun r => r.2) = some (-1)
      ∧ (tinywav_open_read (Build.other 0) tw0
          (some (insertChunk (writeSession Build.win32 tw0 (some 100) 1 16000 2 [[1, 2], [3, 4]])
            tagLIST [9, 9, 9, 9]))).map (fun r => r.2) = some (-1)) :=
  ⟨⟨by decide, by decide, by decide, by decide, by decide⟩,
   ⟨by decide, by decide, by decide, by decide⟩⟩

/-! ## Tag checks of `tinywav_open_read` -/

/-- The outcome of `tinywav_open_read` when the first `fread` does not deliver
a full header window. -/
theorem open_read_short (B : Build) (tw : TinyWav) (c : List Byte)
    (hlen : c.length < sizeofTinyWavHeader B) :
    tinywav_open_read B tw (some c) =
      some ({ tw with f := some { content := c, pos := c.length, limit := c.length,
                                  closed := true },
                      h := none }, -1) := by
  have e : List.take (sizeofTinyWavHeader B) c = c := List.take_of_length_le (by omega)
  have hd : c.length / sizeofTinyWavHeader B = 0 := Nat.div_eq_of_lt hlen
  simp [tinywav_open_read, fopen_rb, fread, fclose, e, hd]

/-- The first `fread` of `tinywav_open_read` on a stream that holds a full
header window. -/
theorem fread_window (B : Build) (c : List Byte) (hlen : sizeofTinyWavHeader B ≤ c.length)
    (l : Nat) (cl : Bool) :
    fread { content := c, pos := 0, limit := l, closed := cl } (sizeofTinyWavHeader B) 1 =
      ({ content := c, pos := sizeofTinyWavHeader B, limit := l, closed := cl },
        c.take (sizeofTinyWavHeader B), 1) := by
  have hS := sizeof_bounds B
  have e : (List.take (sizeofTinyWavHeader B) c).length = sizeofTinyWavHeader B := by
    rw [List.length_take]; omega
  simp [fread, e, Nat.div_self (show 0 < sizeofTinyWavHeader B by omega)]

/-- The outcome of `tinywav_open_read` when the header window fails the tag
check. -/
theorem open_read_bad_window (B : Build) (tw : TinyWav) (c hb : List Byte) (f1 : FILE)
    (hr : fread { content := c, pos := 0, limit := c.length, closed := false }
      (sizeofTinyWavHeader B) 1 = (f1, hb, 1))
    (hbad : (headerOfBytes B hb).ChunkID ≠ htonl 0x52494646
      ∨ (headerOfBytes B hb).Format ≠ htonl 0x57415645
      ∨ (headerOfBytes B hb).Subchunk1ID ≠ htonl 0x666d7420) :
    tinywav_open_read B tw (some c) = some ({ tw with f := some (fclose f1), h := none }, -1) := by
  generalize hH : headerOfBytes B hb = H at hbad
  unfold tinywav_open_read
  simp only [fopen_rb, hr, hH]
  simp [hbad]

/-- A stream that holds a header window whose three tags the code accepts has
"RIFF" at offset 0, "WAVE" at offset 8 and "fmt " at offset 12. -/
theorem tags_of_window (B : Build) (c : List Byte) (hlen : sizeofTinyWavHeader B ≤ c.length)
    (h1 : (headerOfBytes B (c.take (sizeofTinyWavHeader B))).ChunkID = htonl 0x52494646)
    (h2 : (headerOfBytes B (c.take (sizeofTinyWavHeader B))).Format = htonl 0x57415645)
    (h3 : (headerOfBytes B (c.take (sizeofTinyWavHeader B))).Subchunk1ID = htonl 0x666d7420) :
    c.take 4 = tagRIFF ∧ (c.drop 8).take 4 = tagWAVE ∧ (c.drop 12).take 4 = tagFmt := by
  have hS := sizeof_bounds B
  have e1 : rd32 (c.take (sizeofTinyWavHeader B)) 0 = htonl 0x52494646 := h1
  have e2 : rd32 (c.take (sizeofTinyWavHeader B)) 8 = htonl 0x57415645 := h2
  have e3 : rd32 (c.take (sizeofTinyWavHeader B)) 12 = htonl 0x666d7420 := h3
  rw [rd32_take c _ _ (by omega)] at e1 e2 e3
  refine ⟨?_, ?_, ?_⟩
  · have := tag_of_rd32 c 0 0x52 0x49 0x46 0x46 (by omega) (e1.trans htonl_RIFF)
    rwa [List.drop_zero] at this
  · exact tag_of_rd32 c 8 0x57 0x41 0x56 0x45 (by omega) (e2.trans htonl_WAVE)
  · exact tag_of_rd32 c 12 0x66 0x6d 0x74 0x20 (by omega) (e3.trans htonl_fmt)

/-- C8: in either build, on every stream whose first four bytes are not
"RIFF", or whose bytes 8..11 are not "WAVE", or whose bytes 12..15 are not
"fmt ", `tinywav_open_read` returns -1 (the one error value of the code), has
closed the stream and released the header, and has set none of the session's
audio fields, so no sample data can be read. -/
theorem open_read_rejects_bad_tags (B : Build) (tw : TinyWav) (c : List Byte)
    (hbad : c.take 4 ≠ tagRIFF ∨ (c.drop 8).take 4 ≠ tagWAVE ∨ (c.drop 12).take 4 ≠ tagFmt) :
    ∃ f : FILE, tinywav_open_read B tw (some c) = some ({ tw with f := some f, h := none }, -1)
      ∧ f.closed = true := by
  by_cases hlen : c.length < sizeofTinyWavHeader B
  · exact ⟨_, open_read_short B tw c hlen, rfl⟩
  · refine ⟨_, open_read_bad_window B tw _ _ _ (fread_window B _ (by omega) _ _) ?_, rfl⟩
    by_contra hgood
    simp only [not_or, not_not] at hgood
    obtain ⟨t1, t2, t3⟩ := tags_of_window B c (by omega) hgood.1 hgood.2.1 hgood.2.2
    rcases hbad with h | h | h
    · exact h t1
    · exact h t2
    · exact h t3

set_option maxRecDepth 16000 in
/-- C8, witness: the 50-byte file of a writer session of the packed build with
its first byte changed from 'R' to 'X', read in the packed build and in the
other build. -/
theorem open_read_rejects_bad_tags_witness :
    (∃ f : FILE,
      tinywav_open_read Build.win32 tw0
          (some ((0x58 : Byte)
            :: (writeSession Build.win32 tw0 (some 100) 1 16000 2 [[1, 2], [3, 4]]).drop 1))
        = some ({ tw0 with f := some f, h := none }, -1)
      ∧ f.closed = true)
    ∧ (∃ f : FILE,
      tinywav_open_read (Build.other 0) tw0
          (some ((0x58 : Byte)
            :: (writeSession Build.win32 tw0 (some 100) 1 16000 2 [[1, 2], [3, 4]]).drop 1))
        = some ({ tw0 with f := some f, h := none }, -1)
      ∧ f.closed = true) :=
  ⟨open_read_rejects_bad_tags Build.win32 tw0
    ((0x58 : Byte) :: (writeSession Build.win32 tw0 (some 100) 1 16000 2 [[1, 2], [3, 4]]).drop 1)
    (Or.inl (by decide)),
   open_read_rejects_bad_tags (Build.other 0) tw0
    ((0x58 : Byte) :: (writeSession Build.win32 tw0 (some 100) 1 16000 2 [[1, 2], [3, 4]]).drop 1)
    (Or.inl (by decide))⟩

/-! ## Returned counts on a stream longer than 2^31 bytes -/

/-- The session and the value returned by a `tinywav_read_f` of `n` bytes
(`n` even, 16-bit samples) that the stream can serve in full. -/
theorem read_f_count_two (tw : TinyWav) (f : FILE) (n : Nat)
    (hf : tw.f = some f) (hb : tw.bytesPerSample = 2) (hn : n % 2 = 0)
    (hav : f.pos + n ≤ f.content.length) (hr : tw.rpos + n < 18446744073709551616) :
    (tinywav_read_f tw (n : Int)).1 =
        { tw with f := some { f with pos := f.pos + n }, rpos := tw.rpos + n }
      ∧ (tinywav_read_f tw (n : Int)).2.1 =
        (if tw.rpos + n > tw.totalDataBytes then
          toInt (toSizeT ((n : Int)
            - (toSizeT (((tw.rpos + n : Nat) : Int) - (tw.totalDataBytes : Int)) : Nat)))
        else toInt n) := by
  have hl1 : (n : Int) - (n : Int) % 2 = (n : Int) := by omega
  have hs : toSizeT (n : Int) = n := toSizeT_natCast _ (by omega)
  have hlen : (List.take (1 * n) (List.drop f.pos f.content)).length = n := by
    rw [List.length_take, List.length_drop]; omega
  have hm : (tw.rpos + n) % 18446744073709551616 = tw.rpos + n := Nat.mod_eq_of_lt hr
  have hb' : tw.bytesPerSample = 2 ∨ tw.bytesPerSample = 4 := Or.inl hb
  simp only [tinywav_read_f, if_pos hb', if_pos hb, hl1, hf, hs, fread, hlen, Nat.div_one, hm]
  constructor
  · split <;> rfl
  · split <;> rfl

theorem read_calls_cons_fst (tw : TinyWav) (len : Int) (rest : List Int) :
    (read_calls tw (len :: rest)).map Prod.fst
      = (tinywav_read_f tw len).2.1 :: (read_calls (tinywav_read_f tw len).1 rest).map Prod.fst :=
  rfl

/-- One step of a caller that reads `n` bytes: the facts about the session
that the next step needs, and the value returned. -/
theorem read_f_step (tw : TinyWav) (f : FILE) (n p q t : Nat)
    (hf : tw.f = some f) (hb : tw.bytesPerSample = 2) (hn : n % 2 = 0)
    (hp : f.pos = p) (hq : tw.rpos = q) (ht : tw.totalDataBytes = t)
    (hav : p + n ≤ f.content.length) (hr : q + n < 18446744073709551616) :
    ∃ f' : FILE, (tinywav_read_f tw (n : Int)).1.f = some f' ∧ f'.pos = p + n
      ∧ f'.content = f.content
      ∧ (tinywav_read_f tw (n : Int)).1.bytesPerSample = 2
      ∧ (tinywav_read_f tw (n : Int)).1.rpos = q + n
      ∧ (tinywav_read_f tw (n : Int)).1.totalDataBytes = t
      ∧ (tinywav_read_f tw (n : Int)).2.1 =
        (if q + n > t then
          toInt (toSizeT ((n : Int) - (toSizeT (((q + n : Nat) : Int) - (t : Int)) : Nat)))
        else toInt n) := by
  subst hp hq ht
  obtain ⟨e1, e2⟩ := read_f_count_two tw f n hf hb hn hav hr
  rw [e1, e2]
  exact ⟨_, rfl, rfl, rfl, hb, rfl, rfl, rfl⟩

/-- Four reads on a 16-bit stream that declares no data but holds more than
2^31 bytes of it. -/
theorem read_counts_past_2GiB (r : TinyWav) (f : FILE)
    (hf : r.f = some f) (hb : r.bytesPerSample = 2) (ht : r.totalDataBytes = 0)
    (hr : r.rpos = 0) (hav : f.pos + 2147483658 ≤ f.content.length) :
    (read_calls r [2147483646, 4, 4, 4]).map Prod.fst
      = [0, -2147483646, 2147483646, 2147483642] := by
  obtain ⟨f1, hf1, hp1, hc1, hb1, hr1, ht1, v1⟩ :=
    read_f_step r f 2147483646 f.pos 0 0 hf hb (by decide) rfl hr ht (by omega) (by decide)
  obtain ⟨f2, hf2, hp2, hc2, hb2, hr2, ht2, v2⟩ :=
    read_f_step _ f1 4 _ _ 0 hf1 hb1 (by decide) hp1 hr1 ht1 (by rw [hc1]; omega) (by decide)
  obtain ⟨f3, hf3, hp3, hc3, hb3, hr3, ht3, v3⟩ :=
    read_f_step _ f2 4 _ _ 0 hf2 hb2 (by decide) hp2 hr2 ht2 (by rw [hc2, hc1]; omega)
      (by decide)
  obtain ⟨f4, hf4, hp4, hc4, hb4, hr4, ht4, v4⟩ :=
    read_f_step _ f3 4 _ _ 0 hf3 hb3 (by decide) hp3 hr3 ht3 (by rw [hc3, hc2, hc1]; omega)
      (by decide)
  simp only [Nat.cast_ofNat] at v1 v2 v3 v4
  have w1 : (tinywav_read_f r 2147483646).2.1 = 0 := by rw [v1]; decide
  have w2 : (tinywav_read_f (tinywav_read_f r 2147483646).1 4).2.1 = -2147483646 := by
    rw [v2]; decide
  have w3 : (tinywav_read_f (tinywav_read_f (tinywav_read_f r 2147483646).1 4).1 4).2.1
      = 2147483646 := by
    rw [v3]; decide
  have w4 : (tinywav_read_f
      (tinywav_read_f (tinywav_read_f (tinywav_read_f r 2147483646).1 4).1 4).1 4).2.1
      = 2147483642 := by
    rw [v4]; decide
  simp only [read_calls_cons_fst, w1, w2, w3, w4]
  rfl

/-- C5, the code at the failing input, in either build: a mono 16-bit
recording whose header still declares no data (the header as
`tinywav_open_write` emits it) followed by 2^31 + 14 sample bytes.
`tinywav_open_read` succeeds with `totalDataBytes = 0`; reads of 2147483646, 4,
4 and 4 bytes return 0, -2147483646, 2147483646 and 2147483642, so the total of
the returned counts, 2147483642, exceeds the declared total. -/
theorem read_counts_exceed_declared_total (B : Build) :
    ∃ r : TinyWav,
      tinywav_open_read B tw0
          (some (headerBytes B (initHeader 1 16000 2) ++ List.replicate 2147483662 0))
        = some (r, 0)
      ∧ r.totalDataBytes = 0
      ∧ (read_calls r [2147483646, 4, 4, 4]).map Prod.fst
          = [0, -2147483646, 2147483646, 2147483642]
      ∧ ((read_calls r [2147483646, 4, 4, 4]).map Prod.fst).sum > (r.totalDataBytes : Int) := by
  have hav : sizeofTinyWavHeader B + 2147483658
      ≤ (headerBytes B (initHeader 1 16000 2) ++ List.replicate 2147483662 (0 : Byte)).length := by
    simp only [List.length_append, headerBytes_length, List.length_replicate]
    omega
  rw [open_read_canonical B tw0 (initHeader 1 16000 2) (List.replicate 2147483662 0) rfl rfl rfl
    rfl]
  have hb2 : (((initHeader 1 16000 2).BitsPerSample % 65536 / 8 : Nat) : Int) = 2 := by decide
  refine ⟨_, rfl, rfl, read_counts_past_2GiB _ _ rfl hb2 rfl rfl hav, ?_⟩
  rw [read_counts_past_2GiB _ _ rfl hb2 rfl rfl hav]
  show ([0, -2147483646, 2147483646, 2147483642] : List Int).sum
    > (((initHeader 1 16000 2).Subchunk2Size % 4294967296 : Nat) : Int)
  decide

/-! ## Returned counts on streams shorter than 2^31 bytes -/

/-- One `tinywav_read_f` on a stream with fewer than 2^31 bytes still to come:
the stream stays open, the bytes still to come do not grow, and a running
total `S` of returned counts that respects the declared length keeps doing so. -/
theorem read_f_keeps_total (tw : TinyWav) (f : FILE) (len : Int) (S : Int)
    (hf : tw.f = some f)
    (hB : tw.rpos + (f.content.length - f.pos) < 2147483648)
    (hS : S ≤ tw.totalDataBytes) (hS' : tw.rpos ≤ tw.totalDataBytes → S ≤ tw.rpos) :
    ∃ f' : FILE, (tinywav_read_f tw len).1.f = some f'
      ∧ (tinywav_read_f tw len).1.rpos + (f'.content.length - f'.pos) < 2147483648
      ∧ (tinywav_read_f tw len).1.totalDataBytes = tw.totalDataBytes
      ∧ S + (tinywav_read_f tw len).2.1 ≤ tw.totalDataBytes
      ∧ ((tinywav_read_f tw len).1.rpos ≤ tw.totalDataBytes →
          S + (tinywav_read_f tw len).2.1 ≤ (tinywav_read_f tw len).1.rpos) := by
  by_cases hb : tw.bytesPerSample = 2 ∨ tw.bytesPerSample = 4
  · simp only [tinywav_read_f, if_pos hb, hf, fread]
    generalize (if tw.bytesPerSample = 2 then len - len % 2 else len - len % 4) = len1
    have hb1 : (List.take (1 * toSizeT len1) (List.drop f.pos f.content)).length
        ≤ f.content.length - f.pos := by
      rw [List.length_take, List.length_drop]; omega
    generalize (List.take (1 * toSizeT len1) (List.drop f.pos f.content)).length = b at hb1
    simp only [Nat.div_one]
    split
    · rename_i hgt
      refine ⟨{ f with pos := f.pos + b }, rfl, ?_, rfl, ?_, ?_⟩
      · simp only []; omega
      · simp only [toInt, toSizeT] at *; split <;> omega
      · simp only [toInt, toSizeT] at *; split <;> omega
    · rename_i hle
      refine ⟨{ f with pos := f.pos + b }, rfl, ?_, rfl, ?_, ?_⟩
      · simp only []; omega
      · simp only [toInt] at *; split <;> omega
      · simp only [toInt] at *; split <;> omega
  · have e : tinywav_read_f tw len = (tw, -1, []) := by simp only [tinywav_read_f, if_neg hb]
    rw [e]
    refine ⟨f, hf, hB, rfl, ?_, fun (h : tw.rpos ≤ tw.totalDataBytes) => ?_⟩
    · show S + -1 ≤ _
      omega
    · have := hS' h
      show S + -1 ≤ (tw.rpos : Int)
      omega

/-- On a stream with fewer than 2^31 bytes still to come, the running total of
the counts returned by any sequence of `tinywav_read_f` calls stays at or
below the declared `totalDataBytes`. -/
theorem read_calls_total_bounded (lens : List Int) :
    ∀ (tw : TinyWav) (f : FILE) (S : Int), tw.f = some f →
      tw.rpos + (f.content.length - f.pos) < 2147483648 →
      S ≤ tw.totalDataBytes → (tw.rpos ≤ tw.totalDataBytes → S ≤ tw.rpos) →
      ∀ k : Nat, S + (((read_calls tw lens).map Prod.fst).take k).sum ≤ tw.totalDataBytes := by
  induction lens with
  | nil =>
    intro tw f S _ _ hS _ k
    simp only [read_calls, List.map_nil, List.take_nil, List.sum_nil]
    omega
  | cons len rest ih =>
    intro tw f S hf hB hS hS' k
    cases k with
    | zero => simp only [List.take_zero, List.sum_nil]; omega
    | succ k =>
      obtain ⟨f', hf', hB', ht', hS1, hS1'⟩ := read_f_keeps_total tw f len S hf hB hS hS'
      have := ih (tinywav_read_f tw len).1 f' (S + (tinywav_read_f tw len).2.1) hf' hB'
        (by rw [ht']; exact hS1) (by rw [ht']; exact hS1') k
      rw [ht'] at this
      simp only [read_calls_cons_fst, List.take_succ_cons, List.sum_cons]
      omega

/-- The chunk-skipping loop leaves the bytes of the stream alone. -/
theorem skipLoop_found_content (n : Nat) :
    ∀ (f : FILE) (h : TinyWavHeader) (f' : FILE) (h' : TinyWavHeader),
      skipLoop n f h = Scan.found f' h' → f'.content = f.content := by
  induction n with
  | zero => intro f h f' h' e; simp [skipLoop] at e
  | succ n ih =>
    intro f h f' h' e
    unfold skipLoop at e
    split at e
    · dsimp only at e
      split at e
      · cases e
      · exact (ih _ _ _ _ e).trans rfl
    · cases e
      rfl

/-- The session after a successful `tinywav_open_read`: the stream is the
file that was opened and no byte has been counted yet. -/
theorem open_read_ok_state (B : Build) (tw r : TinyWav) (c : List Byte)
    (h : tinywav_open_read B tw (some c) = some (r, 0)) :
    ∃ f : FILE, r.f = some f ∧ f.content = c ∧ r.rpos = 0 := by
  unfold tinywav_open_read at h
  simp only [fopen_rb] at h
  split at h
  · simp at h
  · split at h
    · simp at h
    · split at h
      · simp at h
      · simp at h
      · rename_i f2 h2 hs
        split at h
        · simp at h
        · have hc := skipLoop_found_content _ _ _ _ _ hs
          simp only [Option.some.injEq, Prod.mk.injEq, and_true] at h
          subst h
          exact ⟨f2, rfl, hc, rfl⟩

/-- In either build, for every stream shorter than 2^31 bytes that
`tinywav_open_read` accepts (whatever length it declares) and every sequence
of `tinywav_read_f` calls, the running total of the returned counts never
exceeds `totalDataBytes`. -/
theorem read_counts_within_declared_total (B : Build) (tw r : TinyWav) (c : List Byte)
    (lens : List Int) (k : Nat) (hlen : c.length < 2147483648)
    (h : tinywav_open_read B tw (some c) = some (r, 0)) :
    (((read_calls r lens).map Prod.fst).take k).sum ≤ r.totalDataBytes := by
  obtain ⟨f, hf, hc, hr⟩ := open_read_ok_state B tw r c h
  have := read_calls_total_bounded lens r f 0 hf (by rw [hr, hc]; omega) (by omega)
    (fun _ => by rw [hr]; rfl) k
  omega

/-! ## Writes that the device may cut short -/

/-- A write at the end of the stream appends what the device still takes. -/
theorem fwrite_at_end (f : FILE) (buf : List Byte) (n : Nat)
    (hpos : f.pos = f.content.length) :
    fwrite f buf 1 n =
      ({ f with content := f.content ++ (buf.take n).take (f.limit - f.content.length),
                pos := f.content.length + ((buf.take n).take (f.limit - f.content.length)).length },
        ((buf.take n).take (f.limit - f.content.length)).length) := by
  simp [fwrite, hpos]

/-- The function `tinywav_write_f` in a session whose stream stands at its end. -/
theorem write_f_at_end (tw : TinyWav) (f : FILE) (data : List Byte) (n : Nat)
    (hf : tw.f = some f) (hpos : f.pos = f.content.length)
    (hn : n < 18446744073709551616) :
    tinywav_write_f tw data (n : Int) =
      ({ tw with
          f := some { f with
            content := f.content ++ (data.take n).take (f.limit - f.content.length),
            pos := f.content.length + ((data.take n).take (f.limit - f.content.length)).length },
          totalDataBytes := (tw.totalDataBytes + n) % 18446744073709551616 },
        ((data.take n).take (f.limit - f.content.length)).length) := by
  have hs : toSizeT (n : Int) = n := toSizeT_natCast _ hn
  simp only [tinywav_write_f, hf, hs, fwrite_at_end f data n hpos]

/-- Any sequence of writes, short or not, in a session whose stream stands at
its end: the stream gains the written bytes up to the capacity of the device,
the counter gains the lengths asked for. -/
theorem write_chunks_general (chunks : List (List Byte)) :
    ∀ (tw : TinyWav) (f : FILE), tw.f = some f → f.pos = f.content.length →
      tw.totalDataBytes + chunks.flatten.length < 18446744073709551616 →
      write_chunks tw chunks =
        { tw with
            f := some { f with
              content := f.content ++ chunks.flatten.take (f.limit - f.content.length),
              pos := f.content.length
                + (chunks.flatten.take (f.limit - f.content.length)).length },
            totalDataBytes := tw.totalDataBytes + chunks.flatten.length } := by
  induction chunks with
  | nil =>
    intro tw f hf hpos _
    cases tw; cases f
    simp_all [write_chunks]
  | cons c rest ih =>
    intro tw f hf hpos htot
    simp only [List.flatten_cons, List.length_append] at htot
    have hm : (tw.totalDataBytes + c.length) % 18446744073709551616
        = tw.totalDataBytes + c.length := Nat.mod_eq_of_lt (by omega)
    rw [write_chunks, write_f_at_end tw f c c.length hf hpos (by omega), hm,
      List.take_length]
    rw [ih _ _ rfl (by simp only [List.length_append]) (by simp only []; omega)]
    simp only [List.flatten_cons, List.take_append_eq_append_take, List.length_append,
      List.length_take, List.append_assoc, Nat.add_assoc]
    have e : f.limit - (f.content.length + min (f.limit - f.content.length) c.length)
        = f.limit - f.content.length - c.length := by omega
    rw [e]

/-- The session of a writer, in either build, on a device that takes the
header, before the close: the stream holds the header image and what the
device took of the buffers. -/
theorem writerSession_general (B : Build) (tw : TinyWav) (cap : Nat) (nc sr bps : Int)
    (chunks : List (List Byte))
    (hsr : sr = 16000 ∨ sr = 32000 ∨ sr = 48000) (hbps : bps = 2 ∨ bps = 3 ∨ bps = 4)
    (htot : chunks.flatten.length < 18446744073709551616)
    (hcap : sizeofTinyWavHeader B ≤ cap) :
    write_chunks (tinywav_open_write B tw (some cap) nc sr bps).1 chunks =
      { f := some { content := headerBytes B (initHeader nc sr bps)
                      ++ chunks.flatten.take (cap - sizeofTinyWavHeader B),
                    pos := sizeofTinyWavHeader B
                      + (chunks.flatten.take (cap - sizeofTinyWavHeader B)).length,
                    limit := cap, closed := false },
        h := some (initHeader nc sr bps), numChannels := nc, bytesPerSample := bps,
        samplerate := sr, totalDataBytes := chunks.flatten.length, rpos := tw.rpos } := by
  rw [open_write_accepts B tw cap nc sr bps hsr hbps hcap]
  rw [write_chunks_general chunks _ _ rfl (by simp only [headerBytes_length])
    (by simp only []; omega)]
  simp only [headerBytes_length, Nat.zero_add]

/-- The file of a writer session of the packed build on a device that takes
the header: the header image with the two length fields set from the counter,
followed by the written bytes that the device took. -/
theorem writeSession_general (tw : TinyWav) (cap : Nat) (nc sr bps : Int)
    (chunks : List (List Byte))
    (hsr : sr = 16000 ∨ sr = 32000 ∨ sr = 48000) (hbps : bps = 2 ∨ bps = 3 ∨ bps = 4)
    (htot : chunks.flatten.length < 18446744073709551616) (hcap : 46 ≤ cap) :
    writeSession Build.win32 tw (some cap) nc sr bps chunks =
      headerBytes Build.win32 (closedHeader nc sr bps chunks.flatten.length)
        ++ chunks.flatten.take (cap - 46) := by
  unfold writeSession
  rw [writerSession_general Build.win32 tw cap nc sr bps chunks hsr hbps htot hcap]
  rw [close_write_patches _ _ (initHeader nc sr bps) (chunks.flatten.take (cap - 46)) rfl
    rfl (by simp only []; omega)]
  simp only [closedHeader]

/-- The finished file of a writer session, in either build, on a device that
takes the header and whatever the writes: apart from the bytes 4..7, the first
42 bytes are those of the header that `tinywav_open_write` prepared. -/
theorem writeSession_head (B : Build) (tw : TinyWav) (cap : Nat) (nc sr bps : Int)
    (chunks : List (List Byte))
    (hsr : sr = 16000 ∨ sr = 32000 ∨ sr = 48000) (hbps : bps = 2 ∨ bps = 3 ∨ bps = 4)
    (htot : chunks.flatten.length < 18446744073709551616)
    (hcap : sizeofTinyWavHeader B ≤ cap) :
    ∀ i, ¬ (4 ≤ i ∧ i < 8) → i < 42 →
      (writeSession B tw (some cap) nc sr bps chunks).getD i 0
        = (headerBytes B (initHeader nc sr bps)).getD i 0 := by
  have hS := sizeof_bounds B
  have hst := writerSession_general B tw cap nc sr bps chunks hsr hbps htot hcap
  obtain ⟨file, e, -, -, -, e4⟩ := close_write_file
    (write_chunks (tinywav_open_write B tw (some cap) nc sr bps).1 chunks)
    { content := headerBytes B (initHeader nc sr bps)
        ++ chunks.flatten.take (cap - sizeofTinyWavHeader B),
      pos := sizeofTinyWavHeader B + (chunks.flatten.take (cap - sizeofTinyWavHeader B)).length,
      limit := cap, closed := false }
    (by rw [hst])
    (by simp only [List.length_append, headerBytes_length]; omega) (by simp only []; omega)
  have hw : writeSession B tw (some cap) nc sr bps chunks = file := by
    unfold writeSession
    rw [e]
  intro i h1 h2
  rw [hw, e4 i h1 (by omega)]
  simp only [List.getD_eq_getElem?_getD]
  rw [List.getElem?_append_left (by rw [headerBytes_length]; omega)]

/-- The header bytes of a file that starts with a header image. -/
theorem tags_of_file (B : Build) (h : TinyWavHeader) (rest : List Byte) :
    (headerBytes B h ++ rest).take 4 = le32 h.ChunkID
      ∧ ((headerBytes B h ++ rest).drop 8).take 4 = le32 h.Format
      ∧ ((headerBytes B h ++ rest).drop 12).take 4 = le32 h.Subchunk1ID
      ∧ rd32 (headerBytes B h ++ rest) 16 = h.Subchunk1Size % 4294967296
      ∧ rd16 (headerBytes B h ++ rest) 36 = h.extSize % 65536
      ∧ ((headerBytes B h ++ rest).drop (offsetofSubchunk2ID B)).take 4 = le32 h.Subchunk2ID := by
  have e := headerOfBytes_headerBytes B h rest
  simp only [headerOfBytes, TinyWavHeader.mk.injEq] at e
  obtain ⟨-, -, -, -, e4, -, -, -, -, -, -, e11, -, -⟩ := e
  refine ⟨?_, ?_, ?_, e4, e11, ?_⟩ <;> cases B <;>
    simp [headerBytes, padding, offsetofSubchunk2ID, le32, le16]

/-! ## The bytes of a written header -/

/-- In the packed build, for every session that `tinywav_open_write` accepts
with a channel count that fits the 16-bit field (0..65535), on a device that
takes the header and whatever the writes: the closed file has "RIFF" at offset
0, "WAVE" at 8, "fmt " at 12, the number 18 at 16, the number 0 at 36, "data"
at 38, and the requested channel count and rate, little-endian, at 22 and 24. -/
theorem written_header_exact (tw : TinyWav) (cap : Nat) (nc sr bps : Int)
    (chunks : List (List Byte))
    (hnc : 0 ≤ nc ∧ nc < 65536)
    (hsr : sr = 16000 ∨ sr = 32000 ∨ sr = 48000) (hbps : bps = 2 ∨ bps = 3 ∨ bps = 4)
    (htot : chunks.flatten.length < 18446744073709551616) (hcap : 46 ≤ cap) :
    (writeSession Build.win32 tw (some cap) nc sr bps chunks).take 4 = tagRIFF
      ∧ ((writeSession Build.win32 tw (some cap) nc sr bps chunks).drop 8).take 4 = tagWAVE
      ∧ ((writeSession Build.win32 tw (some cap) nc sr bps chunks).drop 12).take 4 = tagFmt
      ∧ rd32 (writeSession Build.win32 tw (some cap) nc sr bps chunks) 16 = 18
      ∧ rd16 (writeSession Build.win32 tw (some cap) nc sr bps chunks) 36 = 0
      ∧ ((writeSession Build.win32 tw (some cap) nc sr bps chunks).drop 38).take 4 = tagData
      ∧ (rd16 (writeSession Build.win32 tw (some cap) nc sr bps chunks) 22 : Int) = nc
      ∧ (rd32 (writeSession Build.win32 tw (some cap) nc sr bps chunks) 24 : Int) = sr
      ∧ (writeSession Build.win32 tw (some cap) nc sr bps chunks).take 46
          = headerBytes Build.win32 (closedHeader nc sr bps chunks.flatten.length) := by
  rw [writeSession_general tw cap nc sr bps chunks hsr hbps htot hcap]
  obtain ⟨t0, t8, t12, e16, e36, t38⟩ :=
    tags_of_file Build.win32 (closedHeader nc sr bps chunks.flatten.length)
      (chunks.flatten.take (cap - 46))
  obtain ⟨-, -, e22, e24, -, -, -, -⟩ :=
    fields_of_file Build.win32 (closedHeader nc sr bps chunks.flatten.length)
      (chunks.flatten.take (cap - 46))
  have d0 : le32 (htonl 0x52494646) = tagRIFF := by decide
  have d8 : le32 (htonl 0x57415645) = tagWAVE := by decide
  have d12 : le32 (htonl 0x666d7420) = tagFmt := by decide
  have d38 : le32 (htonl 0x64617461) = tagData := by decide
  refine ⟨t0.trans d0, t8.trans d8, t12.trans d12, e16.trans rfl, e36.trans rfl, t38.trans d38,
    ?_, ?_, ?_⟩
  · rw [e22]
    show ((toU16 nc % 65536 : Nat) : Int) = nc
    unfold toU16
    omega
  · rw [e24]
    show ((toU32 sr % 4294967296 : Nat) : Int) = sr
    unfold toU32
    omega
  · have h46 : (headerBytes Build.win32 (closedHeader nc sr bps chunks.flatten.length)).length
        = 46 := headerBytes_length Build.win32 _
    rw [← h46]
    exact List.take_left' rfl

set_option maxRecDepth 16000 in
/-- C11, the code at the failing input: `tinywav_open_write` accepts 65537
channels (48000 Hz, 2 bytes per sample); in the file of that session, after
one write and the close, the rate at offset 24 is 48000, but the channel count
at offset 22 reads 1. This is so in either build; in the packed build the tags
and constants are in place, with "data" at offset 38. -/
theorem written_channel_count_truncated :
    ((tinywav_open_write Build.win32 tw0 (some 100) 65537 48000 2).2 = 0
      ∧ (writeSession Build.win32 tw0 (some 100) 65537 48000 2 [[1, 2]]).take 4 = tagRIFF
      ∧ ((writeSession Build.win32 tw0 (some 100) 65537 48000 2 [[1, 2]]).drop 38).take 4
          = tagData
      ∧ rd32 (writeSession Build.win32 tw0 (some 100) 65537 48000 2 [[1, 2]]) 24 = 48000
      ∧ rd16 (writeSession Build.win32 tw0 (some 100) 65537 48000 2 [[1, 2]]) 22 = 1)
    ∧ ((tinywav_open_write (Build.other 0) tw0 (some 100) 65537 48000 2).2 = 0
      ∧ (writeSession (Build.other 0) tw0 (some 100) 65537 48000 2 [[1, 2]]).take 4 = tagRIFF
      ∧ rd32 (writeSession (Build.other 0) tw0 (some 100) 65537 48000 2 [[1, 2]]) 24 = 48000
      ∧ rd16 (writeSession (Build.other 0) tw0 (some 100) 65537 48000 2 [[1, 2]]) 22 = 1) :=
  ⟨⟨by decide, by decide, by decide, by decide, by decide⟩,
   ⟨by decide, by decide, by decide, by decide⟩⟩

/-! ## What `tinywav_read_f` asks of the stream -/

/-- For `len >= 0` in the range of `int`: with two or four bytes per sample,
`tinywav_read_f` hands the stream a request for `len` rounded down to a
multiple of `bytesPerSample`, stores what that `fread` delivers (never more
bytes than the rounded length), and with any other width it returns -1 and
leaves the session, stream and counter included, as it was. -/
theorem read_f_rounds_request (tw : TinyWav) (f : FILE) (len : Int)
    (hf : tw.f = some f) (hlen : 0 ≤ len ∧ len < 2147483648) :
    ((tw.bytesPerSample = 2 ∨ tw.bytesPerSample = 4) →
      ∃ m : Nat, (m : Int) = tw.bytesPerSample * (len / tw.bytesPerSample)
        ∧ (tinywav_read_f tw len).1.f = some (fread f 1 m).1
        ∧ (tinywav_read_f tw len).2.2 = (fread f 1 m).2.1
        ∧ (tinywav_read_f tw len).2.2.length ≤ m)
      ∧ (¬ (tw.bytesPerSample = 2 ∨ tw.bytesPerSample = 4) →
          tinywav_read_f tw len = (tw, -1, [])) := by
  constructor
  · intro hb
    have hl1 : ∃ m : Nat, (m : Int) = tw.bytesPerSample * (len / tw.bytesPerSample)
        ∧ toSizeT (if tw.bytesPerSample = 2 then len - len % 2 else len - len % 4) = m := by
      rcases hb with hb | hb
      · refine ⟨(len - len % 2).toNat, ?_, ?_⟩
        · rw [hb]; omega
        · simp only [hb, if_true, toSizeT]; omega
      · refine ⟨(len - len % 4).toNat, ?_, ?_⟩
        · rw [hb]; omega
        · have : ¬ ((4 : Int) = 2) := by decide
          simp only [hb, this, if_false, toSizeT]; omega
    obtain ⟨m, hm, hs⟩ := hl1
    refine ⟨m, hm, ?_⟩
    simp only [tinywav_read_f, if_pos hb, hf, hs]
    have hle : (fread f 1 m).2.1.length ≤ m := by
      simp only [fread, List.length_take]; omega
    split <;> exact ⟨rfl, rfl, hle⟩
  · intro hb
    simp only [tinywav_read_f, if_neg hb]

/-- C12, the code at the failing input, in either build: on the mono 16-bit
recording that declares no data and holds 2^31 + 14 sample bytes, after reads
of 2147483646 and 4 bytes, each of the next two `tinywav_read_f` calls asks
for 4 bytes (a multiple of the sample width, so the stream is asked for
exactly 4) and returns 2147483646 and 2147483642. -/
theorem read_f_returns_more_than_requested (B : Build) :
    ∃ r : TinyWav,
      tinywav_open_read B tw0
          (some (headerBytes B (initHeader 1 16000 2) ++ List.replicate 2147483662 0))
        = some (r, 0)
      ∧ r.bytesPerSample = 2
      ∧ ((read_calls r [2147483646, 4, 4, 4]).map Prod.fst).drop 2 = [2147483646, 2147483642] := by
  have hav : sizeofTinyWavHeader B + 2147483658
      ≤ (headerBytes B (initHeader 1 16000 2) ++ List.replicate 2147483662 (0 : Byte)).length := by
    simp only [List.length_append, headerBytes_length, List.length_replicate]
    omega
  rw [open_read_canonical B tw0 (initHeader 1 16000 2) (List.replicate 2147483662 0) rfl rfl rfl
    rfl]
  have hb2 : (((initHeader 1 16000 2).BitsPerSample % 65536 / 8 : Nat) : Int) = 2 := by decide
  refine ⟨_, rfl, hb2, ?_⟩
  rw [read_counts_past_2GiB _ _ rfl hb2 rfl rfl hav]
  rfl

/-! ## The chunk-skipping loop -/

/-- An iteration of the loop that finds fewer than 8 bytes after its 4-byte
skip ends the loop with a failed read. -/
theorem skipLoop_eof (n : Nat) (f : FILE) (h : TinyWavHeader)
    (hne : h.Subchunk2ID ≠ htonl 0x64617461) (hshort : f.content.length < f.pos + 12) :
    ∃ f' : FILE, skipLoop (n + 1) f h = Scan.eof f' ∧ f'.content = f.content := by
  have hl : (List.take (4 * 2) (List.drop (f.pos + 4) f.content)).length / 4 ≠ 2 := by
    rw [List.length_take, List.length_drop]
    omega
  refine ⟨(fread (fseek_cur f 4) 4 2).1, ?_, rfl⟩
  simp only [skipLoop, hne, ne_eq, not_false_eq_true, if_true, fread, fseek_cur, hl]

/-- An iteration of the loop that finds 8 bytes after its 4-byte skip takes
them as the next chunk id and size and leaves the stream 12 bytes further. -/
theorem skipLoop_next (n : Nat) (f : FILE) (h : TinyWavHeader)
    (hne : h.Subchunk2ID ≠ htonl 0x64617461) (hfull : f.pos + 12 ≤ f.content.length) :
    skipLoop (n + 1) f h =
      skipLoop n { f with pos := f.pos + 12 }
        { h with Subchunk2ID := rd32 f.content (f.pos + 4),
                 Subchunk2Size := rd32 f.content (f.pos + 8) } := by
  have hl : (List.take (4 * 2) (List.drop (f.pos + 4) f.content)).length = 8 := by
    rw [List.length_take, List.length_drop]
    omega
  have hq : ¬ ((8 : Nat) / 4 ≠ 2) := by decide
  have e0 := rd32_take_drop f.content (f.pos + 4) (4 * 2) 0 (by omega)
  have e4 := rd32_take_drop f.content (f.pos + 4) (4 * 2) 4 (by omega)
  simp only [Nat.add_zero] at e0
  rw [show f.pos + 4 + 4 = f.pos + 8 by omega] at e4
  simp only [skipLoop, hne, ne_eq, not_false_eq_true, if_true, fread, fseek_cur, hl, hq, if_false,
    e0, e4]

/-- The loop needs at most `(L - pos) / 12 + 1` evaluations of its condition on
a stream of `L` bytes read up to `pos`. -/
theorem skipLoop_terminates (n : Nat) :
    ∀ (f : FILE) (h : TinyWavHeader), (f.content.length - f.pos) / 12 + 1 ≤ n →
      skipLoop n f h ≠ Scan.fuel := by
  induction n with
  | zero => intro f h hn; omega
  | succ n ih =>
    intro f h hn
    by_cases hd : h.Subchunk2ID = htonl 0x64617461
    · rw [skipLoop_data n f h hd]
      exact fun e => Scan.noConfusion e
    · by_cases hfull : f.pos + 12 ≤ f.content.length
      · rw [skipLoop_next n f h hd hfull]
        refine ih _ _ ?_
        simp only []
        omega
      · obtain ⟨f', e, -⟩ := skipLoop_eof n f h hd (by omega)
        rw [e]
        exact fun e => Scan.noConfusion e

/-- More fuel does not change the outcome of a loop that finished. -/
theorem skipLoop_mono (n : Nat) :
    ∀ (f : FILE) (h : TinyWavHeader) (m : Nat), skipLoop n f h ≠ Scan.fuel →
      skipLoop (n + m) f h = skipLoop n f h := by
  induction n with
  | zero => intro f h m hn; exact absurd rfl hn
  | succ n ih =>
    intro f h m hn
    rw [show n + 1 + m = (n + m) + 1 by omega]
    by_cases hd : h.Subchunk2ID = htonl 0x64617461
    · rw [skipLoop_data _ f h hd, skipLoop_data _ f h hd]
    · by_cases hfull : f.pos + 12 ≤ f.content.length
      · rw [skipLoop_next _ f h hd hfull] at hn ⊢
        rw [skipLoop_next n f h hd hfull]
        exact ih _ _ m hn
      · simp only [skipLoop, hd, ne_eq, not_false_eq_true, if_true]
        have hl : (fread (fseek_cur f 4) 4 2).2.2 ≠ 2 := by
          simp only [fread, fseek_cur, List.length_take, List.length_drop]
          omega
        simp only [hl, ne_eq, not_false_eq_true, if_true]

/-- The loop stops at the first candidate, counted from the position of the
stream in steps of 12 bytes, whose id is "data". -/
theorem skipLoop_finds (j : Nat) :
    ∀ (n : Nat) (f : FILE) (h : TinyWavHeader), h.Subchunk2ID ≠ htonl 0x64617461 →
      (∀ i, i < j → rd32 f.content (f.pos + 4 + 12 * i) ≠ htonl 0x64617461) →
      f.pos + 12 * (j + 1) ≤ f.content.length →
      rd32 f.content (f.pos + 4 + 12 * j) = htonl 0x64617461 → j + 2 ≤ n →
      skipLoop n f h =
        Scan.found { f with pos := f.pos + 12 * (j + 1) }
          { h with Subchunk2ID := rd32 f.content (f.pos + 4 + 12 * j),
                   Subchunk2Size := rd32 f.content (f.pos + 8 + 12 * j) } := by
  induction j with
  | zero =>
    intro n f h hne _ hfull hd hn
    obtain ⟨n', rfl⟩ : ∃ n', n = n' + 2 := ⟨n - 2, by omega⟩
    rw [skipLoop_next (n' + 1) f h hne (by omega)]
    rw [skipLoop_data n' _ _ (by simpa using hd)]
  | succ j ih =>
    intro n f h hne hnone hfull hd hn
    obtain ⟨n', rfl⟩ : ∃ n', n = n' + 1 := ⟨n - 1, by omega⟩
    rw [skipLoop_next n' f h hne (by omega)]
    have h0 := hnone 0 (by omega)
    rw [ih n' { f with pos := f.pos + 12 } _ (by simpa using h0)
      (fun i hi => by
        have := hnone (i + 1) (by omega)
        rw [show f.pos + 4 + 12 * (i + 1) = f.pos + 12 + 4 + 12 * i by omega] at this
        exact this)
      (by simp only []; omega)
      (by
        rw [show f.pos + 4 + 12 * (j + 1) = f.pos + 12 + 4 + 12 * j by omega] at hd
        exact hd)
      (by omega)]
    simp only [show f.pos + 12 + 12 * (j + 1) = f.pos + 12 * (j + 1 + 1) by omega,
      show f.pos + 12 + 4 + 12 * j = f.pos + 4 + 12 * (j + 1) by omega,
      show f.pos + 12 + 8 + 12 * j = f.pos + 8 + 12 * (j + 1) by omega]

/-- The loop ends with a failed read when no candidate that the stream holds
in full has the id "data". -/
theorem skipLoop_exhausts (n : Nat) :
    ∀ (f : FILE) (h : TinyWavHeader), h.Subchunk2ID ≠ htonl 0x64617461 →
      (∀ i, f.pos + 12 * (i + 1) ≤ f.content.length →
        rd32 f.content (f.pos + 4 + 12 * i) ≠ htonl 0x64617461) →
      (f.content.length - f.pos) / 12 + 1 ≤ n →
      ∃ f' : FILE, skipLoop n f h = Scan.eof f' ∧ f'.content = f.content := by
  induction n with
  | zero => intro f h _ _ hn; omega
  | succ n ih =>
    intro f h hne hnone hn
    by_cases hfull : f.pos + 12 ≤ f.content.length
    · rw [skipLoop_next n f h hne hfull]
      have h0 := hnone 0 (by omega)
      exact ih { f with pos := f.pos + 12 } _ (by simpa using h0)
        (fun i hi => by
          have := hnone (i + 1) (by simp only [] at hi; omega)
          rw [show f.pos + 4 + 12 * (i + 1) = f.pos + 12 + 4 + 12 * i by omega] at this
          exact this)
        (by simp only []; omega)
    · exact skipLoop_eof n f h hne (by omega)

/-- The loop changes no field of the header other than `Subchunk2ID` and
`Subchunk2Size`. -/
theorem skipLoop_found_fields (n : Nat) :
    ∀ (f : FILE) (h : TinyWavHeader) (f' : FILE) (h' : TinyWavHeader),
      skipLoop n f h = Scan.found f' h' →
      h'.NumChannels = h.NumChannels ∧ h'.SampleRate = h.SampleRate
        ∧ h'.BitsPerSample = h.BitsPerSample := by
  induction n with
  | zero => intro f h f' h' e; simp [skipLoop] at e
  | succ n ih =>
    intro f h f' h' e
    unfold skipLoop at e
    split at e
    · dsimp only at e
      split at e
      · cases e
      · have := ih _ _ _ _ e
        exact this
    · cases e
      exact ⟨rfl, rfl, rfl⟩

/-- The outcome of `tinywav_open_read` when the loop finds a "data" id. -/
theorem open_read_of_found (B : Build) (tw : TinyWav) (c hb : List Byte) (f1 f2 : FILE)
    (h2 : TinyWavHeader)
    (hr : fread { content := c, pos := 0, limit := c.length, closed := false }
      (sizeofTinyWavHeader B) 1 = (f1, hb, 1))
    (t1 : (headerOfBytes B hb).ChunkID = htonl 0x52494646)
    (t2 : (headerOfBytes B hb).Format = htonl 0x57415645)
    (t3 : (headerOfBytes B hb).Subchunk1ID = htonl 0x666d7420)
    (hs : skipLoop (c.length + 1) f1 (headerOfBytes B hb) = Scan.found f2 h2)
    (hd : h2.Subchunk2ID = htonl 0x64617461) :
    tinywav_open_read B tw (some c) =
      some ({ f := some f2, h := some h2, totalDataBytes := h2.Subchunk2Size,
              numChannels := (h2.NumChannels : Int),
              bytesPerSample := ((h2.BitsPerSample / 8 : Nat) : Int),
              samplerate := toInt h2.SampleRate, rpos := 0 }, 0) := by
  generalize hH : headerOfBytes B hb = H at t1 t2 t3 hs
  unfold tinywav_open_read
  simp only [fopen_rb, hr, hH, t1, t2, t3, hs]
  simp [hd]

/-- The outcome of `tinywav_open_read` when the loop ends with a failed read. -/
theorem open_read_of_eof (B : Build) (tw : TinyWav) (c hb : List Byte) (f1 f2 : FILE)
    (hr : fread { content := c, pos := 0, limit := c.length, closed := false }
      (sizeofTinyWavHeader B) 1 = (f1, hb, 1))
    (t1 : (headerOfBytes B hb).ChunkID = htonl 0x52494646)
    (t2 : (headerOfBytes B hb).Format = htonl 0x57415645)
    (t3 : (headerOfBytes B hb).Subchunk1ID = htonl 0x666d7420)
    (hs : skipLoop (c.length + 1) f1 (headerOfBytes B hb) = Scan.eof f2) :
    tinywav_open_read B tw (some c) = some ({ tw with f := some (fclose f2), h := none }, -1) := by
  generalize hH : headerOfBytes B hb = H at t1 t2 t3 hs
  unfold tinywav_open_read
  simp only [fopen_rb, hr, hH, t1, t2, t3, hs]
  simp

/-- The outcome of `tinywav_open_read` if the loop stopped on an id other than
"data" (it never does). -/
theorem open_read_of_stray (B : Build) (tw : TinyWav) (c hb : List Byte) (f1 f2 : FILE)
    (h2 : TinyWavHeader)
    (hr : fread { content := c, pos := 0, limit := c.length, closed := false }
      (sizeofTinyWavHeader B) 1 = (f1, hb, 1))
    (t1 : (headerOfBytes B hb).ChunkID = htonl 0x52494646)
    (t2 : (headerOfBytes B hb).Format = htonl 0x57415645)
    (t3 : (headerOfBytes B hb).Subchunk1ID = htonl 0x666d7420)
    (hs : skipLoop (c.length + 1) f1 (headerOfBytes B hb) = Scan.found f2 h2)
    (hd : h2.Subchunk2ID ≠ htonl 0x64617461) :
    tinywav_open_read B tw (some c) = some ({ tw with f := some (fclose f2), h := none }, -1) := by
  generalize hH : headerOfBytes B hb = H at t1 t2 t3 hs
  unfold tinywav_open_read
  simp only [fopen_rb, hr, hH, t1, t2, t3, hs]
  simp [hd]

/-- The three tags of a stream, as the numbers the code compares. -/
theorem window_tags (B : Build) (c : List Byte)
    (h1 : c.take 4 = tagRIFF) (h2 : (c.drop 8).take 4 = tagWAVE)
    (h3 : (c.drop 12).take 4 = tagFmt) :
    (headerOfBytes B (c.take (sizeofTinyWavHeader B))).ChunkID = htonl 0x52494646
      ∧ (headerOfBytes B (c.take (sizeofTinyWavHeader B))).Format = htonl 0x57415645
      ∧ (headerOfBytes B (c.take (sizeofTinyWavHeader B))).Subchunk1ID = htonl 0x666d7420 := by
  have hS := sizeof_bounds B
  refine ⟨?_, ?_, ?_⟩
  · show rd32 (c.take (sizeofTinyWavHeader B)) 0 = _
    rw [rd32_take c _ 0 (by omega)]
    exact rd32_of_tag c 0 tagRIFF _ (by simpa using h1) (by decide)
  · show rd32 (c.take (sizeofTinyWavHeader B)) 8 = _
    rw [rd32_take c _ 8 (by omega)]
    exact rd32_of_tag c 8 tagWAVE _ h2 (by decide)
  · show rd32 (c.take (sizeofTinyWavHeader B)) 12 = _
    rw [rd32_take c _ 12 (by omega)]
    exact rd32_of_tag c 12 tagFmt _ h3 (by decide)

/-- The `Subchunk2ID` field of the header window is the "data" id exactly
when the four bytes at its offset are "data". -/
theorem window_data_iff (B : Build) (c : List Byte) (hlen : sizeofTinyWavHeader B ≤ c.length) :
    (headerOfBytes B (c.take (sizeofTinyWavHeader B))).Subchunk2ID = htonl 0x64617461
      ↔ (c.drop (offsetofSubchunk2ID B)).take 4 = tagData := by
  have hS := sizeof_bounds B
  have e : (headerOfBytes B (c.take (sizeofTinyWavHeader B))).Subchunk2ID
      = rd32 c (offsetofSubchunk2ID B) := by
    show rd32 (c.take (sizeofTinyWavHeader B)) (offsetofSubchunk2ID B) = _
    rw [rd32_take c _ _ (by omega)]
  rw [e]
  exact ⟨fun h => tagData_of_rd32 c _ (by omega) h, fun h => rd32_of_tagData c _ h⟩

/-! ## What `tinywav_open_read` returns and records -/

/-- The two outcomes of `tinywav_open_read` on a stream, in either build: it
returns 0 with `numChannels`, `samplerate` and `bytesPerSample` taken from the
offsets 22, 24 and 34 and `rpos = 0`; or it returns -1 with the stream closed,
the header released and the other fields of the session as they were. -/
theorem open_read_outcome (B : Build) (tw : TinyWav) (c : List Byte) :
    (∃ r : TinyWav, tinywav_open_read B tw (some c) = some (r, 0)
        ∧ r.numChannels = (rd16 c 22 : Int) ∧ r.samplerate = toInt (rd32 c 24)
        ∧ r.bytesPerSample = ((rd16 c 34 / 8 : Nat) : Int) ∧ r.rpos = 0)
      ∨ ∃ f : FILE, tinywav_open_read B tw (some c)
            = some ({ tw with f := some f, h := none }, -1)
          ∧ f.closed = true := by
  have hS := sizeof_bounds B
  by_cases hlen : c.length < sizeofTinyWavHeader B
  · exact Or.inr ⟨_, open_read_short B tw c hlen, rfl⟩
  · have hw := fread_window B c (by omega) c.length false
    by_cases hbad : (headerOfBytes B (c.take (sizeofTinyWavHeader B))).ChunkID ≠ htonl 0x52494646
        ∨ (headerOfBytes B (c.take (sizeofTinyWavHeader B))).Format ≠ htonl 0x57415645
        ∨ (headerOfBytes B (c.take (sizeofTinyWavHeader B))).Subchunk1ID ≠ htonl 0x666d7420
    · exact Or.inr ⟨_, open_read_bad_window B tw c _ _ hw hbad, rfl⟩
    · simp only [not_or, not_not] at hbad
      have hne := skipLoop_terminates (c.length + 1)
        { content := c, pos := sizeofTinyWavHeader B, limit := c.length, closed := false }
        (headerOfBytes B (c.take (sizeofTinyWavHeader B))) (by simp only []; omega)
      cases hs : skipLoop (c.length + 1)
          { content := c, pos := sizeofTinyWavHeader B, limit := c.length, closed := false }
          (headerOfBytes B (c.take (sizeofTinyWavHeader B))) with
      | fuel => exact absurd hs hne
      | eof f2 =>
        exact Or.inr ⟨_, open_read_of_eof B tw c _ _ f2 hw hbad.1 hbad.2.1 hbad.2.2 hs, rfl⟩
      | found f2 h2 =>
        by_cases hd : h2.Subchunk2ID = htonl 0x64617461
        · obtain ⟨e1, e2, e3⟩ := skipLoop_found_fields _ _ _ _ _ hs
          refine Or.inl ⟨_, open_read_of_found B tw c _ _ f2 h2 hw hbad.1 hbad.2.1 hbad.2.2 hs hd,
            ?_, ?_, ?_, rfl⟩
          · show ((h2.NumChannels : Nat) : Int) = _
            rw [e1]
            show ((rd16 (c.take (sizeofTinyWavHeader B)) 22 : Nat) : Int) = _
            rw [rd16_take c _ 22 (by omega)]
          · show toInt h2.SampleRate = _
            rw [e2]
            show toInt (rd32 (c.take (sizeofTinyWavHeader B)) 24) = _
            rw [rd32_take c _ 24 (by omega)]
          · show ((h2.BitsPerSample / 8 : Nat) : Int) = _
            rw [e3]
            show ((rd16 (c.take (sizeofTinyWavHeader B)) 34 / 8 : Nat) : Int) = _
            rw [rd16_take c _ 34 (by omega)]
        · exact Or.inr ⟨_, open_read_of_stray B tw c _ _ f2 h2 hw hbad.1 hbad.2.1 hbad.2.2 hs hd,
            rfl⟩

/-- In either build, for every stream on which `tinywav_open_read` returns 0,
the session records `numChannels` = the 16-bit number at offset 22,
`samplerate` = the 32-bit number at offset 24 (as the `int` with these 32
bits), `bytesPerSample` = the 16-bit number at offset 34 divided by 8 and
`rpos = 0`; and if the four bytes at `offsetof(TinyWavHeader, Subchunk2ID)`
(38 in the packed build, 40 in the other) are "data", it records
`totalDataBytes` = the 32-bit number four bytes further (at 42, or at 44). -/
theorem open_read_records_header (B : Build) (tw : TinyWav) (c : List Byte)
    (hopen : (tinywav_open_read B tw (some c)).map Prod.snd = some 0) :
    ∃ r : TinyWav, tinywav_open_read B tw (some c) = some (r, 0)
      ∧ r.numChannels = (rd16 c 22 : Int)
      ∧ r.samplerate = toInt (rd32 c 24) ∧ toU32 r.samplerate = rd32 c 24
      ∧ r.bytesPerSample = ((rd16 c 34 / 8 : Nat) : Int)
      ∧ r.rpos = 0
      ∧ ((c.drop (offsetofSubchunk2ID B)).take 4 = tagData →
          r.totalDataBytes = rd32 c (offsetofSubchunk2ID B + 4)) := by
  have hS := sizeof_bounds B
  rcases open_read_outcome B tw c with ⟨r, hr, e1, e2, e3, e4⟩ | ⟨f, hf, -⟩
  · refine ⟨r, hr, e1, e2, ?_, e3, e4, ?_⟩
    · rw [e2]
      have := rd32_lt c 24
      unfold toU32 toInt
      split <;> omega
    · intro hdata
      by_cases hlen : c.length < sizeofTinyWavHeader B
      · rw [open_read_short B tw c hlen] at hr
        simp at hr
      · have hw := fread_window B c (by omega) c.length false
        by_cases hbad : (headerOfBytes B (c.take (sizeofTinyWavHeader B))).ChunkID
              ≠ htonl 0x52494646
            ∨ (headerOfBytes B (c.take (sizeofTinyWavHeader B))).Format ≠ htonl 0x57415645
            ∨ (headerOfBytes B (c.take (sizeofTinyWavHeader B))).Subchunk1ID ≠ htonl 0x666d7420
        · rw [open_read_bad_window B tw c _ _ hw hbad] at hr
          simp at hr
        · simp only [not_or, not_not] at hbad
          have h4 := (window_data_iff B c (by omega)).2 hdata
          rw [open_read_of_window B tw c _ _ hw hbad.1 hbad.2.1 hbad.2.2 h4] at hr
          simp only [Option.some.injEq, Prod.mk.injEq, and_true] at hr
          subst hr
          show rd32 (c.take (sizeofTinyWavHeader B)) (offsetofSubchunk2ID B + 4) = _
          rw [rd32_take c _ _ (by omega)]
  · rw [hf] at hopen
    simp at hopen

set_option maxRecDepth 16000 in
/-- C13, the code at the failing input. The file `dataInSamplesFile` is a
well-formed WAV file with "data" at offset 38 and the number 14 at offset 42;
the packed build opens it and records `totalDataBytes = 14`, the other build
opens it and records `totalDataBytes = 2`, the number it finds at offset 56.
And on a file laid out as the other build expects, with "data" at offset 40 and
the number 2 at offset 44, that build records `totalDataBytes = 2` while the
bytes 42..45 spell 156020. -/
theorem open_read_size_without_packing :
    (dataInSamplesFile.drop 38).take 4 = tagData
      ∧ rd32 dataInSamplesFile 42 = 14
      ∧ (tinywav_open_read Build.win32 tw0 (some dataInSamplesFile)).map
          (fun r => (r.2, r.1.totalDataBytes)) = some (0, 14)
      ∧ (tinywav_open_read (Build.other 0) tw0 (some dataInSamplesFile)).map
          (fun r => (r.2, r.1.totalDataBytes)) = some (0, 2)
      ∧ rd32 dataInSamplesFile 56 = 2
      ∧ ((trailingChunkFile (Build.other 0)).drop 40).take 4 = tagData
      ∧ rd32 (trailingChunkFile (Build.other 0)) 44 = 2
      ∧ rd32 (trailingChunkFile (Build.other 0)) 42 = 156020
      ∧ (tinywav_open_read (Build.other 0) tw0 (some (trailingChunkFile (Build.other 0)))).map
          (fun r => (r.2, r.1.totalDataBytes)) = some (0, 2) :=
  ⟨by decide, by decide, by decide, by decide, by decide, by decide, by decide, by decide,
   by decide⟩

/-! ## No validation of the format on the read side -/

/-- C14, amended: `tinywav_open_read` does not validate the declared format.
In either build, on every file that starts with a header carrying the four
tags, whatever channel count, sample rate and bits per sample that header
declares, `tinywav_open_read` returns 0 and records the declared values; a
sample width other than 2 or 4 bytes is refused only by `tinywav_read_f`, which
then returns -1 on every call and stores nothing. -/
theorem open_read_does_not_validate (B : Build) (tw : TinyWav) (h : TinyWavHeader)
    (data : List Byte)
    (h1 : h.ChunkID = htonl 0x52494646) (h2 : h.Format = htonl 0x57415645)
    (h3 : h.Subchunk1ID = htonl 0x666d7420) (h4 : h.Subchunk2ID = htonl 0x64617461) :
    ∃ r : TinyWav, tinywav_open_read B tw (some (headerBytes B h ++ data)) = some (r, 0)
      ∧ r.numChannels = ((h.NumChannels % 65536 : Nat) : Int)
      ∧ r.samplerate = toInt (h.SampleRate % 4294967296)
      ∧ r.bytesPerSample = ((h.BitsPerSample % 65536 / 8 : Nat) : Int)
      ∧ (r.bytesPerSample ≠ 2 → r.bytesPerSample ≠ 4 →
          ∀ len : Int, tinywav_read_f r len = (r, -1, [])) := by
  refine ⟨_, open_read_canonical B tw h data h1 h2 h3 h4, rfl, rfl, rfl, ?_⟩
  intro hb2 hb4 len
  have hb : ¬ (((h.BitsPerSample % 65536 / 8 : Nat) : Int) = 2
      ∨ ((h.BitsPerSample % 65536 / 8 : Nat) : Int) = 4) := fun hh => hh.elim hb2 hb4
  simp only [tinywav_read_f, if_neg hb]

/-- C14, witness: a header that declares 8 channels, 44100 Hz and 8 bits per
sample, in the packed layout and in the other. -/
theorem open_read_does_not_validate_witness :
    (∃ r : TinyWav,
      tinywav_open_read Build.win32 tw0
          (some (headerBytes Build.win32
                    { initHeader 8 48000 2 with
                        NumChannels := 8, SampleRate := 44100, BitsPerSample := 8 }
                  ++ [1, 2, 3, 4])) = some (r, 0)
      ∧ r.numChannels = ((8 % 65536 : Nat) : Int)
      ∧ r.samplerate = toInt (44100 % 4294967296)
      ∧ r.bytesPerSample = ((8 % 65536 / 8 : Nat) : Int)
      ∧ (r.bytesPerSample ≠ 2 → r.bytesPerSample ≠ 4 →
          ∀ len : Int, tinywav_read_f r len = (r, -1, [])))
    ∧ (∃ r : TinyWav,
      tinywav_open_read (Build.other 0) tw0
          (some (headerBytes (Build.other 0)
                    { initHeader 8 48000 2 with
                        NumChannels := 8, SampleRate := 44100, BitsPerSample := 8 }
                  ++ [1, 2, 3, 4])) = some (r, 0)
      ∧ r.numChannels = ((8 % 65536 : Nat) : Int)
      ∧ r.samplerate = toInt (44100 % 4294967296)
      ∧ r.bytesPerSample = ((8 % 65536 / 8 : Nat) : Int)
      ∧ (r.bytesPerSample ≠ 2 → r.bytesPerSample ≠ 4 →
          ∀ len : Int, tinywav_read_f r len = (r, -1, []))) :=
  ⟨open_read_does_not_validate Build.win32 tw0
    { initHeader 8 48000 2 with NumChannels := 8, SampleRate := 44100, BitsPerSample := 8 }
    [1, 2, 3, 4] rfl rfl rfl rfl,
   open_read_does_not_validate (Build.other 0) tw0
    { initHeader 8 48000 2 with NumChannels := 8, SampleRate := 44100, BitsPerSample := 8 }
    [1, 2, 3, 4] rfl rfl rfl rfl⟩

set_option maxRecDepth 16000 in
/-- C14, counterexample: on a file with the tags in place that declares 8
channels, 44100 Hz and one byte per sample, `tinywav_open_read` returns 0 and
records these values, in the packed build and in the other. -/
theorem open_read_accepts_unsupported_format :
    (tinywav_open_read Build.win32 tw0 (some (unsupportedFormatFile Build.win32))).map
        (fun r => (r.2, r.1.numChannels, r.1.samplerate, r.1.bytesPerSample))
      = some (0, 8, 44100, 1)
    ∧ (tinywav_open_read (Build.other 0) tw0 (some (unsupportedFormatFile (Build.other 0)))).map
        (fun r => (r.2, r.1.numChannels, r.1.samplerate, r.1.bytesPerSample))
      = some (0, 8, 44100, 1) :=
  ⟨by decide, by decide⟩

/-! ## `tinywav_isOpen` -/

set_option maxRecDepth 16000 in
/-- C15, the code at the failing inputs, in the packed build and in the other:
`tinywav_isOpen` is true after a successful `tinywav_open_write` and
`tinywav_open_read`, false after `tinywav_close_write` and
`tinywav_close_read`, and false after a `tinywav_open_read` of a missing file;
but after a `tinywav_open_read` that returned -1 on a truncated header, on a
bad tag, or without finding a "data" chunk, it is true. -/
theorem isOpen_after_failed_open_read :
    (tinywav_isOpen (tinywav_open_write Build.win32 tw0 (some 100) 1 16000 2).1 = true
      ∧ tinywav_isOpen
          (tinywav_close_write (tinywav_open_write Build.win32 tw0 (some 100) 1 16000 2).1).1
          = false
      ∧ (tinywav_open_read Build.win32 tw0
          (some (writeSession Build.win32 tw0 (some 100) 1 16000 2 [[1, 2]]))).map
          (fun r => (r.2, tinywav_isOpen r.1, tinywav_isOpen (tinywav_close_read r.1)))
          = some (0, true, false)
      ∧ (tinywav_open_read Build.win32 tw0 none).map (fun r => (r.2, tinywav_isOpen r.1))
          = some (-1, false)
      ∧ (tinywav_open_read Build.win32 tw0 (some truncatedFile)).map
          (fun r => (r.2, tinywav_isOpen r.1)) = some (-1, true)
      ∧ (tinywav_open_read Build.win32 tw0
          (some ((0x58 : Byte)
            :: (writeSession Build.win32 tw0 (some 100) 1 16000 2 [[1, 2]]).drop 1))).map
          (fun r => (r.2, tinywav_isOpen r.1)) = some (-1, true)
      ∧ (tinywav_open_read Build.win32 tw0 (some (noDataFile Build.win32))).map
          (fun r => (r.2, tinywav_isOpen r.1)) = some (-1, true))
    ∧ (tinywav_isOpen (tinywav_open_write (Build.other 0) tw0 (some 100) 1 16000 2).1 = true
      ∧ tinywav_isOpen
          (tinywav_close_write (tinywav_open_write (Build.other 0) tw0 (some 100) 1 16000 2).1).1
          = false
      ∧ (tinywav_open_read (Build.other 0) tw0 (some (trailingChunkFile (Build.other 0)))).map
          (fun r => (r.2, tinywav_isOpen r.1, tinywav_isOpen (tinywav_close_read r.1)))
          = some (0, true, false)
      ∧ (tinywav_open_read (Build.other 0) tw0 none).map (fun r => (r.2, tinywav_isOpen r.1))
          = some (-1, false)
      ∧ (tinywav_open_read (Build.other 0) tw0 (some truncatedFile)).map
          (fun r => (r.2, tinywav_isOpen r.1)) = some (-1, true)
      ∧ (tinywav_open_read (Build.other 0) tw0
          (some ((0x58 : Byte) :: (trailingChunkFile (Build.other 0)).drop 1))).map
          (fun r => (r.2, tinywav_isOpen r.1)) = some (-1, true)
      ∧ (tinywav_open_read (Build.other 0) tw0 (some (noDataFile (Build.other 0)))).map
          (fun r => (r.2, tinywav_isOpen r.1)) = some (-1, true)
      ∧ (tinywav_open_read (Build.other 0) tw0
          (some (writeSession (Build.other 0) tw0 (some 100) 1 16000 2 [[1, 2]]))).map
          (fun r => (r.2, tinywav_isOpen r.1)) = some (-1, true)) :=
  ⟨⟨by decide, by decide, by decide, by decide, by decide, by decide, by decide⟩,
   ⟨by decide, by decide, by decide, by decide, by decide, by decide, by decide, by decide⟩⟩

/-! ## Streams without a "data" id -/

/-- The outcome of the loop of `tinywav_open_read`, started after the header
window, on a stream that holds no "data" id at the offset of `Subchunk2ID` nor
at any of the offsets `sizeof(TinyWavHeader) + 4 + 12 j` where 8 bytes are
left. -/
theorem scan_without_data (B : Build) (c : List Byte) (hlen : sizeofTinyWavHeader B ≤ c.length)
    (hwin : (c.drop (offsetofSubchunk2ID B)).take 4 ≠ tagData)
    (hnone : ∀ j, sizeofTinyWavHeader B + 12 + 12 * j ≤ c.length →
      (c.drop (sizeofTinyWavHeader B + 4 + 12 * j)).take 4 ≠ tagData) :
    ∃ f' : FILE,
      skipLoop (c.length + 1)
        { content := c, pos := sizeofTinyWavHeader B, limit := c.length, closed := false }
        (headerOfBytes B (c.take (sizeofTinyWavHeader B))) = Scan.eof f' := by
  have hid : (headerOfBytes B (c.take (sizeofTinyWavHeader B))).Subchunk2ID
      ≠ htonl 0x64617461 := fun e => hwin ((window_data_iff B c hlen).1 e)
  obtain ⟨f', e, -⟩ := skipLoop_exhausts (c.length + 1)
    { content := c, pos := sizeofTinyWavHeader B, limit := c.length, closed := false } _ hid
    (fun i hi e => by
      simp only [] at hi e
      exact hnone i (by omega) (tagData_of_rd32 c _ (by omega) e))
    (by simp only []; omega)
  exact ⟨f', e⟩

/-- C16: in either build, on every stream shorter than 44 bytes
`tinywav_open_read` returns -1 (the one error value of the code), and on every
stream in which no "data" id is found, neither in the `Subchunk2ID` field of
the header window (offset 38 in the packed build, 40 in the other) nor at any
candidate offset `sizeof(TinyWavHeader) + 4 + 12 j` (50, 62, 74, ... or
52, 64, 76, ...) before the stream is exhausted, it returns -1, whether or not
the RIFF, WAVE and "fmt " tags are valid; in particular it returns -1 on every
stream that holds the four bytes "data" nowhere. -/
theorem open_read_fails_without_data (B : Build) (tw : TinyWav) (c : List Byte) :
    (c.length < 44 → ∃ r : TinyWav, tinywav_open_read B tw (some c) = some (r, -1))
      ∧ ((c.drop (offsetofSubchunk2ID B)).take 4 ≠ tagData →
          (∀ j, sizeofTinyWavHeader B + 12 + 12 * j ≤ c.length →
            (c.drop (sizeofTinyWavHeader B + 4 + 12 * j)).take 4 ≠ tagData) →
          ∃ r : TinyWav, tinywav_open_read B tw (some c) = some (r, -1))
      ∧ ((∀ o, (c.drop o).take 4 ≠ tagData) →
          ∃ r : TinyWav, tinywav_open_read B tw (some c) = some (r, -1)) := by
  have hS := sizeof_bounds B
  have key : (c.drop (offsetofSubchunk2ID B)).take 4 ≠ tagData →
      (∀ j, sizeofTinyWavHeader B + 12 + 12 * j ≤ c.length →
        (c.drop (sizeofTinyWavHeader B + 4 + 12 * j)).take 4 ≠ tagData) →
      ∃ r : TinyWav, tinywav_open_read B tw (some c) = some (r, -1) := by
    intro hwin hnone
    by_cases hlen : c.length < sizeofTinyWavHeader B
    · exact ⟨_, open_read_short B tw c hlen⟩
    · have hw := fread_window B c (by omega) c.length false
      by_cases hbad : (headerOfBytes B (c.take (sizeofTinyWavHeader B))).ChunkID
            ≠ htonl 0x52494646
          ∨ (headerOfBytes B (c.take (sizeofTinyWavHeader B))).Format ≠ htonl 0x57415645
          ∨ (headerOfBytes B (c.take (sizeofTinyWavHeader B))).Subchunk1ID ≠ htonl 0x666d7420
      · exact ⟨_, open_read_bad_window B tw c _ _ hw hbad⟩
      · simp only [not_or, not_not] at hbad
        obtain ⟨f', e⟩ := scan_without_data B c (by omega) hwin hnone
        exact ⟨_, open_read_of_eof B tw c _ _ f' hw hbad.1 hbad.2.1 hbad.2.2 e⟩
  refine ⟨fun hlen => ⟨_, open_read_short B tw c (by omega)⟩, key, fun hno => ?_⟩
  exact key (hno _) (fun j _ => hno _)

set_option maxRecDepth 16000 in
/-- C16, witness. In the packed build: a 12-byte stream; a 46-byte stream with
valid tags and "LIST" where "data" would be; and the 66-byte file with a
"LIST" chunk of 8 payload bytes before the "data" chunk, whose one candidate,
at offset 50, is not "data". In the other build: the 50-byte WAV file
`twoFrameFile`, in which that build looks for the id at offset 40 and has no
candidate to examine. -/
theorem open_read_fails_without_data_witness :
    (∃ r : TinyWav, tinywav_open_read Build.win32 tw0 (some truncatedFile) = some (r, -1))
      ∧ (∃ r : TinyWav,
          tinywav_open_read Build.win32 tw0 (some (noDataFile Build.win32)) = some (r, -1))
      ∧ (∃ r : TinyWav,
          tinywav_open_read Build.win32 tw0
            (some (insertChunk twoFrameFile tagLIST [9, 9, 9, 9, 9, 9, 9, 9])) = some (r, -1))
      ∧ ∃ r : TinyWav, tinywav_open_read (Build.other 0) tw0 (some twoFrameFile) = some (r, -1) :=
  ⟨(open_read_fails_without_data Build.win32 tw0 truncatedFile).1 (by decide),
   (open_read_fails_without_data Build.win32 tw0 (noDataFile Build.win32)).2.1 (by decide)
     (fun j hj => absurd hj (by
       have : (noDataFile Build.win32).length = 46 := by decide
       simp only [sizeofTinyWavHeader]
       omega)),
   (open_read_fails_without_data Build.win32 tw0
      (insertChunk twoFrameFile tagLIST [9, 9, 9, 9, 9, 9, 9, 9])).2.1 (by decide)
     (fun j hj => by
       have hl : (insertChunk twoFrameFile tagLIST [9, 9, 9, 9, 9, 9, 9, 9]).length = 66 := by
         decide
       simp only [sizeofTinyWavHeader] at hj
       have hj0 : j = 0 := by omega
       subst hj0
       decide),
   (open_read_fails_without_data (Build.other 0) tw0 twoFrameFile).2.1 (by decide)
     (fun j hj => absurd hj (by
       have : twoFrameFile.length = 50 := by decide
       simp only [sizeofTinyWavHeader]
       omega))⟩

/-! ## The candidates of the chunk-skipping loop -/

/-- The outcome of `tinywav_open_read` on a stream with valid tags whose first
candidate with the id "data" is the `j`-th after the header window. -/
theorem open_read_at_candidate (B : Build) (tw : TinyWav) (c : List Byte) (j : Nat)
    (h1 : c.take 4 = tagRIFF) (h2 : (c.drop 8).take 4 = tagWAVE)
    (h3 : (c.drop 12).take 4 = tagFmt)
    (hwin : (c.drop (offsetofSubchunk2ID B)).take 4 ≠ tagData)
    (hfull : sizeofTinyWavHeader B + 12 + 12 * j ≤ c.length)
    (hd : (c.drop (sizeofTinyWavHeader B + 4 + 12 * j)).take 4 = tagData)
    (hfirst : ∀ i, i < j → (c.drop (sizeofTinyWavHeader B + 4 + 12 * i)).take 4 ≠ tagData) :
    ∃ r : TinyWav, tinywav_open_read B tw (some c) = some (r, 0)
      ∧ r.totalDataBytes = rd32 c (sizeofTinyWavHeader B + 8 + 12 * j)
      ∧ r.f = some { content := c, pos := sizeofTinyWavHeader B + 12 + 12 * j,
                     limit := c.length, closed := false } := by
  have hS := sizeof_bounds B
  have hw := fread_window B c (by omega) c.length false
  obtain ⟨t1, t2, t3⟩ := window_tags B c h1 h2 h3
  have hid : (headerOfBytes B (c.take (sizeofTinyWavHeader B))).Subchunk2ID
      ≠ htonl 0x64617461 := fun e => hwin ((window_data_iff B c (by omega)).1 e)
  have hdn : rd32 c (sizeofTinyWavHeader B + 4 + 12 * j) = htonl 0x64617461 :=
    rd32_of_tagData c _ hd
  have hs := skipLoop_finds j (c.length + 1)
    { content := c, pos := sizeofTinyWavHeader B, limit := c.length, closed := false }
    (headerOfBytes B (c.take (sizeofTinyWavHeader B))) hid
    (fun i hi e => by
      simp only [] at e
      exact hfirst i hi (tagData_of_rd32 c _ (by omega) e))
    (by simp only []; omega) hdn (by omega)
  refine ⟨_, open_read_of_found B tw c _ _ _ _ hw t1 t2 t3 hs hdn, rfl, ?_⟩
  show some ({ content := c, pos := sizeofTinyWavHeader B + 12 * (j + 1), limit := c.length,
               closed := false } : FILE) = _
  rw [show sizeofTinyWavHeader B + 12 * (j + 1) = sizeofTinyWavHeader B + 12 + 12 * j by omega]

/-- C18: in either build, with H = `sizeof(TinyWavHeader)` the length of the
header window, on a stream of at least H bytes with valid RIFF, WAVE and "fmt "
tags whose `Subchunk2ID` field (the four bytes at H - 8) is not "data",
`tinywav_open_read` examines the 8-byte candidates at offsets H + 4, H + 16,
H + 28, ... (H + 4 + 12 j) that the stream holds in full. If the first
candidate with the id "data" is the `j`-th, it returns 0, takes
`totalDataBytes` from the size field of that candidate (at H + 8 + 12 j) and
leaves the stream at H + 12 + 12 j, right after the pair; if no candidate has
the id "data" it returns -1; so it returns 0 exactly when some candidate has
the id "data". -/
theorem open_read_scans_candidates (B : Build) (tw : TinyWav) (c : List Byte)
    (hlen : sizeofTinyWavHeader B ≤ c.length)
    (h1 : c.take 4 = tagRIFF) (h2 : (c.drop 8).take 4 = tagWAVE)
    (h3 : (c.drop 12).take 4 = tagFmt)
    (hwin : (c.drop (offsetofSubchunk2ID B)).take 4 ≠ tagData) :
    (∀ j, sizeofTinyWavHeader B + 12 + 12 * j ≤ c.length →
        (c.drop (sizeofTinyWavHeader B + 4 + 12 * j)).take 4 = tagData →
        (∀ i, i < j → (c.drop (sizeofTinyWavHeader B + 4 + 12 * i)).take 4 ≠ tagData) →
        ∃ r : TinyWav, tinywav_open_read B tw (some c) = some (r, 0)
          ∧ r.totalDataBytes = rd32 c (sizeofTinyWavHeader B + 8 + 12 * j)
          ∧ r.f = some { content := c, pos := sizeofTinyWavHeader B + 12 + 12 * j,
                         limit := c.length, closed := false })
      ∧ ((∀ j, sizeofTinyWavHeader B + 12 + 12 * j ≤ c.length →
            (c.drop (sizeofTinyWavHeader B + 4 + 12 * j)).take 4 ≠ tagData) →
          ∃ r : TinyWav, tinywav_open_read B tw (some c) = some (r, -1))
      ∧ ((∃ r : TinyWav, tinywav_open_read B tw (some c) = some (r, 0)) ↔
          ∃ j, sizeofTinyWavHeader B + 12 + 12 * j ≤ c.length
            ∧ (c.drop (sizeofTinyWavHeader B + 4 + 12 * j)).take 4 = tagData)
      ∧ offsetofSubchunk2ID B + 8 = sizeofTinyWavHeader B := by
  have hfail : (∀ j, sizeofTinyWavHeader B + 12 + 12 * j ≤ c.length →
        (c.drop (sizeofTinyWavHeader B + 4 + 12 * j)).take 4 ≠ tagData) →
      ∃ r : TinyWav, tinywav_open_read B tw (some c) = some (r, -1) := by
    intro hnone
    have hw := fread_window B c hlen c.length false
    obtain ⟨t1, t2, t3⟩ := window_tags B c h1 h2 h3
    obtain ⟨f', e⟩ := scan_without_data B c hlen hwin hnone
    exact ⟨_, open_read_of_eof B tw c _ _ f' hw t1 t2 t3 e⟩
  refine ⟨fun j hfull hd hfirst => open_read_at_candidate B tw c j h1 h2 h3 hwin hfull hd hfirst,
    hfail, ⟨?_, ?_⟩, (sizeof_bounds B).2.2⟩
  · rintro ⟨r, hr⟩
    by_contra hno
    have hnone : ∀ j, sizeofTinyWavHeader B + 12 + 12 * j ≤ c.length →
        (c.drop (sizeofTinyWavHeader B + 4 + 12 * j)).take 4 ≠ tagData :=
      fun j hj hd => hno ⟨j, hj, hd⟩
    obtain ⟨r', hr'⟩ := hfail hnone
    rw [hr] at hr'
    simp at hr'
  · intro hex
    classical
    have hmin : ∀ i, i < Nat.find hex →
        (c.drop (sizeofTinyWavHeader B + 4 + 12 * i)).take 4 ≠ tagData := by
      intro i hi hd
      exact Nat.find_min hex hi ⟨by have := (Nat.find_spec hex).1; omega, hd⟩
    obtain ⟨r, hr, -⟩ := open_read_at_candidate B tw c (Nat.find hex) h1 h2 h3 hwin
      (Nat.find_spec hex).1 (Nat.find_spec hex).2 hmin
    exact ⟨r, hr⟩

set_option maxRecDepth 16000 in
/-- C18, witness. In the packed build, in the file with a four-byte "LIST"
chunk the candidate at offset 50 is the "data" header, so `tinywav_open_read`
returns 0 with the size found at offset 54 and the stream at offset 58. In the
other build, in the file with a six-byte "LIST" chunk the candidate at offset
52 is the "data" header, so `tinywav_open_read` returns 0 with the size found
at offset 56 and the stream at offset 60. -/
theorem open_read_scans_candidates_witness :
    (∃ r : TinyWav, tinywav_open_read Build.win32 tw0 (some fourByteChunkFile) = some (r, 0)
      ∧ r.totalDataBytes = rd32 fourByteChunkFile (46 + 8 + 12 * 0)
      ∧ r.f = some { content := fourByteChunkFile, pos := 46 + 12 + 12 * 0,
                     limit := fourByteChunkFile.length, closed := false })
    ∧ (∃ r : TinyWav, tinywav_open_read (Build.other 0) tw0 (some sixByteChunkFile) = some (r, 0)
      ∧ r.totalDataBytes = rd32 sixByteChunkFile (48 + 8 + 12 * 0)
      ∧ r.f = some { content := sixByteChunkFile, pos := 48 + 12 + 12 * 0,
                     limit := sixByteChunkFile.length, closed := false }) :=
  ⟨(open_read_scans_candidates Build.win32 tw0 fourByteChunkFile (by decide) (by decide)
      (by decide) (by decide) (by decide)).1 0 (by decide) (by decide)
      (fun i hi => absurd hi (Nat.not_lt_zero i)),
   (open_read_scans_candidates (Build.other 0) tw0 sixByteChunkFile (by decide) (by decide)
      (by decide) (by decide) (by decide)).1 0 (by decide) (by decide)
      (fun i hi => absurd hi (Nat.not_lt_zero i))⟩

/-! ## Termination of `tinywav_open_read` -/

/-- The function `tinywav_open_read` returns on every input: the loop never
needs more evaluations of its condition than the stream has bytes, plus one. -/
theorem open_read_total (B : Build) (tw : TinyWav) (path : Option (List Byte)) :
    ∃ (r : TinyWav) (ret : Int), tinywav_open_read B tw path = some (r, ret) := by
  cases path with
  | none => exact ⟨_, _, rfl⟩
  | some c =>
    rcases open_read_outcome B tw c with ⟨r, hr, -⟩ | ⟨f, hf, -⟩
    · exact ⟨_, _, hr⟩
    · exact ⟨_, _, hf⟩

/-- C19: in either build `tinywav_open_read` returns on every input. On a
stream of `L` bytes read up to `pos` (`pos` = `sizeof(TinyWavHeader)` when the
loop of `tinywav_open_read` starts), the chunk-skipping loop finishes within
`(L - pos) / 12 + 1` evaluations of its condition, hence within that many
iterations, and more fuel does not change its outcome; an iteration that still
finds 8 bytes after its 4-byte skip moves the stream 12 bytes on, one that does
not ends the loop with a failed read. -/
theorem open_read_terminates (B : Build) (tw : TinyWav) (path : Option (List Byte)) (f : FILE)
    (h : TinyWavHeader) (n m : Nat) :
    (∃ (r : TinyWav) (ret : Int), tinywav_open_read B tw path = some (r, ret))
      ∧ skipLoop ((f.content.length - f.pos) / 12 + 1) f h ≠ Scan.fuel
      ∧ skipLoop ((f.content.length - f.pos) / 12 + 1 + m) f h
          = skipLoop ((f.content.length - f.pos) / 12 + 1) f h
      ∧ (h.Subchunk2ID ≠ htonl 0x64617461 → f.pos + 12 ≤ f.content.length →
          skipLoop (n + 1) f h =
            skipLoop n { f with pos := f.pos + 12 }
              { h with Subchunk2ID := rd32 f.content (f.pos + 4),
                       Subchunk2Size := rd32 f.content (f.pos + 8) })
      ∧ (h.Subchunk2ID ≠ htonl 0x64617461 → f.content.length < f.pos + 12 →
          ∃ f' : FILE, skipLoop (n + 1) f h = Scan.eof f') := by
  have hfin := skipLoop_terminates ((f.content.length - f.pos) / 12 + 1) f h (Nat.le_refl _)
  refine ⟨open_read_total B tw path, hfin, skipLoop_mono _ f h m hfin,
    fun hne hfull => skipLoop_next n f h hne hfull, fun hne hshort => ?_⟩
  obtain ⟨f', e, -⟩ := skipLoop_eof n f h hne hshort
  exact ⟨f', e⟩

set_option maxRecDepth 16000 in
/-- C19, witness: on the stream of `sizeof(TinyWavHeader)` bytes with "LIST"
in place of "data" (46 bytes in the packed build, 48 in the other),
`tinywav_open_read` returns, the loop started after the header window finishes
within (46 - 46) / 12 + 1 = 1 evaluation of its condition, and its one
iteration ends with a failed read. -/
theorem open_read_terminates_witness :
    ((∃ (r : TinyWav) (ret : Int),
        tinywav_open_read Build.win32 tw0 (some (noDataFile Build.win32)) = some (r, ret))
      ∧ skipLoop 1 { content := noDataFile Build.win32, pos := 46, limit := 46, closed := false }
          (headerOfBytes Build.win32 (noDataFile Build.win32)) ≠ Scan.fuel
      ∧ ∃ f' : FILE,
          skipLoop (0 + 1)
            { content := noDataFile Build.win32, pos := 46, limit := 46, closed := false }
            (headerOfBytes Build.win32 (noDataFile Build.win32)) = Scan.eof f')
    ∧ ((∃ (r : TinyWav) (ret : Int),
        tinywav_open_read (Build.other 0) tw0 (some (noDataFile (Build.other 0)))
          = some (r, ret))
      ∧ skipLoop 1
          { content := noDataFile (Build.other 0), pos := 48, limit := 48, closed := false }
          (headerOfBytes (Build.other 0) (noDataFile (Build.other 0))) ≠ Scan.fuel
      ∧ ∃ f' : FILE,
          skipLoop (0 + 1)
            { content := noDataFile (Build.other 0), pos := 48, limit := 48, closed := false }
            (headerOfBytes (Build.other 0) (noDataFile (Build.other 0))) = Scan.eof f') :=
  ⟨⟨(open_read_terminates Build.win32 tw0 (some (noDataFile Build.win32))
      { content := noDataFile Build.win32, pos := 46, limit := 46, closed := false }
      (headerOfBytes Build.win32 (noDataFile Build.win32)) 0 0).1,
    (open_read_terminates Build.win32 tw0 (some (noDataFile Build.win32))
      { content := noDataFile Build.win32, pos := 46, limit := 46, closed := false }
      (headerOfBytes Build.win32 (noDataFile Build.win32)) 0 0).2.1,
    (open_read_terminates Build.win32 tw0 (some (noDataFile Build.win32))
      { content := noDataFile Build.win32, pos := 46, limit := 46, closed := false }
      (headerOfBytes Build.win32 (noDataFile Build.win32)) 0 0).2.2.2.2 (by decide) (by decide)⟩,
   ⟨(open_read_terminates (Build.other 0) tw0 (some (noDataFile (Build.other 0)))
      { content := noDataFile (Build.other 0), pos := 48, limit := 48, closed := false }
      (headerOfBytes (Build.other 0) (noDataFile (Build.other 0))) 0 0).1,
    (open_read_terminates (Build.other 0) tw0 (some (noDataFile (Build.other 0)))
      { content := noDataFile (Build.other 0), pos := 48, limit := 48, closed := false }
      (headerOfBytes (Build.other 0) (noDataFile (Build.other 0))) 0 0).2.1,
    (open_read_terminates (Build.other 0) tw0 (some (noDataFile (Build.other 0)))
      { content := noDataFile (Build.other 0), pos := 48, limit := 48, closed := false }
      (headerOfBytes (Build.other 0) (noDataFile (Build.other 0))) 0 0).2.2.2.2
        (by decide) (by decide)⟩⟩

/-! ## `tinywav_write_f` -/

/-- The session that `tinywav_open_write` sets up on a device of any capacity:
the stream holds what the device took of the header and stands at its end. -/
theorem open_write_state (B : Build) (tw : TinyWav) (cap : Nat) (nc sr bps : Int)
    (hsr : sr = 16000 ∨ sr = 32000 ∨ sr = 48000) (hbps : bps = 2 ∨ bps = 3 ∨ bps = 4) :
    tinywav_open_write B tw (some cap) nc sr bps =
      ({ f := some { content := (headerBytes B (initHeader nc sr bps)).take cap,
                     pos := ((headerBytes B (initHeader nc sr bps)).take cap).length,
                     limit := cap, closed := false },
         h := some (initHeader nc sr bps), numChannels := nc, bytesPerSample := bps,
         samplerate := sr, totalDataBytes := 0, rpos := tw.rpos }, 0) := by
  have g1 : ¬ (nc < 1 ∧ nc > 7) := by omega
  have g2 : ¬ (sr ≠ 16000 ∧ sr ≠ 32000 ∧ sr ≠ 48000) := by omega
  have g3 : ¬ ((bps ≠ 2 ∧ bps ≠ 4) ∧ bps ≠ 3) := by omega
  have e : ∀ (n : Nat) (buf : List Byte), buf.length = n →
      (fwrite { content := [], pos := 0, limit := cap, closed := false } buf n 1).1
        = { content := buf.take cap, pos := (buf.take cap).length, limit := cap,
            closed := false } := by
    intro n buf hb
    have e1 : buf.take n = buf := List.take_of_length_le (by omega)
    simp [fwrite, e1]
  simp only [tinywav_open_write, if_neg g1, if_neg g2, if_neg g3, fopen_wb,
    e _ _ (headerBytes_length B _)]

theorem take_length_take (l : List Byte) (k : Nat) :
    l.take (l.take k).length = l.take k := by
  rw [List.length_take]
  by_cases h : k ≤ l.length
  · rw [Nat.min_eq_left h]
  · rw [Nat.min_eq_right (by omega), List.take_length, List.take_of_length_le (by omega)]

/-- C17: in either build, in every writer session (any accepted parameters,
any device capacity, any writes before), a `tinywav_write_f(data, len)` with
`0 <= len` and `len` bytes at `data` hands these `len` bytes to the stream at
its end: the stream grows by the first `ret` of them, where `ret`, the value
returned, is the count that `fwrite` reports, and by all `len` of them when
the device has room; the counter `totalDataBytes` grows by exactly `len`,
whatever was reported, so that it is the sum of the lengths asked for;
`numChannels`, `samplerate` and `bytesPerSample` stay as they were. -/
theorem write_f_effect (B : Build) (tw : TinyWav) (cap : Nat) (nc sr bps : Int)
    (chunks : List (List Byte)) (data : List Byte) (len : Nat)
    (hsr : sr = 16000 ∨ sr = 32000 ∨ sr = 48000) (hbps : bps = 2 ∨ bps = 3 ∨ bps = 4)
    (hlen : len ≤ data.length)
    (htot : chunks.flatten.length + len < 18446744073709551616) :
    ∃ f f' : FILE,
      (writerSession B tw (some cap) nc sr bps chunks).f = some f
      ∧ f.pos = f.content.length
      ∧ (tinywav_write_f (writerSession B tw (some cap) nc sr bps chunks) data (len : Int)).1.f
          = some f'
      ∧ (tinywav_write_f (writerSession B tw (some cap) nc sr bps chunks) data (len : Int)).2
          = (fwrite f data 1 len).2
      ∧ f'.content = f.content ++ (data.take len).take
          (tinywav_write_f (writerSession B tw (some cap) nc sr bps chunks) data (len : Int)).2
      ∧ f'.pos = f'.content.length
      ∧ (f.content.length + len ≤ cap →
          f'.content = f.content ++ data.take len
          ∧ (tinywav_write_f (writerSession B tw (some cap) nc sr bps chunks) data (len : Int)).2
              = len)
      ∧ (writerSession B tw (some cap) nc sr bps chunks).totalDataBytes = chunks.flatten.length
      ∧ (tinywav_write_f (writerSession B tw (some cap) nc sr bps chunks) data
          (len : Int)).1.totalDataBytes = chunks.flatten.length + len
      ∧ (tinywav_write_f (writerSession B tw (some cap) nc sr bps chunks) data
          (len : Int)).1.numChannels = nc
      ∧ (tinywav_write_f (writerSession B tw (some cap) nc sr bps chunks) data
          (len : Int)).1.samplerate = sr
      ∧ (tinywav_write_f (writerSession B tw (some cap) nc sr bps chunks) data
          (len : Int)).1.bytesPerSample = bps := by
  unfold writerSession
  rw [open_write_state B tw cap nc sr bps hsr hbps]
  rw [write_chunks_general chunks _ _ rfl rfl (by simp only []; omega)]
  generalize hc0 : (headerBytes B (initHeader nc sr bps)).take cap = c0
  generalize hc1 : c0 ++ chunks.flatten.take (cap - c0.length) = c1
  have hp : c0.length + (chunks.flatten.take (cap - c0.length)).length = c1.length := by
    rw [← hc1, List.length_append]
  rw [hp]
  rw [write_f_at_end _ { content := c1, pos := c1.length, limit := cap, closed := false }
    data len rfl rfl (by omega)]
  have hm : (0 + chunks.flatten.length + len) % 18446744073709551616
      = chunks.flatten.length + len := by
    rw [Nat.zero_add]; exact Nat.mod_eq_of_lt htot
  have hl : (data.take len).length = len := by rw [List.length_take]; omega
  refine ⟨_, _, rfl, rfl, rfl, ?_, ?_, ?_, ?_, ?_, ?_, rfl, rfl, rfl⟩
  · simp [fwrite]
  · simp only [take_length_take]
  · simp only [List.length_append]
  · intro hroom
    simp only [] at hroom
    have e : (data.take len).take (cap - c1.length) = data.take len :=
      List.take_of_length_le (by omega)
    simp only [e, hl, and_self]
  · simp only [Nat.zero_add]
  · exact hm

/-- C17, witness: a mono 16-bit session of the packed build on a device of 50
bytes, after one write of two bytes; the write of four more bytes is cut short
to two. -/
theorem write_f_effect_witness :
    ∃ f f' : FILE,
      (writerSession Build.win32 tw0 (some 50) 1 16000 2 [[1, 2]]).f = some f
      ∧ f.pos = f.content.length
      ∧ (tinywav_write_f (writerSession Build.win32 tw0 (some 50) 1 16000 2 [[1, 2]]) [3, 4, 5, 6]
          ((4 : Nat) : Int)).1.f = some f'
      ∧ (tinywav_write_f (writerSession Build.win32 tw0 (some 50) 1 16000 2 [[1, 2]]) [3, 4, 5, 6]
          ((4 : Nat) : Int)).2 = (fwrite f [3, 4, 5, 6] 1 4).2
      ∧ f'.content = f.content ++ (([3, 4, 5, 6] : List Byte).take 4).take
          (tinywav_write_f (writerSession Build.win32 tw0 (some 50) 1 16000 2 [[1, 2]]) [3, 4, 5, 6]
            ((4 : Nat) : Int)).2
      ∧ f'.pos = f'.content.length
      ∧ (f.content.length + 4 ≤ 50 →
          f'.content = f.content ++ ([3, 4, 5, 6] : List Byte).take 4
          ∧ (tinywav_write_f (writerSession Build.win32 tw0 (some 50) 1 16000 2 [[1, 2]]) [3, 4, 5, 6]
              ((4 : Nat) : Int)).2 = 4)
      ∧ (writerSession Build.win32 tw0 (some 50) 1 16000 2 [[1, 2]]).totalDataBytes
          = ([[1, 2]] : List (List Byte)).flatten.length
      ∧ (tinywav_write_f (writerSession Build.win32 tw0 (some 50) 1 16000 2 [[1, 2]]) [3, 4, 5, 6]
          ((4 : Nat) : Int)).1.totalDataBytes = ([[1, 2]] : List (List Byte)).flatten.length + 4
      ∧ (tinywav_write_f (writerSession Build.win32 tw0 (some 50) 1 16000 2 [[1, 2]]) [3, 4, 5, 6]
          ((4 : Nat) : Int)).1.numChannels = 1
      ∧ (tinywav_write_f (writerSession Build.win32 tw0 (some 50) 1 16000 2 [[1, 2]]) [3, 4, 5, 6]
          ((4 : Nat) : Int)).1.samplerate = 16000
      ∧ (tinywav_write_f (writerSession Build.win32 tw0 (some 50) 1 16000 2 [[1, 2]]) [3, 4, 5, 6]
          ((4 : Nat) : Int)).1.bytesPerSample = 2 :=
  write_f_effect Build.win32 tw0 50 1 16000 2 [[1, 2]] [3, 4, 5, 6] 4 (by decide) (by decide) (by decide)
    (by decide)

/-- The short write of the witness: of the four bytes asked for, two are
taken; the counter still grows by four. In the other build, whose header is
two bytes longer, none is taken. -/
theorem write_f_short_example :
    (tinywav_write_f (writerSession Build.win32 tw0 (some 50) 1 16000 2 [[1, 2]])
        [3, 4, 5, 6] 4).2 = 2
      ∧ (tinywav_write_f (writerSession Build.win32 tw0 (some 50) 1 16000 2 [[1, 2]])
          [3, 4, 5, 6] 4).1.totalDataBytes = 6
      ∧ (tinywav_write_f (writerSession (Build.other 0) tw0 (some 50) 1 16000 2 [[1, 2]])
          [3, 4, 5, 6] 4).2 = 0
      ∧ (tinywav_write_f (writerSession (Build.other 0) tw0 (some 50) 1 16000 2 [[1, 2]])
          [3, 4, 5, 6] 4).1.totalDataBytes = 6 := by
  decide

/-! ## Files with three bytes per sample -/

/-- Every `tinywav_read_f` on a session whose sample width is neither 2 nor 4
returns -1, stores nothing and leaves the session as it was. -/
theorem read_calls_unsupported (tw : TinyWav)
    (hb : ¬ (tw.bytesPerSample = 2 ∨ tw.bytesPerSample = 4)) (lens : List Int) :
    read_calls tw lens = lens.map (fun _ => ((-1 : Int), ([] : List Byte))) := by
  induction lens with
  | nil => rfl
  | cons len rest ih =>
    have e : tinywav_read_f tw len = (tw, -1, []) := by simp only [tinywav_read_f, if_neg hb]
    simp only [read_calls, e, List.map_cons, ih]

/-- C20: in either build `tinywav_open_write` accepts three bytes per sample,
and for every file of such a session (any channel count and supported rate,
any writes, on a device that takes the header) `tinywav_open_read` has one of
two outcomes. Either it returns 0, and then `bytesPerSample = 3` and every
`tinywav_read_f` call returns -1 and stores no data; or it returns -1 with the
stream closed and the session otherwise as it was, and then every
`tinywav_read_f` call returns -1 and stores no data unless the session object
still carries a sample width of 2 or 4 from an earlier use (a call that would
read from the closed stream). In the packed build the outcome is the first. -/
theorem three_byte_files_unreadable (B : Build) (tw twr : TinyWav) (cap : Nat) (nc sr : Int)
    (chunks : List (List Byte)) (lens : List Int)
    (hsr : sr = 16000 ∨ sr = 32000 ∨ sr = 48000)
    (htot : chunks.flatten.length < 18446744073709551616)
    (hcap : sizeofTinyWavHeader B ≤ cap) :
    (tinywav_open_write B tw (some cap) nc sr 3).2 = 0
      ∧ ((∃ r : TinyWav,
            tinywav_open_read B twr (some (writeSession B tw (some cap) nc sr 3 chunks))
              = some (r, 0)
            ∧ r.bytesPerSample = 3
            ∧ read_calls r lens = lens.map (fun _ => ((-1 : Int), ([] : List Byte))))
          ∨ ∃ f : FILE,
              tinywav_open_read B twr (some (writeSession B tw (some cap) nc sr 3 chunks))
                = some ({ twr with f := some f, h := none }, -1)
              ∧ f.closed = true
              ∧ (twr.bytesPerSample ≠ 2 → twr.bytesPerSample ≠ 4 →
                  read_calls { twr with f := some f, h := none } lens
                    = lens.map (fun _ => ((-1 : Int), ([] : List Byte)))))
      ∧ (B = Build.win32 →
          ∃ r : TinyWav,
            tinywav_open_read B twr (some (writeSession B tw (some cap) nc sr 3 chunks))
              = some (r, 0)) := by
  have hbps : (3 : Int) = 2 ∨ (3 : Int) = 3 ∨ (3 : Int) = 4 := by decide
  have h34 : rd16 (writeSession B tw (some cap) nc sr 3 chunks) 34 = 24 := by
    have hh := writeSession_head B tw cap nc sr 3 chunks hsr hbps htot hcap
    have hf := (fields_of_file B (initHeader nc sr 3) []).2.2.2.2.2.2.1
    rw [List.append_nil] at hf
    unfold rd16 at hf ⊢
    rw [hh 34 (by omega) (by omega), hh (34 + 1) (by omega) (by omega), hf]
    show toU16 (3 * 8) % 65536 = 24
    decide
  refine ⟨by rw [open_write_accepts B tw cap nc sr 3 hsr hbps hcap], ?_, ?_⟩
  · rcases open_read_outcome B twr (writeSession B tw (some cap) nc sr 3 chunks) with
      ⟨r, hr, -, -, e3, -⟩ | ⟨f, hf, hcl⟩
    · rw [h34] at e3
      have hb3 : r.bytesPerSample = 3 := e3
      refine Or.inl ⟨r, hr, hb3, read_calls_unsupported _ ?_ lens⟩
      rw [hb3]
      decide
    · exact Or.inr ⟨f, hf, hcl, fun h2 h4 =>
        read_calls_unsupported { twr with f := some f, h := none } (fun hh => hh.elim h2 h4) lens⟩
  · intro hB
    subst hB
    rw [writeSession_general tw cap nc sr 3 chunks hsr hbps htot hcap, open_read_closed]
    exact ⟨_, rfl⟩

set_option maxRecDepth 16000 in
/-- C20, witness: a stereo session with one frame of 3-byte samples, then
reads of 6, 3 and 0 bytes through a session object not used before, in the
packed build and in the other. -/
theorem three_byte_files_unreadable_witness :
    ((tinywav_open_write Build.win32 tw0 (some 100) 2 48000 3).2 = 0
      ∧ ((∃ r : TinyWav,
            tinywav_open_read Build.win32 tw0
                (some (writeSession Build.win32 tw0 (some 100) 2 48000 3 [[1, 2, 3, 4, 5, 6]]))
              = some (r, 0)
            ∧ r.bytesPerSample = 3
            ∧ read_calls r [6, 3, 0]
                = ([6, 3, 0] : List Int).map (fun _ => ((-1 : Int), ([] : List Byte))))
          ∨ ∃ f : FILE,
              tinywav_open_read Build.win32 tw0
                  (some (writeSession Build.win32 tw0 (some 100) 2 48000 3 [[1, 2, 3, 4, 5, 6]]))
                = some ({ tw0 with f := some f, h := none }, -1)
              ∧ f.closed = true
              ∧ (tw0.bytesPerSample ≠ 2 → tw0.bytesPerSample ≠ 4 →
                  read_calls { tw0 with f := some f, h := none } [6, 3, 0]
                    = ([6, 3, 0] : List Int).map (fun _ => ((-1 : Int), ([] : List Byte)))))
      ∧ (Build.win32 = Build.win32 →
          ∃ r : TinyWav,
            tinywav_open_read Build.win32 tw0
                (some (writeSession Build.win32 tw0 (some 100) 2 48000 3 [[1, 2, 3, 4, 5, 6]]))
              = some (r, 0)))
    ∧ ((tinywav_open_write (Build.other 0) tw0 (some 100) 2 48000 3).2 = 0
      ∧ ((∃ r : TinyWav,
            tinywav_open_read (Build.other 0) tw0
                (some (writeSession (Build.other 0) tw0 (some 100) 2 48000 3
                  [[1, 2, 3, 4, 5, 6]]))
              = some (r, 0)
            ∧ r.bytesPerSample = 3
            ∧ read_calls r [6, 3, 0]
                = ([6, 3, 0] : List Int).map (fun _ => ((-1 : Int), ([] : List Byte))))
          ∨ ∃ f : FILE,
              tinywav_open_read (Build.other 0) tw0
                  (some (writeSession (Build.other 0) tw0 (some 100) 2 48000 3
                    [[1, 2, 3, 4, 5, 6]]))
                = some ({ tw0 with f := some f, h := none }, -1)
              ∧ f.closed = true
              ∧ (tw0.bytesPerSample ≠ 2 → tw0.bytesPerSample ≠ 4 →
                  read_calls { tw0 with f := some f, h := none } [6, 3, 0]
                    = ([6, 3, 0] : List Int).map (fun _ => ((-1 : Int), ([] : List Byte)))))
      ∧ (Build.other 0 = Build.win32 →
          ∃ r : TinyWav,
            tinywav_open_read (Build.other 0) tw0
                (some (writeSession (Build.other 0) tw0 (some 100) 2 48000 3
                  [[1, 2, 3, 4, 5, 6]]))
              = some (r, 0))) :=
  ⟨three_byte_files_unreadable Build.win32 tw0 tw0 100 2 48000 [[1, 2, 3, 4, 5, 6]] [6, 3, 0]
    (by decide) (by decide) (by decide),
   three_byte_files_unreadable (Build.other 0) tw0 tw0 100 2 48000 [[1, 2, 3, 4, 5, 6]] [6, 3, 0]
    (by decide) (by decide) (by decide)⟩

set_option maxRecDepth 16000 in
/-- The same session in the build whose header is not packed:
`tinywav_open_read` returns -1 on the finished file, and reads of 6, 3 and 0
bytes through the session object, which was not used before, return -1. -/
theorem three_byte_file_without_packing :
    (tinywav_open_read (Build.other 0) tw0
        (some (writeSession (Build.other 0) tw0 (some 100) 2 48000 3 [[1, 2, 3, 4, 5, 6]]))).map
      (fun r => (r.2, read_calls r.1 [6, 3, 0])) = some (-1, [(-1, []), (-1, []), (-1, [])]) := by
  decide

end Tinywav
